import Mathlib

/-!
# proto-example: handshake messages, wire packets and the session engine

A shallow embedding of `internal/app` (info.go, packet.go, session.go, client.go) and of
the hash utilities of `internal/common` (hash.go), together with the facts proved about
them.

Conventions of the embedding

* a Go `byte` is a `Fin 256`; a Go `[]byte` or `string` is a `List Byte`;
  a Go array `[n]byte` is a list of length `n` (`Bytes n`);
* Go maps are association lists read through `Map.find`;
* the packages the repository only calls (`net`, `crypto/ed25519`, `nacl/box`,
  `salsa20`, base58) are a parameter `Lib`;
* what a run reads from the outside world (random bytes, generated keys, the clock,
  the result of the socket write) is a parameter `Oracle`;
* a Go run-time panic is an explicit outcome (`Ret.panicked`);
* the goroutines of a client at shutdown (`run`, `reader`, calls of `Close`) are a step
  function on the state they share (`Lifecycle`), one channel, wait-group or socket
  operation per step, run along a schedule (`Lifecycle.exec`).
-/

namespace ProtoExample

set_option maxRecDepth 100000

/-! ## Bytes, arrays, slices -/

abbrev Byte := Fin 256

/-- Go array `[n]byte`. -/
abbrev Bytes (n : Nat) := { l : List Byte // l.length = n }

/-- The zero value of `[n]byte`. -/
def Bytes.zero (n : Nat) : Bytes n := ⟨List.replicate n 0, by simp⟩

/-- Go builtin `copy(dst, src)`: overwrites the first `min (len dst) (len src)` bytes of
`dst`; the value is the new content of `dst`. -/
def goCopy (dst src : List Byte) : List Byte :=
  src.take dst.length ++ dst.drop src.length

/-- The statement `copy(a[:], src)` on an array `a`. -/
def Bytes.copy {n : Nat} (dst : Bytes n) (src : List Byte) : Bytes n :=
  ⟨goCopy dst.val src, by
    have h := dst.property
    simp only [goCopy, List.length_append, List.length_take, List.length_drop]
    omega⟩

/-- Go slice expression `s[:hi]` on a slice whose capacity equals its length:
`none` is the run-time panic "slice bounds out of range". -/
def sliceTo (s : List Byte) (hi : Nat) : Option (List Byte) :=
  if hi ≤ s.length then some (s.take hi) else none

/-- Byte-wise exclusive or of a buffer with a key stream given by position. -/
def xorStream (ks : Nat → Byte) (buf : List Byte) : List Byte :=
  (List.range buf.length).zipWith (fun i x => x ^^^ ks i) buf

/-- Function `binary.BigEndian.Uint16` on a two-byte slice. -/
def beUint16 (b : List Byte) : Nat :=
  (b.getD 0 0).val * 256 + (b.getD 1 0).val

/-- Function `binary.BigEndian.PutUint16(b, uint16(v))`: the two bytes written. -/
def bePutUint16 (v : Nat) : List Byte :=
  [Fin.ofNat ((v % 65536) / 256), Fin.ofNat (v % 256)]

/-! ## Errors and the outside world -/

/-- Go `error` values: `errors.New(text)` of the repository, or an error handed back by a
library call. -/
inductive GoError where
  | new (text : String)
  | lib (text : String)
  deriving DecidableEq, Repr

/-- Go `net.UDPAddr`. -/
structure UDPAddr where
  IP : List Byte
  Port : Int
  Zone : List Byte
  deriving DecidableEq, Repr

abbrev Hash256 := Bytes 32
abbrev PubKey := Bytes 32
abbrev PrivKey := Bytes 64
abbrev SigData := Bytes 64

/-- The library functions the repository calls but does not define. -/
structure Lib where
  /-- Method `(*net.UDPAddr).String` on a non-nil address. -/
  addrString : UDPAddr → List Byte
  /-- The printed form always holds the host/port separator, so it is never empty. -/
  addrString_ne_nil : ∀ a, addrString a ≠ []
  /-- Function `net.ResolveUDPAddr("udp", s)`. -/
  ResolveUDPAddr : List Byte → Except GoError UDPAddr
  /-- Function `ed25519.Sign`. -/
  Sign : PrivKey → List Byte → SigData
  /-- Function `ed25519.Verify`. -/
  Verify : PubKey → List Byte → SigData → Bool
  /-- Function `box.Precompute(&shared, peersPublicKey, privateKey)`: the shared key. -/
  Precompute : Bytes 32 → Bytes 32 → Bytes 32
  /-- The salsa20 key stream for a nonce and a key, by byte position. -/
  keyStream : List Byte → Bytes 32 → Nat → Byte
  /-- Function `common.Base58Encode`. -/
  Base58Encode : List Byte → List Byte
  /-- Function `common.Base58Decode`. -/
  Base58Decode : List Byte → List Byte

/-- Function `salsa20.XORKeyStream(out, in, nonce, key)` with `out` and `in` the same
buffer: the new content of the buffer. -/
def Lib.XORKeyStream (L : Lib) (buf nonce : List Byte) (key : Bytes 32) : List Byte :=
  xorStream (L.keyStream nonce key) buf

/-- Method `(*net.UDPAddr).String`, nil receiver included. -/
def UDPAddr.String (L : Lib) : Option UDPAddr → List Byte
  | none => [60, 110, 105, 108, 62]
  | some a => L.addrString a

/-! ## info.go -/

/-- Go `Info`; `PublicKey` is the pointed-to key, `Address` may be nil. -/
structure Info where
  PublicKey : PubKey
  Address : Option UDPAddr
  Name : List Byte
  deriving DecidableEq

def ParseInfo (L : Lib) (data : List Byte) : Except GoError Info :=
  if data.length < 34 then
    .error (.new "invalid info: data too short")
  else
    let pub : PubKey := (Bytes.zero 32).copy (data.take 32)
    let addrLen := (data.getD 32 0).val
    if data.length < addrLen + 33 then
      .error (.new "invalid info: data too short")
    else
      match L.ResolveUDPAddr ((data.drop 33).take addrLen) with
      | .error err => .error err
      | .ok addr => .ok { PublicKey := pub, Address := some addr, Name := data.drop (33 + addrLen) }

def Info.Bytes (L : Lib) (info : Info) : List Byte :=
  let astr := UDPAddr.String L info.Address
  let data : List Byte := []
  let data := data ++ info.PublicKey.val
  let data := data ++ [Fin.ofNat astr.length]
  let data := data ++ astr
  data ++ info.Name

structure AnnounceMessage where
  PublicKey : Bytes 32
  SessionID : Bytes 32
  Client : Info
  deriving DecidableEq

def ParseAnnounceMessage (L : Lib) (data : List Byte) : Except GoError AnnounceMessage :=
  if data.length < 64 then
    .error (.new "message too short")
  else
    let sessionID : Bytes 32 := (Bytes.zero 32).copy (data.take 32)
    let publicKey : Bytes 32 := (Bytes.zero 32).copy ((data.drop 32).take 32)
    match ParseInfo L (data.drop 64) with
    | .error err => .error err
    | .ok info => .ok { PublicKey := publicKey, SessionID := sessionID, Client := info }

def AnnounceMessage.Bytes (L : Lib) (msg : AnnounceMessage) : List Byte :=
  let data := msg.SessionID.val
  let data := data ++ msg.PublicKey.val
  data ++ msg.Client.Bytes L

/-! ## packet.go -/

def CodeAnnounce : Nat := 0
def CodeNotAnnounced : Nat := 1
def CodePayload : Nat := 2
def CodeCloseSession : Nat := 255

abbrev header := List Byte

def header.CRC (h : header) : List Byte := h.take 4
def header.ID (h : header) : List Byte := (h.drop 4).take 32
def header.Code (h : header) : List Byte := (h.drop 36).take 1
def header.Size (h : header) : List Byte := (h.drop 37).take 2
def header.Nonce (h : header) : List Byte := (h.drop 39).take 24
def header.Signature (h : header) : List Byte := (h.drop 63).take 64

abbrev block := Bytes 1024

def block.Header (b : block) : header := b.val.take 127
def block.Payload (b : block) : List Byte := b.val.drop 127

/-- A store through a view of the block: the bytes from offset `off` on are replaced by
`v`, the new content of the view. -/
def block.write (b : block) (off : Nat) (v : List Byte) : block :=
  ⟨(b.val.take off ++ v ++ b.val.drop (off + v.length)).take 1024, by
    have h := b.property
    simp only [List.length_take, List.length_append, List.length_drop]
    omega⟩

structure readPacket where
  address : UDPAddr
  message : block
  deriving DecidableEq

/-! ## session.go -/

structure Session where
  Hash : Hash256
  SharedKey : Hash256
  PublicKey : PubKey
  Address : UDPAddr
  Client : Info
  Started : Nat
  LastReceive : Nat
  deriving DecidableEq

structure PendingSession where
  Hash : Hash256
  Priv : Bytes 32
  Pub : Bytes 32
  Client : Option Info
  deriving DecidableEq

/-! ## client.go -/

/-- Go `map[common.Hash256]*V`. -/
abbrev Map (ν : Type) := List (Hash256 × ν)

/-- Map read `m[k]` with the comma-ok form. -/
def Map.find {ν : Type} (m : Map ν) (k : Hash256) : Option ν := List.lookup k m

/-- Go builtin `delete(m, k)`. -/
def Map.delete {ν : Type} (m : Map ν) (k : Hash256) : Map ν := m.filter (fun e => e.1 ≠ k)

/-- Map store `m[k] = v`. -/
def Map.set {ν : Type} (m : Map ν) (k : Hash256) (v : ν) : Map ν := (k, v) :: m.delete k

/-- The keys of a map, each once. -/
def Map.keys {ν : Type} (m : Map ν) : List Hash256 := (m.map Prod.fst).dedup

structure state where
  sessions : Map Session
  pending : Map PendingSession
  deriving DecidableEq

/-- Go struct `sendMessage`, the request handed to the engine (without its reply channel). -/
structure sendMessage where
  /-- Field `to` of the Go struct. -/
  toID : List Byte
  addr : Option UDPAddr
  msg : List Byte

/-- The fields of `Client` the engine reads. -/
structure Client where
  pub : PubKey
  priv : PrivKey
  name : List Byte
  addr : UDPAddr

/-- What one engine step takes from the outside world. -/
structure Oracle where
  /-- Bytes delivered by `rand.Read(msg.SessionID[:])`. -/
  sessionID : Hash256
  /-- Result of `box.GenerateKey(rand.Reader)`: public key, private key. -/
  genKey : Except GoError (Bytes 32 × Bytes 32)
  /-- Bytes delivered by `rand.Read(b.Header().Nonce())`. -/
  nonce : Bytes 24
  /-- First and second `time.Now()`. -/
  started : Nat
  lastReceive : Nat
  /-- Error returned by `c.fd.WriteToUDP`. -/
  writeErr : Option GoError

/-- How a Go call ends. -/
inductive Ret where
  | returned (err : Option GoError)
  | panicked
  deriving DecidableEq

/-- The observable result of one engine step. -/
structure Outcome where
  /-- The session store after the step. -/
  state : state
  /-- The datagrams handed to `WriteToUDP`, oldest first. -/
  sent : List (UDPAddr × block)
  /-- The calls of `onPayload`, oldest first. -/
  delivered : List (List Byte × List Byte)
  /-- The value returned (for a request: the value sent on its reply channel). -/
  ret : Ret
  deriving DecidableEq

/-- The `Info` the client puts into its own announces. -/
def Client.info (c : Client) : Info :=
  { PublicKey := c.pub, Address := some c.addr, Name := c.name }

/-- Method `Client.sendMessage`: the datagram written and the error returned. -/
def Client.sendMessage (L : Lib) (c : Client) (o : Oracle) (addr : UDPAddr)
    (sess : Option Session) (code : Nat) (data : List Byte) :
    (UDPAddr × block) × Option GoError :=
  let b : block := Bytes.zero 1024
  let b := match sess with
    | some s => b.write 4 (goCopy b.Header.ID s.Hash.val)
    | none => b
  let b := b.write 36 [Fin.ofNat code]
  let b := b.write 37 (bePutUint16 data.length)
  let b := b.write 127 (goCopy b.Payload data)
  let b := match sess with
    | some s =>
      let b := b.write 39 o.nonce.val
      b.write 127 (L.XORKeyStream b.Payload b.Header.Nonce s.SharedKey)
    | none => b
  let b := b.write 63 (goCopy b.Header.Signature (L.Sign c.priv b.Payload).val)
  ((addr, b), o.writeErr)

/-- Method `Client.handlePacket` from the line `size := ...` on; `message` is the packet
after the optional in-place decryption. -/
def Client.handlePacketBody (L : Lib) (c : Client) (o : Oracle) (st : state)
    (address : UDPAddr) (message : block) (sessionID : Hash256) (sig : SigData) : Outcome :=
  let size := beUint16 message.Header.Size
  match sliceTo message.Payload size with
  | none => { state := st, sent := [], delivered := [], ret := .panicked }
  | some data =>
    let code := (message.Header.Code.getD 0 0).val
    if code = CodeAnnounce then
      match ParseAnnounceMessage L data with
      | .error err => { state := st, sent := [], delivered := [], ret := .returned (some err) }
      | .ok msg =>
        if !L.Verify msg.Client.PublicKey message.Payload sig then
          { state := st, sent := [], delivered := [],
            ret := .returned (some (.new "invalid signature")) }
        else
          match st.pending.find msg.SessionID with
          | some ps =>
            let sk := L.Precompute msg.PublicKey ps.Priv
            let pending := st.pending.delete msg.SessionID
            let sessions := st.sessions.set msg.SessionID
              { Hash := msg.SessionID, SharedKey := sk, Address := address,
                PublicKey := msg.Client.PublicKey, Client := msg.Client,
                Started := o.started, LastReceive := o.lastReceive }
            { state := { sessions := sessions, pending := pending }, sent := [],
              delivered := [], ret := .returned none }
          | none =>
            match o.genKey with
            | .error err =>
              { state := st, sent := [], delivered := [], ret := .returned (some err) }
            | .ok (pub, priv) =>
              let sk := L.Precompute msg.PublicKey priv
              let resp : AnnounceMessage :=
                { PublicKey := pub, SessionID := msg.SessionID, Client := c.info }
              let sessions := st.sessions.set msg.SessionID
                { Hash := msg.SessionID, SharedKey := sk, Address := address,
                  PublicKey := msg.Client.PublicKey, Client := msg.Client,
                  Started := o.started, LastReceive := o.lastReceive }
              let w := c.sendMessage L o address none CodeAnnounce (resp.Bytes L)
              { state := { sessions := sessions, pending := st.pending }, sent := [w.1],
                delivered := [], ret := .returned w.2 }
    else if code = CodeNotAnnounced then
      match o.genKey with
      | .error err => { state := st, sent := [], delivered := [], ret := .returned (some err) }
      | .ok (pub, priv) =>
        let msg : AnnounceMessage :=
          { PublicKey := pub, SessionID := o.sessionID, Client := c.info }
        let pending := st.pending.set msg.SessionID
          { Hash := msg.SessionID, Priv := priv, Pub := pub, Client := none }
        let w := c.sendMessage L o address none CodeAnnounce (msg.Bytes L)
        { state := { sessions := st.sessions, pending := pending }, sent := [w.1],
          delivered := [], ret := .returned w.2 }
    else if code = CodePayload then
      { state := st, sent := [], delivered := [(L.Base58Encode sessionID.val, data)],
        ret := .returned none }
    else
      { state := st, sent := [], delivered := [], ret := .returned (some (.new "invalid code")) }

/-- Method `Client.handlePacket`. -/
def Client.handlePacket (L : Lib) (c : Client) (o : Oracle) (st : state) (p : readPacket) :
    Outcome :=
  let sessionID : Hash256 := (Bytes.zero 32).copy p.message.Header.ID
  let sig : SigData := (Bytes.zero 64).copy p.message.Header.Signature
  match st.sessions.find sessionID with
  | some sess =>
    if !L.Verify sess.PublicKey p.message.Payload sig then
      { state := st, sent := [], delivered := [],
        ret := .returned (some (.new "invalid signature")) }
    else
      let message := p.message.write 127
        (L.XORKeyStream p.message.Payload p.message.Header.Nonce sess.SharedKey)
      c.handlePacketBody L o st p.address message sessionID sig
  | none =>
    let code := (p.message.Header.Code.getD 0 0).val
    if code ≠ CodeAnnounce ∧ code ≠ CodeNotAnnounced then
      let w := c.sendMessage L o p.address none CodeNotAnnounced []
      { state := st, sent := [w.1], delivered := [], ret := .returned w.2 }
    else
      c.handlePacketBody L o st p.address p.message sessionID sig

/-- The arm `case req := <-c.send` of `Client.run`. -/
def Client.runSend (L : Lib) (c : Client) (o : Oracle) (st : state)
    (req : ProtoExample.sendMessage) : Outcome :=
  match req.addr with
  | some addr =>
    match o.genKey with
    | .error err => { state := st, sent := [], delivered := [], ret := .returned (some err) }
    | .ok (pub, priv) =>
      let msg : AnnounceMessage :=
        { PublicKey := pub, SessionID := o.sessionID, Client := c.info }
      let pending := st.pending.set msg.SessionID
        { Hash := msg.SessionID, Priv := priv, Pub := pub, Client := none }
      let w := c.sendMessage L o addr none CodeAnnounce (msg.Bytes L)
      { state := { sessions := st.sessions, pending := pending }, sent := [w.1],
        delivered := [], ret := .returned w.2 }
  | none =>
    let id : Hash256 := (Bytes.zero 32).copy (L.Base58Decode req.toID)
    match st.sessions.find id with
    | some sess =>
      let w := c.sendMessage L o sess.Address (some sess) CodePayload req.msg
      { state := st, sent := [w.1], delivered := [], ret := .returned w.2 }
    | none =>
      { state := st, sent := [], delivered := [], ret := .returned (some (.new "not found")) }

/-! ## The datagram built by `sendMessage`, field by field -/

/-- The payload region after `copy(b.Payload(), data)` on a zeroed block. -/
def plainPayload (data : List Byte) : List Byte :=
  data.take 897 ++ List.replicate (897 - data.length) 0

/-- The payload region of the datagram `sendMessage` writes. -/
def wirePayload (L : Lib) (o : Oracle) (sess : Option Session) (data : List Byte) : List Byte :=
  match sess with
  | none => plainPayload data
  | some s => L.XORKeyStream (plainPayload data) o.nonce.val s.SharedKey

/-- The session-id field of the datagram `sendMessage` writes. -/
def wireID (sess : Option Session) : List Byte :=
  match sess with
  | none => List.replicate 32 0
  | some s => s.Hash.val

/-- The nonce field of the datagram `sendMessage` writes. -/
def wireNonce (o : Oracle) (sess : Option Session) : List Byte :=
  match sess with
  | none => List.replicate 24 0
  | some _ => o.nonce.val

/-- The session identifier `handlePacket` reads from the header of a packet. -/
def readPacket.sessionID (p : readPacket) : Hash256 := (Bytes.zero 32).copy p.message.Header.ID

/-- The signature `handlePacket` reads from the header of a packet. -/
def readPacket.sig (p : readPacket) : SigData := (Bytes.zero 64).copy p.message.Header.Signature

/-- The code byte of a packet. -/
def readPacket.code (p : readPacket) : Nat := (p.message.Header.Code.getD 0 0).val

/-- The declared payload size of a packet. -/
def readPacket.size (p : readPacket) : Nat := beUint16 p.message.Header.Size

/-- The block consists of the seven given fields, each of its wire length. -/
def block.HasFields (b : block) (crc id code size nonce sig pl : List Byte) : Prop :=
  b.val = crc ++ (id ++ (code ++ (size ++ (nonce ++ (sig ++ pl))))) ∧
  crc.length = 4 ∧ id.length = 32 ∧ code.length = 1 ∧ size.length = 2 ∧
  nonce.length = 24 ∧ sig.length = 64 ∧ pl.length = 897

/-! ## A small concrete library, on which the definitions are run -/

/-- Toy address printing: the IP bytes, a colon, one byte for the port. -/
def toyAddrString (a : UDPAddr) : List Byte := a.IP ++ [58, Fin.ofNat a.Port.toNat]

/-- Toy address resolution, the inverse of `toyAddrString`. -/
def toyResolve (s : List Byte) : Except GoError UDPAddr :=
  match s.reverse with
  | p :: c :: ip =>
    if c = 58 then .ok { IP := ip.reverse, Port := (p.val : Int), Zone := [] }
    else .error (.lib "missing port in address")
  | _ => .error (.lib "missing port in address")

/-- Toy message digest: byte sum and length. -/
def toyDigest (msg : List Byte) : List Byte :=
  [Fin.ofNat (msg.foldl (fun acc b => acc + b.val) 0), Fin.ofNat msg.length]

/-- Toy signature: the public half of the private key followed by the digest. -/
def toySign (priv : PrivKey) (msg : List Byte) : SigData :=
  (Bytes.zero 64).copy (priv.val.drop 32 ++ toyDigest msg)

def toyVerify (pub : PubKey) (msg : List Byte) (sig : SigData) : Bool :=
  decide (sig = (Bytes.zero 64).copy (pub.val ++ toyDigest msg))

/-- Toy key agreement: byte-wise exclusive or (toy box keys have equal halves). -/
def toyPrecompute (peer priv : Bytes 32) : Bytes 32 :=
  (Bytes.zero 32).copy (List.zipWith (fun x y => x ^^^ y) peer.val priv.val)

def toyKeyStream (nonce : List Byte) (key : Bytes 32) (i : Nat) : Byte :=
  key.val.getD (i % 32) 0 + nonce.getD (i % 24) 0 + 1

def toyLib : Lib where
  addrString := toyAddrString
  addrString_ne_nil := by intro a; simp [toyAddrString]
  ResolveUDPAddr := toyResolve
  Sign := toySign
  Verify := toyVerify
  Precompute := toyPrecompute
  keyStream := toyKeyStream
  Base58Encode := id
  Base58Decode := id

/-- The array `[n]byte` filled with one byte. -/
def Bytes.fill (n : Nat) (x : Byte) : Bytes n := ⟨List.replicate n x, by simp⟩

def toyAddrA : UDPAddr := { IP := [49], Port := 7, Zone := [] }

def toyAddrB : UDPAddr := { IP := [50], Port := 9, Zone := [] }

def toyInfoA : Info := { PublicKey := Bytes.fill 32 1, Address := some toyAddrA, Name := [97] }

def toyAnnounceA : AnnounceMessage :=
  { PublicKey := Bytes.fill 32 3, SessionID := Bytes.fill 32 5, Client := toyInfoA }

def toyClientA : Client :=
  { pub := Bytes.fill 32 1, priv := Bytes.fill 64 1, name := [97], addr := toyAddrA }

def toyClientB : Client :=
  { pub := Bytes.fill 32 2, priv := Bytes.fill 64 2, name := [98], addr := toyAddrB }

def toyOracleA : Oracle :=
  { sessionID := Bytes.fill 32 5, genKey := .ok (Bytes.fill 32 3, Bytes.fill 32 3),
    nonce := Bytes.fill 24 7, started := 1, lastReceive := 2, writeErr := none }

def toyOracleB : Oracle :=
  { sessionID := Bytes.fill 32 6, genKey := .ok (Bytes.fill 32 4, Bytes.fill 32 4),
    nonce := Bytes.fill 24 8, started := 3, lastReceive := 4, writeErr := none }

/-- The engine state `run` starts from. -/
def emptyState : state := { sessions := [], pending := [] }

/-- An Announce packet (code 0, zero session id) whose size field declares 898 bytes. -/
def oversizePacket : readPacket :=
  { address := toyAddrA, message := block.write (Bytes.zero 1024) 37 [3, 130] }

/-- The session B holds for peer A. -/
def toySessionB : Session :=
  { Hash := Bytes.fill 32 5, SharedKey := Bytes.fill 32 9, PublicKey := toyClientA.pub,
    Address := toyAddrA, Client := toyInfoA, Started := 1, LastReceive := 1 }

def toyStateB : state := { sessions := [(Bytes.fill 32 5, toySessionB)], pending := [] }

/-- A packet bearing the identifier of `toySessionB` and an all-zero signature. -/
def unsignedPacket : readPacket :=
  { address := toyAddrA, message := block.write (Bytes.zero 1024) 4 (Bytes.fill 32 5).val }

/-- A Payload packet (code 2) with zero session id. -/
def strayPacket : readPacket :=
  { address := toyAddrA, message := block.write (Bytes.zero 1024) 36 [2] }

def toyAddrE : UDPAddr := { IP := [51], Port := 8, Zone := [] }

/-- A third endpoint, with its own identity key. -/
def toyClientE : Client :=
  { pub := Bytes.fill 32 11, priv := Bytes.fill 64 11, name := [101], addr := toyAddrE }

/-- An Announce that E signs with its own key and that names the identifier of the session
B holds for A. -/
def hijackPacket : readPacket :=
  { address := toyAddrE,
    message := (toyClientE.sendMessage toyLib toyOracleA toyAddrB none CodeAnnounce
      (AnnounceMessage.Bytes toyLib
        { PublicKey := Bytes.fill 32 3, SessionID := Bytes.fill 32 5,
          Client := toyClientE.info })).1.2 }

/-- The Announce whose bytes `relabelledPacket` carries as transmitted. -/
def relabelledAnnounce : AnnounceMessage :=
  { PublicKey := Bytes.fill 32 3, SessionID := Bytes.fill 32 6,
    Client := { PublicKey := Bytes.fill 32 9, Address := some toyAddrA, Name := [97] } }

/-- A packet from the peer of `toySessionB`: it bears that session's identifier and A's
valid signature, and its payload as transmitted reads as an Announce naming another key. -/
def relabelledPacket : readPacket :=
  { address := toyAddrA,
    message := block.write (toyClientA.sendMessage toyLib toyOracleA toyAddrB none CodeAnnounce
      (relabelledAnnounce.Bytes toyLib)).1.2 4 (Bytes.fill 32 5).val }

/-- The first datagram an engine step wrote (the zero block when it wrote none). -/
def Outcome.firstSent (r : Outcome) : block :=
  (r.sent.head?.map Prod.snd).getD (Bytes.zero 1024)

/-- The three engine steps of a handshake between two endpoints with empty stores. -/
structure Handshake where
  /-- A serves a connect request to the address of B. -/
  connect : Outcome
  /-- B handles the datagram A wrote. -/
  accept : Outcome
  /-- A handles the datagram B wrote. -/
  complete : Outcome

/-- A handshake: `srcA` and `srcB` are the source addresses the receivers see, `text` is the
message text of the connect request. -/
def handshake (L : Lib) (A B : Client) (oA oB oA2 : Oracle) (addrB srcA srcB : UDPAddr)
    (text : List Byte) : Handshake :=
  let r1 := A.runSend L oA emptyState { toID := [], addr := some addrB, msg := text }
  let r2 := B.handlePacket L oB emptyState { address := srcA, message := r1.firstSent }
  let r3 := A.handlePacket L oA2 r1.state { address := srcB, message := r2.firstSent }
  { connect := r1, accept := r2, complete := r3 }

/-- The session A holds for peer B. -/
def toySessionA : Session :=
  { Hash := Bytes.fill 32 5, SharedKey := Bytes.fill 32 9, PublicKey := toyClientB.pub,
    Address := toyAddrB, Client := toyClientB.info, Started := 1, LastReceive := 1 }

def toyStateA : state := { sessions := [(Bytes.fill 32 5, toySessionA)], pending := [] }

/-- Endpoint B with a name of 850 bytes. -/
def toyClientLongB : Client := { toyClientB with name := List.replicate 850 98 }

/-- The handshake between the toy endpoints A and B. -/
def toyHandshake : Handshake :=
  handshake toyLib toyClientA toyClientB toyOracleA toyOracleB toyOracleA toyAddrB toyAddrA
    toyAddrB []

/-- The handshake between A and the endpoint B whose name has 850 bytes. -/
def longNameHandshake : Handshake :=
  handshake toyLib toyClientA toyClientLongB toyOracleA toyOracleB toyOracleA toyAddrB toyAddrA
    toyAddrB []

/-- An Announce from A signed with an all-zero signature, sent to an engine that holds no
session. -/
def badlySignedPacket : readPacket :=
  { address := toyAddrA,
    message := block.write (toyClientA.sendMessage toyLib toyOracleA toyAddrB none CodeAnnounce
      (toyAnnounceA.Bytes toyLib)).1.2 63 (List.replicate 64 0) }

/-- The store of A after it served a connect request: one pending session. -/
def toyPendingStateA : state :=
  { sessions := [],
    pending := [(Bytes.fill 32 5,
      { Hash := Bytes.fill 32 5, Priv := Bytes.fill 32 3, Pub := Bytes.fill 32 3,
        Client := none })] }

/-- The Announce B writes in reply to the Announce of A. -/
def toyReplyAnnounce : AnnounceMessage :=
  { PublicKey := Bytes.fill 32 4, SessionID := Bytes.fill 32 5, Client := toyClientB.info }

/-- The datagram carrying `toyReplyAnnounce`, as A receives it. -/
def toyReplyPacket : readPacket :=
  { address := toyAddrB,
    message := (toyClientB.sendMessage toyLib toyOracleB toyAddrA none CodeAnnounce
      (toyReplyAnnounce.Bytes toyLib)).1.2 }

/-- The declared payload of a block, as `handlePacket` slices it (`Payload()[:size]`);
`none` is the run-time panic. -/
def block.declared (b : block) : Option (List Byte) :=
  sliceTo b.Payload (beUint16 b.Header.Size)

/-- The datagram A writes when it serves a connect request, as B receives it. -/
def toyConnectPacket : readPacket :=
  { address := toyAddrA, message := toyHandshake.connect.firstSent }

/-- An Announce of A, naming an identifier that is not pending anywhere. -/
def toySecondAnnounce : AnnounceMessage :=
  { PublicKey := Bytes.fill 32 3, SessionID := Bytes.fill 32 6, Client := toyClientA.info }

/-- The Announce `toySecondAnnounce`, signed by A, under the header identifier of the
session B holds for A. -/
def toyInSessionAnnounce : readPacket :=
  { address := toyAddrA,
    message := block.write (toyClientA.sendMessage toyLib toyOracleA toyAddrB none CodeAnnounce
      (toySecondAnnounce.Bytes toyLib)).1.2 4 (Bytes.fill 32 5).val }

/-- A NotAnnounced packet (code 1) with zero session id and declared size 0. -/
def notAnnouncedPacket : readPacket :=
  { address := toyAddrA, message := block.write (Bytes.zero 1024) 36 [1] }

/-- The Announce the endpoint with the long name writes: 950 bytes when serialized. -/
def longNameAnnounce (sid : Bytes 32) : AnnounceMessage :=
  { PublicKey := Bytes.fill 32 4, SessionID := sid, Client := toyClientLongB.info }

/-! ## Slice and index expressions with the bounds checks of the Go run time

Bounds are checked against the length of the slice. Go checks the upper bound of `s[:hi]`
against the capacity, which is never less than the length, so an expression that is in range
here is in range in Go. -/

/-- Go slice expression `s[lo:]`; `none` is the run-time panic. -/
def sliceFrom (s : List Byte) (lo : Nat) : Option (List Byte) :=
  if lo ≤ s.length then some (s.drop lo) else none

/-- Go index expression `s[i]`; `none` is the run-time panic. -/
def indexAt (s : List Byte) (i : Nat) : Option Byte := s[i]?

/-- The bytes `[lo, hi)` of a buffer. -/
def byteRange (s : List Byte) (lo hi : Nat) : List Byte := (s.drop lo).take (hi - lo)

/-- Accessor `header.CRC` as written, `h[:4]`, with its bounds check. -/
def header.CRC? (h : header) : Option (List Byte) := sliceTo h 4

/-- Accessor `header.ID` as written, `h[4:][:32]`, with its bounds checks. -/
def header.ID? (h : header) : Option (List Byte) := (sliceFrom h 4).bind (sliceTo · 32)

/-- Accessor `header.Code` as written, `h[36:][:1]`, with its bounds checks. -/
def header.Code? (h : header) : Option (List Byte) := (sliceFrom h 36).bind (sliceTo · 1)

/-- Accessor `header.Size` as written, `h[37:][:2]`, with its bounds checks. -/
def header.Size? (h : header) : Option (List Byte) := (sliceFrom h 37).bind (sliceTo · 2)

/-- Accessor `header.Nonce` as written, `h[39:][:24]`, with its bounds checks. -/
def header.Nonce? (h : header) : Option (List Byte) := (sliceFrom h 39).bind (sliceTo · 24)

/-- Accessor `header.Signature` as written, `h[63:][:64]`, with its bounds checks. -/
def header.Signature? (h : header) : Option (List Byte) := (sliceFrom h 63).bind (sliceTo · 64)

/-- Accessor `block.Header` as written, `b[:127]`, with its bounds check. -/
def block.Header? (b : block) : Option header := sliceTo b.val 127

/-- Accessor `block.Payload` as written, `b[127:]`, with its bounds check. -/
def block.Payload? (b : block) : Option (List Byte) := sliceFrom b.val 127

/-- Function `ParseInfo` with every slice and index expression bounds-checked: `none` is a
run-time panic. -/
def ParseInfoChecked (L : Lib) (data : List Byte) : Option (Except GoError Info) :=
  if data.length < 34 then
    some (.error (.new "invalid info: data too short"))
  else
    (sliceTo data 32).bind fun d32 =>
    let pub : PubKey := (Bytes.zero 32).copy d32
    (indexAt data 32).bind fun x =>
    let addrLen := x.val
    if data.length < addrLen + 33 then
      some (.error (.new "invalid info: data too short"))
    else
      (sliceFrom data 33).bind fun t =>
      (sliceTo t addrLen).bind fun astr =>
      match L.ResolveUDPAddr astr with
      | .error err => some (.error err)
      | .ok addr =>
        (sliceFrom data (33 + addrLen)).bind fun name =>
        some (.ok { PublicKey := pub, Address := some addr, Name := name })

/-- Function `ParseAnnounceMessage` with every slice expression bounds-checked: `none` is a
run-time panic. -/
def ParseAnnounceMessageChecked (L : Lib) (data : List Byte) :
    Option (Except GoError AnnounceMessage) :=
  if data.length < 64 then
    some (.error (.new "message too short"))
  else
    (sliceTo data 32).bind fun d32 =>
    let sessionID : Bytes 32 := (Bytes.zero 32).copy d32
    (sliceFrom data 32).bind fun t =>
    (sliceTo t 32).bind fun d64 =>
    let publicKey : Bytes 32 := (Bytes.zero 32).copy d64
    (sliceFrom data 64).bind fun rest =>
    (ParseInfoChecked L rest).bind fun r =>
    match r with
    | .error err => some (.error err)
    | .ok info => some (.ok { PublicKey := publicKey, SessionID := sessionID, Client := info })

/-- An Announce packet with zero session id and declared size 0. -/
def emptyAnnouncePacket : readPacket := { address := toyAddrA, message := Bytes.zero 1024 }

/-! ## hash.go -/

/-- Method `(*big.Int).SetBytes` of the standard library: the value of a byte slice read as
a big-endian unsigned integer. -/
def bigSetBytes (b : List Byte) : Int :=
  Int.ofNat (b.foldl (fun acc x => acc * 256 + x.val) 0)

/-- The big-endian bytes of a natural number, most significant first, without leading zero
bytes; the first argument bounds the number of bytes. -/
def natBytes : Nat → Nat → List Byte
  | 0, _ => []
  | fuel + 1, n => if n = 0 then [] else natBytes fuel (n / 256) ++ [Fin.ofNat (n % 256)]

/-- Method `(*big.Int).Bytes` of the standard library: the big-endian bytes of the absolute
value. -/
def bigBytes (i : Int) : List Byte := natBytes i.natAbs i.natAbs

/-- Method `Hash256.ToBigInt`. -/
def Hash256.ToBigInt (h : Hash256) : Int := bigSetBytes h.val

/-- Method `Hash256.SetBigInt`; the receiver is a copy, which is returned. -/
def Hash256.SetBigInt (h : Hash256) (i : Int) : Hash256 :=
  let buf : List Byte := List.replicate 32 0
  let buf := goCopy buf (bigBytes i)
  h.copy buf

/-- The hash `00 .. 00 01`, whose big-endian value is 1. -/
def hashOne : Hash256 := ⟨List.replicate 31 0 ++ [1], by decide⟩

/-- The hash `01 00 .. 00`, whose big-endian value is 2 ^ 248. -/
def hashTop : Hash256 := ⟨1 :: List.replicate 31 0, by decide⟩

/-- The Go assignment `a[i], a[j] = a[j], a[i]`; `none` is an index out of range. -/
def swapAt (a : List Hash256) (i j : Nat) : Option (List Hash256) :=
  match a[i]?, a[j]? with
  | some x, some y => some ((a.set i y).set j x)
  | _, _ => none

/-- The body of the loop `for i := range a` of `SortHash256` at index `i`, on the slice
content and `l`. -/
def SortHash256.loopBody (r : Nat) (s : List Hash256 × Nat) (i : Nat) :
    Option (List Hash256 × Nat) :=
  match s.1[i]?, s.1[r]? with
  | some ai, some ar =>
    if ai.ToBigInt < ar.ToBigInt then
      (swapAt s.1 i s.2).map fun a => (a, s.2 + 1)
    else
      some s
  | _, _ => none

/-- The iterations `i, i + 1, ..` of the loop `for i := range a`, `n` of them. -/
def SortHash256.loop (r : Nat) :
    Nat → Nat → List Hash256 × Nat → Option (List Hash256 × Nat)
  | 0, _, s => some s
  | n + 1, i, s => (SortHash256.loopBody r s i).bind (SortHash256.loop r n (i + 1))

/-- Function `SortHash256` with a bound on the depth of the recursion. The `k`-th call of
`mrand.Int()` returns `rnd k`; the result is the content of the slice after the call and the
number of random values drawn so far. The two recursive calls work in place on `a[:l]` and
`a[l+1:]`, so the slice afterwards is their results around `a[l]`. `none` is a run-time
panic or a recursion deeper than the bound. -/
def SortHash256Fuel :
    Nat → (Nat → Nat) → Nat → List Hash256 → Option (List Hash256 × Nat)
  | 0, _, _, _ => none
  | fuel + 1, rnd, k, a =>
    if a.length < 2 then
      some (a, k)
    else
      let r := a.length - 1
      let pivIndex := rnd k % a.length
      (swapAt a pivIndex r).bind fun a =>
      (SortHash256.loop r a.length 0 (a, 0)).bind fun s =>
      (swapAt s.1 s.2 r).bind fun a =>
      (SortHash256Fuel fuel rnd (k + 1) (a.take s.2)).bind fun left =>
      (SortHash256Fuel fuel rnd left.2 (a.drop (s.2 + 1))).bind fun right =>
      some (left.1 ++ (a.drop s.2).take 1 ++ right.1, right.2)

/-- Function `SortHash256`: the slice returned, for the random values `rnd`. A slice of
length `n` never recurses deeper than `n`. -/
def SortHash256 (rnd : Nat → Nat) (a : List Hash256) : Option (List Hash256) :=
  (SortHash256Fuel (a.length + 1) rnd 0 a).map Prod.fst

/-- The hash whose last byte is `x` and whose other bytes are zero. -/
def smallHash (x : Byte) : Hash256 := ⟨List.replicate 31 0 ++ [x], by simp⟩

/-- The state of the partition loop of `SortHash256` before iteration `i`: the slice is a
permutation of the one the loop started from, the pivot `p` sits at index `r`, the elements
before `l` are below the pivot and those from `l` up to `i` are not. -/
def SortHash256.LoopInv (a0 : List Hash256) (r : Nat) (p : Hash256) (s : List Hash256 × Nat)
    (i : Nat) : Prop :=
  s.1.Perm a0 ∧ s.1[r]? = some p ∧ s.2 ≤ i ∧
  (∀ j x, j < s.2 → s.1[j]? = some x → x.ToBigInt < p.ToBigInt) ∧
  (∀ j x, s.2 ≤ j → j < i → s.1[j]? = some x → p.ToBigInt ≤ x.ToBigInt)

/-- Method `Hash256.Xor`: byte `i` of the result is `h[i] ^ other[i]`. -/
def Hash256.Xor (h other : Hash256) : Hash256 :=
  ⟨(List.range 32).map fun i => h.val.getD i 0 ^^^ other.val.getD i 0, by simp⟩

/-- The inner loop `for j := 0; j < 8; j++` of `PrefixLen` on byte `i` of the distance, `n`
iterations from `j` on: the value returned from inside the loop, if any. -/
def PrefixLen.inner (x : Byte) (i : Nat) : Nat → Nat → Option Int
  | 0, _ => none
  | n + 1, j =>
    if (x.val >>> (7 - j)) &&& 1 ≠ 0 then some (((8 * i + j : Nat) : Int))
    else PrefixLen.inner x i n (j + 1)

/-- The outer loop `for i := 0; i < Hash256Len; i++` of `PrefixLen`, `n` iterations from `i`
on: the value returned from inside the loops, if any. -/
def PrefixLen.outer (distance : Hash256) : Nat → Nat → Option Int
  | 0, _ => none
  | n + 1, i =>
    match PrefixLen.inner (distance.val.getD i 0) i 8 0 with
    | some r => some r
    | none => PrefixLen.outer distance n (i + 1)

/-- Method `Hash256.PrefixLen`. -/
def Hash256.PrefixLen (h other : Hash256) : Int :=
  let distance := h.Xor other
  match PrefixLen.outer distance 32 0 with
  | some r => r
  | none => -1

/-- Bit `k` of a hash, counted from the most significant bit of byte 0. -/
def Hash256.bit (h : Hash256) (k : Nat) : Bool :=
  (h.val.getD (k / 8) 0).val.testBit (7 - k % 8)

/-- The number of bits, among the `n` bits from position `k` on, on which two hashes agree
before they first differ. -/
def agreeFrom (h other : Hash256) : Nat → Nat → Nat
  | 0, _ => 0
  | n + 1, k => if h.bit k = other.bit k then agreeFrom h other n (k + 1) + 1 else 0

/-- The number of leading bits on which two hashes agree. -/
def commonPrefixBits (h other : Hash256) : Nat := agreeFrom h other 256 0

/-- The index of the first set bit among the `n` bits of a hash from position `k` on. -/
def firstSetFrom (d : Hash256) : Nat → Nat → Option Nat
  | 0, _ => none
  | n + 1, k => if d.bit k then some k else firstSetFrom d n (k + 1)

/-- The index of the first set bit of a hash. -/
def firstSetBit (d : Hash256) : Option Nat := firstSetFrom d 256 0

/-! ## client.go: shutdown -/

/-- Where the goroutine `run` stands. -/
inductive RunPC where
  /-- In the `for`/`select` loop. -/
  | loop
  /-- After `break loop`, before `c.fd.Close()`. -/
  | cleanup
  /-- After `c.fd.Close()`, before the deferred `c.wg.Done()`. -/
  | leaving
  /-- Returned. -/
  | done
  deriving DecidableEq, Repr

/-- Where the goroutine `reader` stands. -/
inductive ReaderPC where
  /-- In `c.fd.ReadFromUDP`. -/
  | reading
  /-- The read failed: at `select { case <-c.close: default: close(c.close) }`. -/
  | failed
  /-- The `default` branch was taken: before `close(c.close)`. -/
  | closing
  /-- A datagram was read: at `select { case <-c.close: return; case c.recv <- p: }`. -/
  | handing
  /-- At `return`, before the deferred `c.wg.Done()`. -/
  | leaving
  /-- Returned. -/
  | done
  /-- Stopped by the run-time panic of closing a closed channel. -/
  | panicked
  deriving DecidableEq, Repr

/-- Where one call of `Close` stands. -/
inductive ClosePC where
  /-- At `select { case <-c.close: default: close(c.close) }`. -/
  | start
  /-- The `default` branch was taken: before `close(c.close)`. -/
  | closing
  /-- In `c.wg.Wait()`. -/
  | waiting
  /-- Returned `nil`. -/
  | returned
  /-- Stopped by the run-time panic of closing a closed channel. -/
  | panicked
  deriving DecidableEq, Repr

/-- What the goroutines of one `Client` share at shutdown, and where each of them stands:
the channel `c.close`, the wait group `c.wg`, the socket `c.fd`, the goroutines `run` and
`reader` started by `New`, and two calls of `Close`. -/
structure Lifecycle where
  /-- Channel `c.close` has been closed. -/
  closed : Bool
  /-- How many times `close(c.close)` has closed the channel. -/
  raised : Nat
  /-- A goroutine has panicked: the process is gone. -/
  panicked : Bool
  /-- The counter of `c.wg`. -/
  wg : Nat
  /-- Method `c.fd.Close()` has run. -/
  fdClosed : Bool
  run : RunPC
  reader : ReaderPC
  /-- The first call of `Close`. -/
  callA : ClosePC
  /-- The second call of `Close`. -/
  callB : ClosePC
  deriving DecidableEq, Repr

/-- The state `New` leaves: `close` open, `c.wg.Add(2)`, `go c.run()`, `go c.reader()`;
no call of `Close` has taken a step. -/
def Lifecycle.init : Lifecycle :=
  { closed := false, raised := 0, panicked := false, wg := 2, fdClosed := false,
    run := .loop, reader := .reading, callA := .start, callB := .start }

/-- Statement `close(c.close)`: closing a closed channel is a run-time panic (`none`). -/
def Lifecycle.closeChan (s : Lifecycle) : Option Lifecycle :=
  if s.closed then none else some { s with closed := true, raised := s.raised + 1 }

/-- Method `Close`, one step of a call standing at `pc`: the `select` (the case
`<-c.close` is ready when the channel is closed, else `default` runs), then
`close(c.close)`, then `c.wg.Wait()`, which returns when the counter is zero. The result is
the new shared state and the new place; `none` when the call cannot move. -/
def Lifecycle.closeStep (s : Lifecycle) (pc : ClosePC) : Option (Lifecycle × ClosePC) :=
  match pc with
  | .start => if s.closed then some (s, .waiting) else some (s, .closing)
  | .closing =>
    match s.closeChan with
    | some t => some (t, .waiting)
    | none => some ({ s with panicked := true }, .panicked)
  | .waiting => if s.wg = 0 then some (s, .returned) else none
  | .returned => none
  | .panicked => none

/-- Method `run`, one step as far as shutdown goes: the loop is left through the case
`<-c.close`, then `c.fd.Close()`, then the deferred `c.wg.Done()`. The other cases of the
`select` stay in the loop and leave the shared state as it is. -/
def Lifecycle.runStep (s : Lifecycle) : Option Lifecycle :=
  match s.run with
  | .loop => if s.closed then some { s with run := .cleanup } else none
  | .cleanup => some { s with fdClosed := true, run := .leaving }
  | .leaving => some { s with wg := s.wg - 1, run := .done }
  | .done => none

/-- Method `reader`, one step after `ReadFromUDP` has returned: on an error the `select`
with `default`, then `close(c.close)`, then `return`; on a datagram the case `<-c.close`
of the second `select`; at `return` the deferred `c.wg.Done()`. -/
def Lifecycle.readerStep (s : Lifecycle) : Option Lifecycle :=
  match s.reader with
  | .reading => none
  | .failed =>
    if s.closed then some { s with reader := .leaving } else some { s with reader := .closing }
  | .closing =>
    match s.closeChan with
    | some t => some { t with reader := .leaving }
    | none => some { s with panicked := true, reader := .panicked }
  | .handing => if s.closed then some { s with reader := .leaving } else none
  | .leaving => some { s with wg := s.wg - 1, reader := .done }
  | .done => none
  | .panicked => none

/-- Which goroutine moves next, and for `ReadFromUDP` what it returns. -/
inductive Action where
  /-- The next step of `run`. -/
  | run
  /-- Call `c.fd.ReadFromUDP` returns an error. -/
  | readError
  /-- Call `c.fd.ReadFromUDP` returns a datagram. -/
  | readDatagram
  /-- Case `c.recv <- p` of the second `select` of `reader`, received by `run` in its loop. -/
  | handOver
  /-- The next step of `reader` otherwise. -/
  | reader
  /-- The next step of the first call of `Close`. -/
  | callA
  /-- The next step of the second call of `Close`. -/
  | callB
  deriving DecidableEq, Repr

/-- One step of the whole client; `none` when the chosen goroutine cannot move, or the
process has panicked. -/
def Lifecycle.step (s : Lifecycle) (a : Action) : Option Lifecycle :=
  if s.panicked then none
  else
    match a with
    | .run => s.runStep
    | .readError => if s.reader = .reading then some { s with reader := .failed } else none
    | .readDatagram =>
      if s.reader = .reading ∧ s.fdClosed = false then some { s with reader := .handing }
      else none
    | .handOver =>
      if s.reader = .handing ∧ s.run = .loop then some { s with reader := .reading } else none
    | .reader => s.readerStep
    | .callA => (s.closeStep s.callA).map fun r => { r.1 with callA := r.2 }
    | .callB => (s.closeStep s.callB).map fun r => { r.1 with callB := r.2 }

/-- A schedule run from a state, step by step. -/
def Lifecycle.exec (s : Lifecycle) : List Action → Option Lifecycle
  | [] => some s
  | a :: as => (s.step a).bind fun t => t.exec as

/-- How a call of `SendMessageTo` or `SendMessageToAddr` can end. -/
inductive SendOutcome where
  /-- The call returns this error itself. -/
  | returned (err : GoError)
  /-- The request went to `run` over `c.send`; the call returns what `run` replies. -/
  | engine (req : sendMessage)

/-- The `select` of `SendMessageTo` and `SendMessageToAddr`: the case `<-c.close` is ready
when the channel is closed, the case `c.send <- req` when `run` is in its loop to receive;
the ways the statement can go. -/
def Lifecycle.selectSend (s : Lifecycle) (req : sendMessage) : List SendOutcome :=
  (if s.closed then [SendOutcome.returned (.new "closed")] else [])
    ++ (if s.run = .loop then [SendOutcome.engine req] else [])

/-- Method `SendMessageTo`: the ways a call made in state `s` can end. -/
def Client.SendMessageTo (s : Lifecycle) (id msg : List Byte) : List SendOutcome :=
  s.selectSend { toID := id, addr := none, msg := msg }

/-- Method `SendMessageToAddr`: the ways a call made in state `s` can end. -/
def Client.SendMessageToAddr (L : Lib) (s : Lifecycle) (addr msg : List Byte) :
    List SendOutcome :=
  match L.ResolveUDPAddr addr with
  | .error err => [SendOutcome.returned err]
  | .ok a => s.selectSend { toID := [], addr := some a, msg := msg }

/-- A schedule on which a single call of `Close` returns: the call closes the channel,
`run` leaves its loop, closes the socket and returns, the read fails and `reader`
returns, and the wait ends. -/
def closeSchedule : List Action :=
  [.callA, .callA, .run, .run, .run, .readError, .reader, .reader, .callA]

/-- A schedule with two calls of `Close` at once: both take the `default` branch before
either closes the channel. -/
def racingSchedule : List Action :=
  [.callA, .callB, .callA, .callB]

/-- The select statement of the first call of `Close`, with no other goroutine moving
between the check and the `close`. -/
def Lifecycle.signalA (s : Lifecycle) : Option Lifecycle :=
  (s.step .callA).bind fun t => if t.callA = .closing then t.step .callA else some t

/-- The state after `closeSchedule`: the channel closed once, the socket closed, both
goroutines returned, the first call of `Close` returned, the second not begun. -/
def closedState : Lifecycle :=
  { closed := true, raised := 1, panicked := false, wg := 0, fdClosed := true,
    run := .done, reader := .done, callA := .returned, callB := .start }

/-- The state after `racingSchedule`: the first call closed the channel and waits, the
second call closed it again and panicked. -/
def racedState : Lifecycle :=
  { closed := true, raised := 1, panicked := true, wg := 2, fdClosed := false,
    run := .loop, reader := .reading, callA := .waiting, callB := .panicked }
/-- What holds in every state the client can reach: the counter of `c.wg` counts the
goroutines that have not returned, the channel was closed at most once, a call of `Close`
past its `select` statement has seen the channel closed, a call that returned has seen both
goroutines return, and a panic stops the goroutine or call that closed the channel again. -/
structure Lifecycle.Inv (s : Lifecycle) : Prop where
  wg_eq : s.wg = (if s.run = .done then 0 else 1) + (if s.reader = .done then 0 else 1)
  raised_eq : s.raised = if s.closed then 1 else 0
  callA_closed : s.callA = .waiting ∨ s.callA = .returned → s.closed = true
  callB_closed : s.callB = .waiting ∨ s.callB = .returned → s.closed = true
  callA_returned : s.callA = .returned → s.run = .done ∧ s.reader = .done
  callB_returned : s.callB = .returned → s.run = .done ∧ s.reader = .done
  panicked_by : s.panicked = true →
    s.callA = .panicked ∨ s.callB = .panicked ∨ s.reader = .panicked

/-! ## Basic facts: arrays, copies, exclusive or, maps -/

theorem goCopy_length (dst src : List Byte) : (goCopy dst src).length = dst.length := by
  simp only [goCopy, List.length_append, List.length_take, List.length_drop]
  omega

theorem goCopy_full (dst src : List Byte) (h : src.length = dst.length) :
    goCopy dst src = src := by
  simp [goCopy, ← h]

theorem Bytes.copy_val {n : Nat} (dst x : Bytes n) : dst.copy x.val = x := by
  apply Subtype.ext
  simp only [Bytes.copy]
  exact goCopy_full _ _ (by rw [x.property, dst.property])

theorem Bytes.copy_take_append {n : Nat} (dst x : Bytes n) (rest : List Byte) :
    dst.copy ((x.val ++ rest).take n) = x := by
  have h : (x.val ++ rest).take n = x.val := by
    have := x.property
    simp [List.take_append_eq_append_take, this]
  rw [h, Bytes.copy_val]

theorem Byte.xor_val (x k : Byte) : (x ^^^ k).val = x.val ^^^ k.val := by
  show (Fin.xor x k).val = _
  simp only [Fin.xor]
  exact Nat.mod_eq_of_lt (Nat.xor_lt_two_pow (n := 8) x.isLt k.isLt)

theorem Byte.xor_xor_cancel (x k : Byte) : (x ^^^ k) ^^^ k = x := by
  apply Fin.ext
  rw [Byte.xor_val, Byte.xor_val, Nat.xor_assoc, Nat.xor_self, Nat.xor_zero]

theorem xorStream_length (ks : Nat → Byte) (buf : List Byte) :
    (xorStream ks buf).length = buf.length := by
  simp [xorStream]

theorem xorStream_getElem? (ks : Nat → Byte) (buf : List Byte) (i : Nat) :
    (xorStream ks buf)[i]? = (buf[i]?).map (fun x => x ^^^ ks i) := by
  unfold xorStream
  rw [List.getElem?_zipWith]
  by_cases h : i < buf.length
  · rw [List.getElem?_range h, List.getElem?_eq_getElem h]; rfl
  · have hn : buf[i]? = none := List.getElem?_eq_none (by omega)
    rw [hn]
    cases (List.range buf.length)[i]? <;> rfl

/-- Applying the same key stream twice restores the buffer. -/
theorem xorStream_xorStream (ks : Nat → Byte) (buf : List Byte) :
    xorStream ks (xorStream ks buf) = buf := by
  apply List.ext_getElem?
  intro i
  rw [xorStream_getElem?, xorStream_getElem?]
  cases buf[i]? with
  | none => rfl
  | some x => simp only [Option.map_some', Byte.xor_xor_cancel]

theorem bePutUint16_length (v : Nat) : (bePutUint16 v).length = 2 := rfl

theorem beUint16_bePutUint16 (n : Nat) (h : n < 65536) : beUint16 (bePutUint16 n) = n := by
  simp only [beUint16, bePutUint16, List.getD_cons_zero, List.getD_cons_succ, Fin.ofNat,
    Nat.mod_eq_of_lt h]
  have h1 : n / 256 % 256 = n / 256 := Nat.mod_eq_of_lt (by omega)
  simp only [Nat.reduceAdd, h1]
  omega

theorem Map.find_nil {ν : Type} (k : Hash256) : Map.find ([] : Map ν) k = none := rfl

theorem Map.find_singleton {ν : Type} (k : Hash256) (v : ν) :
    Map.find ([(k, v)] : Map ν) k = some v := by
  simp [Map.find, List.lookup]

theorem Map.delete_singleton {ν : Type} (k : Hash256) (v : ν) :
    Map.delete ([(k, v)] : Map ν) k = [] := by
  simp [Map.delete]

theorem Map.set_nil {ν : Type} (k : Hash256) (v : ν) :
    Map.set ([] : Map ν) k v = [(k, v)] := rfl

theorem Map.find_set_self {ν : Type} (m : Map ν) (k : Hash256) (v : ν) :
    Map.find (Map.set m k v) k = some v := by
  simp [Map.find, Map.set, List.lookup]

/-! ## info.go: serialization and parsing -/

theorem Info.Bytes_def (L : Lib) (info : Info) :
    info.Bytes L = info.PublicKey.val ++
      (Fin.ofNat (UDPAddr.String L info.Address).length ::
        (UDPAddr.String L info.Address ++ info.Name)) := by
  simp [Info.Bytes]

theorem Info.Bytes_size (L : Lib) (info : Info) :
    (info.Bytes L).length = 33 + (UDPAddr.String L info.Address).length + info.Name.length := by
  have h := info.PublicKey.property
  rw [Info.Bytes_def]
  simp only [List.length_append, List.length_cons, h]
  omega

theorem ParseInfo_Bytes_aux (L : Lib) (info : Info) (a : UDPAddr)
    (hlen : (UDPAddr.String L info.Address).length ≤ 255)
    (hres : L.ResolveUDPAddr (UDPAddr.String L info.Address) = .ok a) :
    ParseInfo L (info.Bytes L) =
      .ok { PublicKey := info.PublicKey, Address := some a, Name := info.Name } := by
  have hpk := info.PublicKey.property
  have hne : (UDPAddr.String L info.Address) ≠ [] := by
    cases info.Address with
    | none => simp [UDPAddr.String]
    | some x => exact L.addrString_ne_nil x
  have hpos : 1 ≤ (UDPAddr.String L info.Address).length := by
    rcases h : UDPAddr.String L info.Address with _ | ⟨x, xs⟩
    · exact absurd h hne
    · simp
  rw [Info.Bytes_def]
  generalize UDPAddr.String L info.Address = astr at *
  have hd32 : (info.PublicKey.val ++ (Fin.ofNat astr.length :: (astr ++ info.Name))).drop 32
      = (Fin.ofNat astr.length : Byte) :: (astr ++ info.Name) := List.drop_left' hpk
  have hd33 : (info.PublicKey.val ++ (Fin.ofNat astr.length :: (astr ++ info.Name))).drop 33
      = astr ++ info.Name := by
    have : (33 : Nat) = 32 + 1 := rfl
    rw [this, ← List.drop_drop, hd32]; rfl
  have hget : (info.PublicKey.val ++ (Fin.ofNat astr.length :: (astr ++ info.Name))).getD 32 0
      = (Fin.ofNat astr.length : Byte) := by
    rw [List.getD_eq_getElem?_getD, List.getElem?_append_right (by omega)]
    simp [hpk]
  have hval : ((Fin.ofNat astr.length : Byte)).val = astr.length := by
    simp only [Fin.ofNat]
    exact Nat.mod_eq_of_lt (by omega)
  have hlen2 : (info.PublicKey.val ++ (Fin.ofNat astr.length :: (astr ++ info.Name))).length
      = 33 + astr.length + info.Name.length := by
    simp only [List.length_append, List.length_cons, hpk]; omega
  unfold ParseInfo
  rw [if_neg (by rw [hlen2]; omega)]
  simp only [hget, hval]
  rw [if_neg (by rw [hlen2]; omega), hd33, List.take_left, hres]
  rw [← List.drop_drop, hd33, List.drop_left, Bytes.copy_take_append]

theorem AnnounceMessage.Bytes_concat (L : Lib) (msg : AnnounceMessage) :
    msg.Bytes L = msg.SessionID.val ++ (msg.PublicKey.val ++ msg.Client.Bytes L) := by
  simp [AnnounceMessage.Bytes]

theorem AnnounceMessage.Bytes_total (L : Lib) (msg : AnnounceMessage) :
    (msg.Bytes L).length =
      97 + (UDPAddr.String L msg.Client.Address).length + msg.Client.Name.length := by
  have h1 := msg.SessionID.property
  have h2 := msg.PublicKey.property
  rw [AnnounceMessage.Bytes_concat]
  simp only [List.length_append, h1, h2, Info.Bytes_size]
  omega

theorem ParseAnnounceMessage_Bytes_aux (L : Lib) (msg : AnnounceMessage) (a : UDPAddr)
    (hlen : (UDPAddr.String L msg.Client.Address).length ≤ 255)
    (hres : L.ResolveUDPAddr (UDPAddr.String L msg.Client.Address) = .ok a) :
    ParseAnnounceMessage L (msg.Bytes L) =
      .ok { PublicKey := msg.PublicKey, SessionID := msg.SessionID,
            Client := { PublicKey := msg.Client.PublicKey, Address := some a,
                        Name := msg.Client.Name } } := by
  have hs := msg.SessionID.property
  have hp := msg.PublicKey.property
  rw [AnnounceMessage.Bytes_concat]
  have hd32 : (msg.SessionID.val ++ (msg.PublicKey.val ++ msg.Client.Bytes L)).drop 32
      = msg.PublicKey.val ++ msg.Client.Bytes L := List.drop_left' hs
  have hd64 : (msg.SessionID.val ++ (msg.PublicKey.val ++ msg.Client.Bytes L)).drop 64
      = msg.Client.Bytes L := by
    have : (64 : Nat) = 32 + 32 := rfl
    rw [this, ← List.drop_drop, hd32]
    exact List.drop_left' hp
  unfold ParseAnnounceMessage
  rw [if_neg (by simp only [List.length_append, hs, hp]; omega)]
  simp only [hd64, hd32, ParseInfo_Bytes_aux L msg.Client a hlen hres,
    Bytes.copy_take_append]

/-! ## packet.go: stores into a block and reads from it -/

theorem block.write_val (b : block) (off : Nat) (pre old post v : List Byte)
    (hb : b.val = pre ++ (old ++ post)) (hp : pre.length = off)
    (hv : v.length = old.length) :
    (b.write off v).val = pre ++ (v ++ post) := by
  have hlen := b.property
  rw [hb] at hlen
  simp only [List.length_append] at hlen
  simp only [block.write]
  have h1 : (b.val).take off = pre := by rw [hb]; exact List.take_left' hp
  have h2 : (b.val).drop (off + v.length) = post := by
    rw [hb, ← List.append_assoc]
    exact List.drop_left' (by simp only [List.length_append]; omega)
  rw [h1, h2, List.append_assoc]
  exact List.take_of_length_le (by simp only [List.length_append]; omega)

theorem read_mid (l pre mid post : List Byte) (off n : Nat)
    (hl : l = pre ++ (mid ++ post)) (hp : pre.length = off) (hm : mid.length = n) :
    (l.drop off).take n = mid := by
  rw [hl, List.drop_left' hp]
  exact List.take_left' hm

theorem header_read (l : List Byte) (off n : Nat) (h : off + n ≤ 127) :
    ((l.take 127).drop off).take n = (l.drop off).take n := by
  rw [List.drop_take, List.take_take]
  congr 1
  omega

theorem block.Payload_length (b : block) : b.Payload.length = 897 := by
  have h := b.property
  simp only [block.Payload, List.length_drop]
  omega

theorem plainPayload_length (data : List Byte) : (plainPayload data).length = 897 := by
  simp only [plainPayload, List.length_append, List.length_take, List.length_replicate]
  omega

theorem plainPayload_take (data : List Byte) (h : data.length ≤ 897) :
    (plainPayload data).take data.length = data := by
  have h1 : data.take 897 = data := List.take_of_length_le h
  rw [plainPayload, h1]
  exact List.take_left' rfl

theorem wirePayload_length (L : Lib) (o : Oracle) (sess : Option Session) (data : List Byte) :
    (wirePayload L o sess data).length = 897 := by
  cases sess with
  | none => exact plainPayload_length data
  | some s => simp [wirePayload, Lib.XORKeyStream, xorStream_length, plainPayload_length]

theorem wireID_length (sess : Option Session) : (wireID sess).length = 32 := by
  cases sess with
  | none => simp [wireID]
  | some s => exact s.Hash.property

theorem wireNonce_length (o : Oracle) (sess : Option Session) : (wireNonce o sess).length = 24 := by
  cases sess with
  | none => simp [wireNonce]
  | some s => exact o.nonce.property

section Fields

variable {b : block} {crc id code size nonce sig pl : List Byte}

theorem block.HasFields.read_ID (h : b.HasFields crc id code size nonce sig pl) :
    b.Header.ID = id := by
  obtain ⟨hb, h1, h2, h3, h4, h5, h6, h7⟩ := h
  simp only [block.Header, header.ID]
  rw [header_read _ 4 32 (by omega)]
  exact read_mid _ crc id _ 4 32 hb h1 h2

theorem block.HasFields.read_Code (h : b.HasFields crc id code size nonce sig pl) :
    b.Header.Code = code := by
  obtain ⟨hb, h1, h2, h3, h4, h5, h6, h7⟩ := h
  simp only [block.Header, header.Code]
  rw [header_read _ 36 1 (by omega)]
  exact read_mid _ (crc ++ id) code (size ++ (nonce ++ (sig ++ pl))) 36 1
    (by rw [hb]; simp only [List.append_assoc])
    (by simp only [List.length_append]; omega) h3

theorem block.HasFields.read_Size (h : b.HasFields crc id code size nonce sig pl) :
    b.Header.Size = size := by
  obtain ⟨hb, h1, h2, h3, h4, h5, h6, h7⟩ := h
  simp only [block.Header, header.Size]
  rw [header_read _ 37 2 (by omega)]
  exact read_mid _ (crc ++ (id ++ code)) size (nonce ++ (sig ++ pl)) 37 2
    (by rw [hb]; simp only [List.append_assoc])
    (by simp only [List.length_append]; omega) h4

theorem block.HasFields.read_Nonce (h : b.HasFields crc id code size nonce sig pl) :
    b.Header.Nonce = nonce := by
  obtain ⟨hb, h1, h2, h3, h4, h5, h6, h7⟩ := h
  simp only [block.Header, header.Nonce]
  rw [header_read _ 39 24 (by omega)]
  exact read_mid _ (crc ++ (id ++ (code ++ size))) nonce (sig ++ pl) 39 24
    (by rw [hb]; simp only [List.append_assoc])
    (by simp only [List.length_append]; omega) h5

theorem block.HasFields.read_Signature (h : b.HasFields crc id code size nonce sig pl) :
    b.Header.Signature = sig := by
  obtain ⟨hb, h1, h2, h3, h4, h5, h6, h7⟩ := h
  simp only [block.Header, header.Signature]
  rw [header_read _ 63 64 (by omega)]
  have := read_mid b.val (crc ++ (id ++ (code ++ (size ++ nonce)))) (sig ++ pl) [] 63 (64 + 897)
    (by rw [hb]; simp only [List.append_assoc, List.append_nil])
    (by simp only [List.length_append]; omega) (by simp only [List.length_append]; omega)
  rw [← List.take_left' h6, ← this, List.take_take]
  rfl

theorem block.HasFields.read_Payload (h : b.HasFields crc id code size nonce sig pl) :
    b.Payload = pl := by
  obtain ⟨hb, h1, h2, h3, h4, h5, h6, h7⟩ := h
  simp only [block.Payload]
  rw [hb]
  have : crc ++ (id ++ (code ++ (size ++ (nonce ++ (sig ++ pl))))) =
      (crc ++ (id ++ (code ++ (size ++ (nonce ++ sig))))) ++ pl := by
    simp only [List.append_assoc]
  rw [this]
  exact List.drop_left' (by simp only [List.length_append]; omega)

theorem block.HasFields.write_ID (h : b.HasFields crc id code size nonce sig pl)
    (v w : List Byte) (hv : v = w) (hw : w.length = 32) :
    (b.write 4 v).HasFields crc w code size nonce sig pl := by
  obtain ⟨hb, h1, h2, h3, h4, h5, h6, h7⟩ := h
  subst hv
  exact ⟨block.write_val b 4 crc id _ v hb h1 (by omega), h1, hw, h3, h4, h5, h6, h7⟩

theorem block.HasFields.write_Code (h : b.HasFields crc id code size nonce sig pl)
    (v w : List Byte) (hv : v = w) (hw : w.length = 1) :
    (b.write 36 v).HasFields crc id w size nonce sig pl := by
  obtain ⟨hb, h1, h2, h3, h4, h5, h6, h7⟩ := h
  subst hv
  refine ⟨?_, h1, h2, hw, h4, h5, h6, h7⟩
  have := block.write_val b 36 (crc ++ id) code (size ++ (nonce ++ (sig ++ pl))) v
    (by rw [hb]; simp only [List.append_assoc])
    (by simp only [List.length_append]; omega) (by omega)
  rw [this]; simp only [List.append_assoc]

theorem block.HasFields.write_Size (h : b.HasFields crc id code size nonce sig pl)
    (v w : List Byte) (hv : v = w) (hw : w.length = 2) :
    (b.write 37 v).HasFields crc id code w nonce sig pl := by
  obtain ⟨hb, h1, h2, h3, h4, h5, h6, h7⟩ := h
  subst hv
  refine ⟨?_, h1, h2, h3, hw, h5, h6, h7⟩
  have := block.write_val b 37 (crc ++ (id ++ code)) size (nonce ++ (sig ++ pl)) v
    (by rw [hb]; simp only [List.append_assoc])
    (by simp only [List.length_append]; omega) (by omega)
  rw [this]; simp only [List.append_assoc]

theorem block.HasFields.write_Nonce (h : b.HasFields crc id code size nonce sig pl)
    (v w : List Byte) (hv : v = w) (hw : w.length = 24) :
    (b.write 39 v).HasFields crc id code size w sig pl := by
  obtain ⟨hb, h1, h2, h3, h4, h5, h6, h7⟩ := h
  subst hv
  refine ⟨?_, h1, h2, h3, h4, hw, h6, h7⟩
  have := block.write_val b 39 (crc ++ (id ++ (code ++ size))) nonce (sig ++ pl) v
    (by rw [hb]; simp only [List.append_assoc])
    (by simp only [List.length_append]; omega) (by omega)
  rw [this]; simp only [List.append_assoc]

theorem block.HasFields.write_Signature (h : b.HasFields crc id code size nonce sig pl)
    (v w : List Byte) (hv : v = w) (hw : w.length = 64) :
    (b.write 63 v).HasFields crc id code size nonce w pl := by
  obtain ⟨hb, h1, h2, h3, h4, h5, h6, h7⟩ := h
  subst hv
  refine ⟨?_, h1, h2, h3, h4, h5, hw, h7⟩
  have := block.write_val b 63 (crc ++ (id ++ (code ++ (size ++ nonce)))) sig pl v
    (by rw [hb]; simp only [List.append_assoc])
    (by simp only [List.length_append]; omega) (by omega)
  rw [this]; simp only [List.append_assoc]

theorem block.HasFields.write_Payload (h : b.HasFields crc id code size nonce sig pl)
    (v w : List Byte) (hv : v = w) (hw : w.length = 897) :
    (b.write 127 v).HasFields crc id code size nonce sig w := by
  obtain ⟨hb, h1, h2, h3, h4, h5, h6, h7⟩ := h
  subst hv
  refine ⟨?_, h1, h2, h3, h4, h5, h6, hw⟩
  have := block.write_val b 127 (crc ++ (id ++ (code ++ (size ++ (nonce ++ sig))))) pl [] v
    (by rw [hb]; simp only [List.append_assoc, List.append_nil])
    (by simp only [List.length_append]; omega) (by omega)
  rw [this]; simp only [List.append_assoc, List.append_nil]

end Fields

/-- Every block splits into its seven fields. -/
theorem block.hasFields (b : block) :
    b.HasFields b.Header.CRC b.Header.ID b.Header.Code b.Header.Size b.Header.Nonce
      b.Header.Signature b.Payload := by
  have hlen := b.property
  simp only [block.HasFields, block.Header, block.Payload, header.CRC, header.ID, header.Code,
    header.Size, header.Nonce, header.Signature]
  refine ⟨?_, ?_, ?_, ?_, ?_, ?_, ?_, ?_⟩
  · apply List.ext_getElem?
    intro i
    simp only [List.getElem?_append, List.getElem?_take, List.getElem?_drop, List.length_take,
      List.length_drop]
    split_ifs <;> first | rfl | (congr 1; omega)
  all_goals simp only [List.length_take, List.length_drop]; omega

theorem zero_hasFields :
    block.HasFields (Bytes.zero 1024) (List.replicate 4 0) (List.replicate 32 0)
      (List.replicate 1 0) (List.replicate 2 0) (List.replicate 24 0) (List.replicate 64 0)
      (List.replicate 897 0) := by
  refine ⟨?_, List.length_replicate _ _, List.length_replicate _ _, List.length_replicate _ _,
    List.length_replicate _ _, List.length_replicate _ _, List.length_replicate _ _,
    List.length_replicate _ _⟩
  show List.replicate 1024 (0 : Byte) = _
  simp only [← List.replicate_add]

theorem goCopy_zero_payload (data : List Byte) :
    goCopy (List.replicate 897 0) data = plainPayload data := by
  simp only [goCopy, plainPayload, List.length_replicate, List.drop_replicate]

section Steps

variable {b : block} {crc id code size nonce sig pl : List Byte}

theorem block.HasFields.step_ID (h : b.HasFields crc id code size nonce sig pl) (x : Hash256) :
    (b.write 4 (goCopy b.Header.ID x.val)).HasFields crc x.val code size nonce sig pl :=
  h.write_ID _ _ (by rw [h.read_ID]; exact goCopy_full _ _ (by rw [x.property, h.2.2.1]))
    x.property

theorem block.HasFields.step_Payload
    (h : b.HasFields crc id code size nonce sig (List.replicate 897 0)) (data : List Byte) :
    (b.write 127 (goCopy b.Payload data)).HasFields crc id code size nonce sig
      (plainPayload data) :=
  h.write_Payload _ _ (by rw [h.read_Payload]; exact goCopy_zero_payload data)
    (plainPayload_length data)

theorem block.HasFields.step_XOR (h : b.HasFields crc id code size nonce sig pl) (L : Lib)
    (key : Bytes 32) :
    (b.write 127 (L.XORKeyStream b.Payload b.Header.Nonce key)).HasFields crc id code size
      nonce sig (L.XORKeyStream pl nonce key) :=
  h.write_Payload _ _ (by rw [h.read_Payload, h.read_Nonce])
    (by simp only [Lib.XORKeyStream, xorStream_length]; exact h.2.2.2.2.2.2.2)

theorem block.HasFields.step_Sign (h : b.HasFields crc id code size nonce sig pl) (L : Lib)
    (priv : PrivKey) :
    (b.write 63 (goCopy b.Header.Signature (L.Sign priv b.Payload).val)).HasFields crc id code
      size nonce (L.Sign priv pl).val pl :=
  h.write_Signature _ _
    (by rw [h.read_Signature, h.read_Payload]
        exact goCopy_full _ _ (by rw [(L.Sign priv pl).property, h.2.2.2.2.2.2.1]))
    (L.Sign priv pl).property

end Steps

/-! ## client.go: the datagram built by `sendMessage` -/

/-- The datagram `sendMessage` writes, field by field. -/
theorem Client.sendMessage_fields (L : Lib) (c : Client) (o : Oracle) (addr : UDPAddr)
    (sess : Option Session) (code : Nat) (data : List Byte) :
    (c.sendMessage L o addr sess code data).1.2.HasFields (List.replicate 4 0) (wireID sess)
      [Fin.ofNat code] (bePutUint16 data.length) (wireNonce o sess)
      (L.Sign c.priv (wirePayload L o sess data)).val (wirePayload L o sess data) := by
  cases sess with
  | none =>
    exact ((((zero_hasFields.write_Code [Fin.ofNat code] _ rfl rfl).write_Size
      (bePutUint16 data.length) _ rfl rfl).step_Payload data).step_Sign L c.priv)
  | some s =>
    exact (((((((zero_hasFields.step_ID s.Hash).write_Code [Fin.ofNat code] _ rfl rfl).write_Size
      (bePutUint16 data.length) _ rfl rfl).step_Payload data).write_Nonce o.nonce.val _ rfl
      o.nonce.property).step_XOR L s.SharedKey).step_Sign L c.priv)

theorem Client.sendMessage_addr (L : Lib) (c : Client) (o : Oracle) (addr : UDPAddr)
    (sess : Option Session) (code : Nat) (data : List Byte) :
    (c.sendMessage L o addr sess code data).1.1 = addr := rfl

theorem Client.sendMessage_err (L : Lib) (c : Client) (o : Oracle) (addr : UDPAddr)
    (sess : Option Session) (code : Nat) (data : List Byte) :
    (c.sendMessage L o addr sess code data).2 = o.writeErr := rfl

/-- What the receiver reads from an unencrypted Announce written by `sendMessage`. -/
theorem announce_packet (L : Lib) (X : Client) (o : Oracle) (addr src a : UDPAddr)
    (pub sid : Bytes 32)
    (hlen : (L.addrString X.addr).length ≤ 255)
    (hres : L.ResolveUDPAddr (L.addrString X.addr) = .ok a)
    (hfit : 97 + (L.addrString X.addr).length + X.name.length ≤ 897)
    (pkt : block)
    (hpkt : pkt = (X.sendMessage L o addr none CodeAnnounce
      (AnnounceMessage.Bytes L { PublicKey := pub, SessionID := sid, Client := X.info })).1.2) :
    (⟨src, pkt⟩ : readPacket).sessionID = Bytes.zero 32 ∧
    (⟨src, pkt⟩ : readPacket).code = CodeAnnounce ∧
    (⟨src, pkt⟩ : readPacket).size ≤ 897 ∧
    ParseAnnounceMessage L (pkt.Payload.take (⟨src, pkt⟩ : readPacket).size) =
      .ok { PublicKey := pub, SessionID := sid,
            Client := { PublicKey := X.pub, Address := some a, Name := X.name } } ∧
    (⟨src, pkt⟩ : readPacket).sig = L.Sign X.priv pkt.Payload := by
  have hf := Client.sendMessage_fields L X o addr none CodeAnnounce
    (AnnounceMessage.Bytes L { PublicKey := pub, SessionID := sid, Client := X.info })
  rw [← hpkt] at hf
  have hbl := AnnounceMessage.Bytes_total L
    { PublicKey := pub, SessionID := sid, Client := X.info }
  have hbl2 : (AnnounceMessage.Bytes L
      { PublicKey := pub, SessionID := sid, Client := X.info }).length ≤ 897 := by
    rw [hbl]; exact hfit
  have hsize : (⟨src, pkt⟩ : readPacket).size = (AnnounceMessage.Bytes L
      { PublicKey := pub, SessionID := sid, Client := X.info }).length := by
    simp only [readPacket.size]
    rw [hf.read_Size]
    exact beUint16_bePutUint16 _ (by omega)
  refine ⟨?_, ?_, ?_, ?_, ?_⟩
  · simp only [readPacket.sessionID]
    rw [hf.read_ID]
    exact Bytes.copy_val _ (Bytes.zero 32)
  · simp only [readPacket.code]
    rw [hf.read_Code]
    rfl
  · rw [hsize]; exact hbl2
  · rw [hsize, hf.read_Payload]
    simp only [wirePayload]
    rw [plainPayload_take _ hbl2]
    exact (ParseAnnounceMessage_Bytes_aux L
      { PublicKey := pub, SessionID := sid, Client := X.info } a hlen hres)
  · simp only [readPacket.sig]
    rw [hf.read_Signature, hf.read_Payload]
    exact Bytes.copy_val _ _

/-! ## client.go: the branches of `handlePacket` and of the send request -/

theorem Client.handlePacket_unknown (L : Lib) (c : Client) (o : Oracle) (st : state)
    (p : readPacket) (hs : st.sessions.find p.sessionID = none)
    (hc : p.code = CodeAnnounce ∨ p.code = CodeNotAnnounced) :
    c.handlePacket L o st p = c.handlePacketBody L o st p.address p.message p.sessionID p.sig := by
  simp only [readPacket.sessionID, readPacket.code] at hs hc
  simp only [Client.handlePacket, hs]
  rw [if_neg (by omega)]
  rfl

theorem Client.handlePacket_unknown_other (L : Lib) (c : Client) (o : Oracle) (st : state)
    (p : readPacket) (hs : st.sessions.find p.sessionID = none)
    (hc : p.code ≠ CodeAnnounce ∧ p.code ≠ CodeNotAnnounced) :
    c.handlePacket L o st p =
      { state := st, sent := [(c.sendMessage L o p.address none CodeNotAnnounced []).1],
        delivered := [], ret := .returned o.writeErr } := by
  simp only [readPacket.sessionID, readPacket.code] at hs hc
  simp only [Client.handlePacket, hs]
  rw [if_pos hc]
  rfl

theorem Client.handlePacket_known_bad (L : Lib) (c : Client) (o : Oracle) (st : state)
    (p : readPacket) (sess : Session) (hs : st.sessions.find p.sessionID = some sess)
    (hv : L.Verify sess.PublicKey p.message.Payload p.sig = false) :
    c.handlePacket L o st p =
      { state := st, sent := [], delivered := [],
        ret := .returned (some (.new "invalid signature")) } := by
  simp only [readPacket.sessionID, readPacket.sig] at hs hv
  simp only [Client.handlePacket, hs, hv]
  rfl

theorem Client.handlePacket_known_good (L : Lib) (c : Client) (o : Oracle) (st : state)
    (p : readPacket) (sess : Session) (hs : st.sessions.find p.sessionID = some sess)
    (hv : L.Verify sess.PublicKey p.message.Payload p.sig = true) :
    c.handlePacket L o st p =
      c.handlePacketBody L o st p.address
        (p.message.write 127
          (L.XORKeyStream p.message.Payload p.message.Header.Nonce sess.SharedKey))
        p.sessionID p.sig := by
  simp only [readPacket.sessionID, readPacket.sig] at hs hv
  simp only [Client.handlePacket, hs, hv]
  rfl

theorem Client.handlePacketBody_oversize (L : Lib) (c : Client) (o : Oracle) (st : state)
    (address : UDPAddr) (message : block) (sessionID : Hash256) (sig : SigData)
    (h : 897 < beUint16 message.Header.Size) :
    c.handlePacketBody L o st address message sessionID sig =
      { state := st, sent := [], delivered := [], ret := .panicked } := by
  have hlen := block.Payload_length message
  simp only [Client.handlePacketBody, sliceTo]
  rw [if_neg (by omega)]

theorem Client.handlePacketBody_payload (L : Lib) (c : Client) (o : Oracle) (st : state)
    (address : UDPAddr) (message : block) (sessionID : Hash256) (sig : SigData)
    (hc : (message.Header.Code.getD 0 0).val = CodePayload)
    (hs : beUint16 message.Header.Size ≤ 897) :
    c.handlePacketBody L o st address message sessionID sig =
      { state := st, sent := [],
        delivered := [(L.Base58Encode sessionID.val,
          message.Payload.take (beUint16 message.Header.Size))],
        ret := .returned none } := by
  have hlen := block.Payload_length message
  simp only [Client.handlePacketBody, sliceTo, hc]
  rw [if_pos (by omega)]
  rfl

theorem Client.handlePacketBody_announce_parse_error (L : Lib) (c : Client) (o : Oracle)
    (st : state) (address : UDPAddr) (message : block) (sessionID : Hash256) (sig : SigData)
    (err : GoError)
    (hc : (message.Header.Code.getD 0 0).val = CodeAnnounce)
    (hs : beUint16 message.Header.Size ≤ 897)
    (hp : ParseAnnounceMessage L (message.Payload.take (beUint16 message.Header.Size)) =
      .error err) :
    c.handlePacketBody L o st address message sessionID sig =
      { state := st, sent := [], delivered := [], ret := .returned (some err) } := by
  have hlen := block.Payload_length message
  simp only [Client.handlePacketBody, sliceTo, hc]
  rw [if_pos (by omega)]
  simp only [hp, if_true]

theorem Client.handlePacketBody_announce_bad_sig (L : Lib) (c : Client) (o : Oracle)
    (st : state) (address : UDPAddr) (message : block) (sessionID : Hash256) (sig : SigData)
    (msg : AnnounceMessage)
    (hc : (message.Header.Code.getD 0 0).val = CodeAnnounce)
    (hs : beUint16 message.Header.Size ≤ 897)
    (hp : ParseAnnounceMessage L (message.Payload.take (beUint16 message.Header.Size)) =
      .ok msg)
    (hv : L.Verify msg.Client.PublicKey message.Payload sig = false) :
    c.handlePacketBody L o st address message sessionID sig =
      { state := st, sent := [], delivered := [],
        ret := .returned (some (.new "invalid signature")) } := by
  have hlen := block.Payload_length message
  simp only [Client.handlePacketBody, sliceTo, hc]
  rw [if_pos (by omega)]
  simp only [hp, hv, if_true]
  rfl

theorem Client.handlePacketBody_announce_pending (L : Lib) (c : Client) (o : Oracle)
    (st : state) (address : UDPAddr) (message : block) (sessionID : Hash256) (sig : SigData)
    (msg : AnnounceMessage) (ps : PendingSession)
    (hc : (message.Header.Code.getD 0 0).val = CodeAnnounce)
    (hs : beUint16 message.Header.Size ≤ 897)
    (hp : ParseAnnounceMessage L (message.Payload.take (beUint16 message.Header.Size)) =
      .ok msg)
    (hv : L.Verify msg.Client.PublicKey message.Payload sig = true)
    (hps : st.pending.find msg.SessionID = some ps) :
    c.handlePacketBody L o st address message sessionID sig =
      { state :=
          { sessions := st.sessions.set msg.SessionID
              { Hash := msg.SessionID, SharedKey := L.Precompute msg.PublicKey ps.Priv,
                Address := address, PublicKey := msg.Client.PublicKey, Client := msg.Client,
                Started := o.started, LastReceive := o.lastReceive },
            pending := st.pending.delete msg.SessionID },
        sent := [], delivered := [], ret := .returned none } := by
  have hlen := block.Payload_length message
  simp only [Client.handlePacketBody, sliceTo, hc]
  rw [if_pos (by omega)]
  simp only [hp, hv, hps, if_true]
  rfl

theorem Client.handlePacketBody_announce_fresh (L : Lib) (c : Client) (o : Oracle)
    (st : state) (address : UDPAddr) (message : block) (sessionID : Hash256) (sig : SigData)
    (msg : AnnounceMessage) (pub priv : Bytes 32)
    (hc : (message.Header.Code.getD 0 0).val = CodeAnnounce)
    (hs : beUint16 message.Header.Size ≤ 897)
    (hp : ParseAnnounceMessage L (message.Payload.take (beUint16 message.Header.Size)) =
      .ok msg)
    (hv : L.Verify msg.Client.PublicKey message.Payload sig = true)
    (hps : st.pending.find msg.SessionID = none)
    (hg : o.genKey = .ok (pub, priv)) :
    c.handlePacketBody L o st address message sessionID sig =
      { state :=
          { sessions := st.sessions.set msg.SessionID
              { Hash := msg.SessionID, SharedKey := L.Precompute msg.PublicKey priv,
                Address := address, PublicKey := msg.Client.PublicKey, Client := msg.Client,
                Started := o.started, LastReceive := o.lastReceive },
            pending := st.pending },
        sent := [(c.sendMessage L o address none CodeAnnounce
          (AnnounceMessage.Bytes L
            { PublicKey := pub, SessionID := msg.SessionID, Client := c.info })).1],
        delivered := [], ret := .returned o.writeErr } := by
  have hlen := block.Payload_length message
  simp only [Client.handlePacketBody, sliceTo, hc]
  rw [if_pos (by omega)]
  simp only [hp, hv, hps, hg, if_true]
  rfl

/-- A validly signed Announce from an unknown header identifier always stores the announcing
key under the session identifier named in the message, whatever the store held there. -/
theorem handlePacket_announce_stores_key (L : Lib) (c : Client) (o : Oracle) (st : state)
    (p : readPacket) (msg : AnnounceMessage) (pub priv : Bytes 32)
    (hs : st.sessions.find p.sessionID = none)
    (hc : p.code = CodeAnnounce)
    (hsize : p.size ≤ 897)
    (hparse : ParseAnnounceMessage L (p.message.Payload.take p.size) = .ok msg)
    (hv : L.Verify msg.Client.PublicKey p.message.Payload p.sig = true)
    (hg : o.genKey = .ok (pub, priv)) :
    ((c.handlePacket L o st p).state.sessions.find msg.SessionID).map Session.PublicKey =
      some msg.Client.PublicKey := by
  rw [Client.handlePacket_unknown L c o st p hs (Or.inl hc)]
  cases hps : st.pending.find msg.SessionID with
  | some ps =>
    rw [Client.handlePacketBody_announce_pending L c o st p.address p.message p.sessionID p.sig
      msg ps hc hsize hparse hv hps]
    simp only [Map.find_set_self, Option.map_some']
  | none =>
    rw [Client.handlePacketBody_announce_fresh L c o st p.address p.message p.sessionID p.sig
      msg pub priv hc hsize hparse hv hps hg]
    simp only [Map.find_set_self, Option.map_some']

theorem runSend_toID (L : Lib) (c : Client) (o : Oracle) (st : state) (toID msg : List Byte)
    (sess : Session)
    (hs : st.sessions.find ((Bytes.zero 32).copy (L.Base58Decode toID)) = some sess) :
    c.runSend L o st { toID := toID, addr := none, msg := msg } =
      { state := st, sent := [(c.sendMessage L o sess.Address (some sess) CodePayload msg).1],
        delivered := [], ret := .returned o.writeErr } := by
  simp only [Client.runSend, hs]
  rfl

theorem runSend_addr (L : Lib) (c : Client) (o : Oracle) (st : state) (toID msg : List Byte)
    (addr : UDPAddr) (pub priv : Bytes 32) (hg : o.genKey = .ok (pub, priv)) :
    c.runSend L o st { toID := toID, addr := some addr, msg := msg } =
      { state :=
          { sessions := st.sessions,
            pending := st.pending.set o.sessionID
              { Hash := o.sessionID, Priv := priv, Pub := pub, Client := none } },
        sent := [(c.sendMessage L o addr none CodeAnnounce
          (AnnounceMessage.Bytes L
            { PublicKey := pub, SessionID := o.sessionID, Client := c.info })).1],
        delivered := [], ret := .returned o.writeErr } := by
  simp only [Client.runSend, hg]
  rfl

theorem handshake_sessions (L : Lib) (A B : Client) (oA oB oA2 : Oracle)
    (addrB srcA srcB aA aB : UDPAddr) (text : List Byte) (pubA privA pubB privB : Bytes 32)
    (hgA : oA.genKey = .ok (pubA, privA)) (hgB : oB.genKey = .ok (pubB, privB))
    (hsigA : ∀ m, L.Verify A.pub m (L.Sign A.priv m) = true)
    (hsigB : ∀ m, L.Verify B.pub m (L.Sign B.priv m) = true)
    (hlenA : (L.addrString A.addr).length ≤ 255)
    (hresA : L.ResolveUDPAddr (L.addrString A.addr) = .ok aA)
    (hfitA : 97 + (L.addrString A.addr).length + A.name.length ≤ 897)
    (hlenB : (L.addrString B.addr).length ≤ 255)
    (hresB : L.ResolveUDPAddr (L.addrString B.addr) = .ok aB)
    (hfitB : 97 + (L.addrString B.addr).length + B.name.length ≤ 897) :
    (handshake L A B oA oB oA2 addrB srcA srcB text).accept.state =
      { sessions := [(oA.sessionID,
          { Hash := oA.sessionID, SharedKey := L.Precompute pubA privB, Address := srcA,
            PublicKey := A.pub,
            Client := { PublicKey := A.pub, Address := some aA, Name := A.name },
            Started := oB.started, LastReceive := oB.lastReceive })],
        pending := [] } ∧
    (handshake L A B oA oB oA2 addrB srcA srcB text).complete.state =
      { sessions := [(oA.sessionID,
          { Hash := oA.sessionID, SharedKey := L.Precompute pubB privA, Address := srcB,
            PublicKey := B.pub,
            Client := { PublicKey := B.pub, Address := some aB, Name := B.name },
            Started := oA2.started, LastReceive := oA2.lastReceive })],
        pending := [] } ∧
    (handshake L A B oA oB oA2 addrB srcA srcB text).complete.sent = [] ∧
    (handshake L A B oA oB oA2 addrB srcA srcB text).complete.ret = .returned none := by
  have h1 := runSend_addr L A oA emptyState [] text addrB pubA privA hgA
  obtain ⟨a1, a2, a3, a4, a5⟩ := announce_packet L A oA addrB srcA aA pubA oA.sessionID
    hlenA hresA hfitA _ rfl
  have h2 := Client.handlePacket_unknown L B oB emptyState _ (Map.find_nil _) (Or.inl a2)
  rw [Client.handlePacketBody_announce_fresh L B oB emptyState _ _ _ _ _ pubB privB a2 a3 a4
    (by rw [a5]; exact hsigA _) (Map.find_nil _) hgB] at h2
  obtain ⟨b1, b2, b3, b4, b5⟩ := announce_packet L B oB srcA srcB aB pubB oA.sessionID
    hlenB hresB hfitB _ rfl
  have h3 := Client.handlePacket_unknown L A oA2
    { sessions := [], pending := [(oA.sessionID,
        { Hash := oA.sessionID, Priv := privA, Pub := pubA, Client := none })] }
    _ (Map.find_nil _) (Or.inl b2)
  rw [Client.handlePacketBody_announce_pending L A oA2 _ _ _ _ _ _ _ b2 b3 b4
    (by rw [b5]; exact hsigB _) (Map.find_singleton _ _)] at h3
  simp only [handshake]
  rw [h1]
  simp only [Outcome.firstSent, List.head?_cons, Option.map_some', Option.getD_some]
  rw [h2]
  simp only [List.head?_cons, Option.map_some', Option.getD_some]
  refine ⟨rfl, ?_⟩
  erw [h3]
  refine ⟨?_, rfl, rfl⟩
  show ({ sessions := _, pending := Map.delete _ _ } : state) = _
  rw [Map.delete_singleton]
  rfl

/-! ## Facts about the concrete inputs -/

theorem toyVerify_toySign (pub : PubKey) (priv : PrivKey) (h : priv.val.drop 32 = pub.val)
    (m : List Byte) : toyVerify pub m (toySign priv m) = true := by
  simp only [toyVerify, toySign, h, decide_eq_true_eq]

theorem oversizePacket_fields :
    oversizePacket.message.HasFields (List.replicate 4 0) (List.replicate 32 0)
      (List.replicate 1 0) [3, 130] (List.replicate 24 0) (List.replicate 64 0)
      (List.replicate 897 0) :=
  zero_hasFields.write_Size [3, 130] _ rfl rfl

/-- The Announce carried by `hijackPacket`. -/
theorem hijackPacket_parse :
    ParseAnnounceMessage toyLib (hijackPacket.message.Payload.take hijackPacket.size) =
      .ok { PublicKey := Bytes.fill 32 3, SessionID := Bytes.fill 32 5,
            Client := toyClientE.info } := rfl

/-! ## Claims C1 and C2: round trips of the handshake messages -/

/-- Claim C1: for an Info whose address prints to at most 255 bytes and resolves back to
the same address, parsing the serialized Info succeeds and gives back the same public key,
address and name. -/
theorem ParseInfo_Bytes (L : Lib) (info : Info) (a : UDPAddr)
    (haddr : info.Address = some a)
    (hlen : (UDPAddr.String L info.Address).length ≤ 255)
    (hres : L.ResolveUDPAddr (UDPAddr.String L info.Address) = .ok a) :
    ParseInfo L (info.Bytes L) = .ok info := by
  rw [ParseInfo_Bytes_aux L info a hlen hres, ← haddr]

/-- Claim C1, run on a concrete Info. -/
theorem ParseInfo_Bytes_witness :
    ParseInfo toyLib (toyInfoA.Bytes toyLib) = .ok toyInfoA :=
  ParseInfo_Bytes toyLib toyInfoA toyAddrA rfl (by decide) rfl

/-- Claim C2: an AnnounceMessage with a valid Info (its address prints to at most 255 bytes
and resolves back to the same address) serializes to the 32-byte session id, then the
32-byte ephemeral public key, then the serialized Info, and parsing that gives back the
same message. -/
theorem ParseAnnounceMessage_Bytes (L : Lib) (msg : AnnounceMessage) (a : UDPAddr)
    (haddr : msg.Client.Address = some a)
    (hlen : (UDPAddr.String L msg.Client.Address).length ≤ 255)
    (hres : L.ResolveUDPAddr (UDPAddr.String L msg.Client.Address) = .ok a) :
    msg.SessionID.val.length = 32 ∧ msg.PublicKey.val.length = 32 ∧
    msg.Bytes L = msg.SessionID.val ++ (msg.PublicKey.val ++ msg.Client.Bytes L) ∧
    ParseAnnounceMessage L (msg.Bytes L) = .ok msg := by
  refine ⟨msg.SessionID.property, msg.PublicKey.property,
    AnnounceMessage.Bytes_concat L msg, ?_⟩
  rw [ParseAnnounceMessage_Bytes_aux L msg a hlen hres, ← haddr]

/-- Claim C2, run on a concrete message. -/
theorem ParseAnnounceMessage_Bytes_witness :
    toyAnnounceA.SessionID.val.length = 32 ∧ toyAnnounceA.PublicKey.val.length = 32 ∧
    toyAnnounceA.Bytes toyLib = toyAnnounceA.SessionID.val ++
      (toyAnnounceA.PublicKey.val ++ toyAnnounceA.Client.Bytes toyLib) ∧
    ParseAnnounceMessage toyLib (toyAnnounceA.Bytes toyLib) = .ok toyAnnounceA :=
  ParseAnnounceMessage_Bytes toyLib toyAnnounceA toyAddrA rfl (by decide) rfl

/-! ## Claim C3: the full handshake -/

/-- Claim C3 as stated fails: when the name of B has 850 bytes, B accepts the Announce of A
and replies, but the reply declares more than 897 payload bytes; A panics on it, keeps its
pending session and has no established session, although Precompute is commutative on the
two generated key pairs. -/
theorem full_handshake_counterexample :
    longNameHandshake.connect.sent.length = 1 ∧
    longNameHandshake.accept.sent.length = 1 ∧
    longNameHandshake.accept.state.sessions.length = 1 ∧
    longNameHandshake.complete.ret = .panicked ∧
    longNameHandshake.complete.state.sessions = [] ∧
    longNameHandshake.complete.state.pending.length = 1 ∧
    toyLib.Precompute (Bytes.fill 32 4) (Bytes.fill 32 3) =
      toyLib.Precompute (Bytes.fill 32 3) (Bytes.fill 32 4) := by
  decide

/-- Claim C3, amended: two endpoints with empty stores whose serialized Announce messages fit
the 897-byte payload region (97 bytes plus address text plus name), whose address texts have
at most 255 bytes and resolve, and whose signatures verify: after A serves a connect request
to B, B handles the Announce of A and A handles the reply of B, A has no pending session,
each side holds exactly one session, both under the identifier A generated, and (Precompute
being commutative on the two generated key pairs) both hold the same shared key. -/
theorem full_handshake (L : Lib) (A B : Client) (oA oB oA2 : Oracle)
    (addrB srcA srcB aA aB : UDPAddr) (text : List Byte) (pubA privA pubB privB : Bytes 32)
    (hgA : oA.genKey = .ok (pubA, privA)) (hgB : oB.genKey = .ok (pubB, privB))
    (hsigA : ∀ m, L.Verify A.pub m (L.Sign A.priv m) = true)
    (hsigB : ∀ m, L.Verify B.pub m (L.Sign B.priv m) = true)
    (hlenA : (L.addrString A.addr).length ≤ 255)
    (hresA : L.ResolveUDPAddr (L.addrString A.addr) = .ok aA)
    (hfitA : 97 + (L.addrString A.addr).length + A.name.length ≤ 897)
    (hlenB : (L.addrString B.addr).length ≤ 255)
    (hresB : L.ResolveUDPAddr (L.addrString B.addr) = .ok aB)
    (hfitB : 97 + (L.addrString B.addr).length + B.name.length ≤ 897)
    (hcomm : L.Precompute pubB privA = L.Precompute pubA privB) :
    ∃ sessA sessB : Session,
      (handshake L A B oA oB oA2 addrB srcA srcB text).complete.state.pending = [] ∧
      (handshake L A B oA oB oA2 addrB srcA srcB text).complete.state.sessions =
        [(oA.sessionID, sessA)] ∧
      (handshake L A B oA oB oA2 addrB srcA srcB text).accept.state.sessions =
        [(oA.sessionID, sessB)] ∧
      sessA.Hash = oA.sessionID ∧ sessB.Hash = oA.sessionID ∧
      sessA.SharedKey = sessB.SharedKey := by
  obtain ⟨h1, h2, _, _⟩ := handshake_sessions L A B oA oB oA2 addrB srcA srcB aA aB text
    pubA privA pubB privB hgA hgB hsigA hsigB hlenA hresA hfitA hlenB hresB hfitB
  rw [h1, h2]
  exact ⟨_, _, rfl, rfl, rfl, rfl, rfl, hcomm⟩

/-- Claim C3 (amended), run on the toy endpoints. -/
theorem full_handshake_witness :
    ∃ sessA sessB : Session,
      toyHandshake.complete.state.pending = [] ∧
      toyHandshake.complete.state.sessions = [(toyOracleA.sessionID, sessA)] ∧
      toyHandshake.accept.state.sessions = [(toyOracleA.sessionID, sessB)] ∧
      sessA.Hash = toyOracleA.sessionID ∧ sessB.Hash = toyOracleA.sessionID ∧
      sessA.SharedKey = sessB.SharedKey :=
  full_handshake toyLib toyClientA toyClientB toyOracleA toyOracleB toyOracleA toyAddrB toyAddrA
    toyAddrB toyAddrA toyAddrB [] (Bytes.fill 32 3) (Bytes.fill 32 3) (Bytes.fill 32 4)
    (Bytes.fill 32 4) rfl rfl
    (toyVerify_toySign _ _ (by decide)) (toyVerify_toySign _ _ (by decide))
    (by decide) rfl (by decide) (by decide) rfl (by decide) (by decide)

/-! ## Claim C4: payload exchange -/

/-- Claim C4: when A and B hold sessions with the same identifier and shared key, B knows
A's signing key, and the message has at most 897 bytes, the packet A sends to that
identifier makes B invoke the payload callback exactly once, with the original message
bytes and that session identifier. -/
theorem payload_exchange (L : Lib) (A B : Client) (oA oB : Oracle) (stA stB : state)
    (id : Hash256) (sA sB : Session) (toID msg : List Byte) (src : UDPAddr)
    (hto : (Bytes.zero 32).copy (L.Base58Decode toID) = id)
    (hA : stA.sessions.find id = some sA) (hAid : sA.Hash = id)
    (hB : stB.sessions.find id = some sB)
    (hkey : sB.SharedKey = sA.SharedKey)
    (hpk : sB.PublicKey = A.pub)
    (hsig : ∀ m, L.Verify A.pub m (L.Sign A.priv m) = true)
    (hlen : msg.length ≤ 897) :
    ∃ pkt : block,
      (A.runSend L oA stA { toID := toID, addr := none, msg := msg }).sent =
        [(sA.Address, pkt)] ∧
      (B.handlePacket L oB stB { address := src, message := pkt }).delivered =
        [(L.Base58Encode id.val, msg)] ∧
      (B.handlePacket L oB stB { address := src, message := pkt }).ret = .returned none ∧
      (B.handlePacket L oB stB { address := src, message := pkt }).state = stB := by
  have hf := Client.sendMessage_fields L A oA sA.Address (some sA) CodePayload msg
  refine ⟨(A.sendMessage L oA sA.Address (some sA) CodePayload msg).1.2, ?_, ?_⟩
  · rw [runSend_toID L A oA stA toID msg sA (by rw [hto]; exact hA)]
    rfl
  generalize (A.sendMessage L oA sA.Address (some sA) CodePayload msg).1.2 = pkt at hf
  have hid : (⟨src, pkt⟩ : readPacket).sessionID = id := by
    simp only [readPacket.sessionID, hf.read_ID, wireID]
    rw [Bytes.copy_val, hAid]
  have hsg : (⟨src, pkt⟩ : readPacket).sig =
      L.Sign A.priv (wirePayload L oA (some sA) msg) := by
    simp only [readPacket.sig, hf.read_Signature]
    rw [Bytes.copy_val]
  have hgood := Client.handlePacket_known_good L B oB stB ⟨src, pkt⟩ sB (by rw [hid]; exact hB)
    (by rw [hsg, hpk]
        simp only [hf.read_Payload]
        exact hsig _)
  have hf2 := hf.step_XOR L sB.SharedKey
  have hplain : L.XORKeyStream (wirePayload L oA (some sA) msg) (wireNonce oA (some sA))
      sB.SharedKey = plainPayload msg := by
    simp only [wirePayload, wireNonce, Lib.XORKeyStream, hkey]
    exact xorStream_xorStream _ _
  rw [hplain] at hf2
  have hsz : beUint16 (pkt.write 127 (L.XORKeyStream pkt.Payload pkt.Header.Nonce
      sB.SharedKey)).Header.Size = msg.length := by
    rw [hf2.read_Size]; exact beUint16_bePutUint16 _ (by omega)
  have hbody := Client.handlePacketBody_payload L B oB stB src _
    (⟨src, pkt⟩ : readPacket).sessionID (⟨src, pkt⟩ : readPacket).sig
    (by rw [hf2.read_Code]; rfl) (by rw [hsz]; exact hlen)
  rw [hgood, hbody, hsz, hf2.read_Payload, plainPayload_take msg hlen, hid]
  exact ⟨rfl, rfl, rfl⟩

/-- Claim C4, run on the toy endpoints: A sends the two bytes "hi". -/
theorem payload_exchange_witness :
    ∃ pkt : block,
      (toyClientA.runSend toyLib toyOracleA toyStateA
        { toID := (Bytes.fill 32 5).val, addr := none, msg := [104, 105] }).sent =
        [(toySessionA.Address, pkt)] ∧
      (toyClientB.handlePacket toyLib toyOracleB toyStateB
        { address := toyAddrA, message := pkt }).delivered =
        [(toyLib.Base58Encode (Bytes.fill 32 5).val, [104, 105])] ∧
      (toyClientB.handlePacket toyLib toyOracleB toyStateB
        { address := toyAddrA, message := pkt }).ret = .returned none ∧
      (toyClientB.handlePacket toyLib toyOracleB toyStateB
        { address := toyAddrA, message := pkt }).state = toyStateB :=
  payload_exchange toyLib toyClientA toyClientB toyOracleA toyOracleB toyStateA toyStateB
    (Bytes.fill 32 5) toySessionA toySessionB (Bytes.fill 32 5).val [104, 105] toyAddrA
    (by decide) (by decide) rfl (by decide) rfl rfl (toyVerify_toySign _ _ (by decide))
    (by decide)

/-! ## Claims C5 to C7: declared sizes and session identifiers -/

/-- Claim C5 (the code fails it): an Announce packet from an unknown peer that declares 898
payload bytes makes handlePacket slice out of range; the call panics instead of returning. -/
theorem handlePacket_oversize_panics (L : Lib) (c : Client) (o : Oracle) :
    oversizePacket.size = 898 ∧ oversizePacket.code = CodeAnnounce ∧
    c.handlePacket L o emptyState oversizePacket =
      { state := emptyState, sent := [], delivered := [], ret := .panicked } := by
  have hsize : oversizePacket.size = 898 := by
    simp only [readPacket.size, oversizePacket_fields.read_Size]; rfl
  have hcode : oversizePacket.code = CodeAnnounce := by
    simp only [readPacket.code, oversizePacket_fields.read_Code]; rfl
  refine ⟨hsize, hcode, ?_⟩
  rw [Client.handlePacket_unknown L c o emptyState oversizePacket rfl (Or.inl hcode)]
  exact Client.handlePacketBody_oversize L c o _ _ _ _ _
    (by rw [show beUint16 oversizePacket.message.Header.Size = 898 from hsize]; omega)

/-- Claim C6 (the code fails it): B holds a session under an identifier for peer A; an
Announce signed by another endpoint E that names the same identifier makes handlePacket
store the key of E under that identifier. -/
theorem handlePacket_announce_reassigns_session :
    (toyStateB.sessions.find (Bytes.fill 32 5)).map Session.PublicKey = some toyClientA.pub ∧
    ((toyClientB.handlePacket toyLib toyOracleB toyStateB hijackPacket).state.sessions.find
      (Bytes.fill 32 5)).map Session.PublicKey = some toyClientE.pub ∧
    toyClientE.pub ≠ toyClientA.pub := by
  refine ⟨by decide, ?_, by decide⟩
  exact handlePacket_announce_stores_key toyLib toyClientB toyOracleB toyStateB hijackPacket
    { PublicKey := Bytes.fill 32 3, SessionID := Bytes.fill 32 5, Client := toyClientE.info }
    (Bytes.fill 32 4) (Bytes.fill 32 4) (by decide) (by decide) (by decide) hijackPacket_parse
    (by decide) rfl

/-- Claim C7 (the code fails it): for 898 bytes of data sendMessage declares a payload size
of 898, more than the 897-byte payload region, while the payload carries 897 bytes: without
a session, the first 897 bytes of the data. -/
theorem sendMessage_oversize_declared (L : Lib) (c : Client) (o : Oracle) (addr : UDPAddr)
    (sess : Option Session) (code : Nat) (x : Byte) :
    beUint16 (c.sendMessage L o addr sess code (List.replicate 898 x)).1.2.Header.Size = 898 ∧
    (c.sendMessage L o addr sess code (List.replicate 898 x)).1.2.Payload.length = 897 ∧
    (c.sendMessage L o addr none code (List.replicate 898 x)).1.2.Payload =
      List.replicate 897 x := by
  have h := Client.sendMessage_fields L c o addr sess code (List.replicate 898 x)
  have h0 := Client.sendMessage_fields L c o addr none code (List.replicate 898 x)
  refine ⟨?_, block.Payload_length _, ?_⟩
  · rw [h.read_Size, List.length_replicate]; rfl
  · rw [h0.read_Payload]
    have e1 : min 897 898 = 897 := by omega
    have e2 : 897 - 898 = 0 := by omega
    simp only [wirePayload, plainPayload, List.length_replicate, List.take_replicate, e1, e2,
      List.replicate_zero, List.append_nil]

/-! ## Claims C8 to C10: packets that are refused -/

/-- Claim C8 as stated fails: a packet that bears the identifier of an established session
and the valid signature of that session's peer, and whose payload as transmitted parses as
an Announce naming a key under which the signature does not verify, is decrypted first; the
error returned comes from parsing the decrypted bytes and is not the invalid-signature
error. -/
theorem announce_bad_signature_counterexample :
    relabelledPacket.code = CodeAnnounce ∧
    ParseAnnounceMessage toyLib
      (relabelledPacket.message.Payload.take relabelledPacket.size) = .ok relabelledAnnounce ∧
    toyLib.Verify relabelledAnnounce.Client.PublicKey relabelledPacket.message.Payload
      relabelledPacket.sig = false ∧
    (toyClientB.handlePacket toyLib toyOracleB toyStateB relabelledPacket).ret =
      .returned (some (.new "invalid info: data too short")) ∧
    (toyClientB.handlePacket toyLib toyOracleB toyStateB relabelledPacket).ret ≠
      .returned (some (.new "invalid signature")) := by
  refine ⟨by decide, rfl, by decide, by decide, by decide⟩

/-- Claim C8, amended: an Announce packet whose header session identifier matches no
established session and whose signature does not verify, over the payload as received,
under the key claimed in its own Info, makes handlePacket return the invalid-signature
error, send nothing and leave both maps as they were. -/
theorem handlePacket_announce_bad_signature (L : Lib) (c : Client) (o : Oracle) (st : state)
    (p : readPacket) (msg : AnnounceMessage)
    (hs : st.sessions.find p.sessionID = none)
    (hc : p.code = CodeAnnounce)
    (hsize : p.size ≤ 897)
    (hparse : ParseAnnounceMessage L (p.message.Payload.take p.size) = .ok msg)
    (hv : L.Verify msg.Client.PublicKey p.message.Payload p.sig = false) :
    (c.handlePacket L o st p).ret = .returned (some (.new "invalid signature")) ∧
    (c.handlePacket L o st p).sent = [] ∧
    (c.handlePacket L o st p).state.sessions = st.sessions ∧
    (c.handlePacket L o st p).state.pending = st.pending := by
  rw [Client.handlePacket_unknown L c o st p hs (Or.inl hc),
    Client.handlePacketBody_announce_bad_sig L c o st p.address p.message p.sessionID p.sig msg
      hc hsize hparse hv]
  exact ⟨rfl, rfl, rfl, rfl⟩

/-- Claim C8 (amended), run on a concrete packet. -/
theorem handlePacket_announce_bad_signature_witness :
    (toyClientB.handlePacket toyLib toyOracleB emptyState badlySignedPacket).ret =
      .returned (some (.new "invalid signature")) ∧
    (toyClientB.handlePacket toyLib toyOracleB emptyState badlySignedPacket).sent = [] ∧
    (toyClientB.handlePacket toyLib toyOracleB emptyState badlySignedPacket).state.sessions =
      emptyState.sessions ∧
    (toyClientB.handlePacket toyLib toyOracleB emptyState badlySignedPacket).state.pending =
      emptyState.pending :=
  handlePacket_announce_bad_signature toyLib toyClientB toyOracleB emptyState badlySignedPacket
    toyAnnounceA rfl (by decide) (by decide) rfl (by decide)

/-- Claim C9: when the header session identifier matches an established session and the
signature does not verify under that session's peer key over the payload as received,
handlePacket returns an error, invokes no callback, sends nothing and leaves the store as it
was. -/
theorem handlePacket_known_session_bad_signature (L : Lib) (c : Client) (o : Oracle)
    (st : state) (p : readPacket) (sess : Session)
    (hs : st.sessions.find p.sessionID = some sess)
    (hv : L.Verify sess.PublicKey p.message.Payload p.sig = false) :
    (c.handlePacket L o st p).ret = .returned (some (.new "invalid signature")) ∧
    (c.handlePacket L o st p).delivered = [] ∧
    (c.handlePacket L o st p).sent = [] ∧
    (c.handlePacket L o st p).state = st := by
  rw [Client.handlePacket_known_bad L c o st p sess hs hv]
  exact ⟨rfl, rfl, rfl, rfl⟩

/-- Claim C9, run on a concrete packet. -/
theorem handlePacket_known_session_bad_signature_witness :
    (toyClientB.handlePacket toyLib toyOracleB toyStateB unsignedPacket).ret =
      .returned (some (.new "invalid signature")) ∧
    (toyClientB.handlePacket toyLib toyOracleB toyStateB unsignedPacket).delivered = [] ∧
    (toyClientB.handlePacket toyLib toyOracleB toyStateB unsignedPacket).sent = [] ∧
    (toyClientB.handlePacket toyLib toyOracleB toyStateB unsignedPacket).state = toyStateB :=
  handlePacket_known_session_bad_signature toyLib toyClientB toyOracleB toyStateB
    unsignedPacket toySessionB (by decide) (by decide)

/-- Claim C10: a packet whose code is neither Announce nor NotAnnounced and whose header
session identifier matches no established session is answered with exactly one packet, a
NotAnnounced packet with zero session id and declared size 0 sent to the sender, and both
maps stay as they were. -/
theorem handlePacket_unknown_session_replies (L : Lib) (c : Client) (o : Oracle)
    (st : state) (p : readPacket)
    (hs : st.sessions.find p.sessionID = none)
    (hc : p.code ≠ CodeAnnounce ∧ p.code ≠ CodeNotAnnounced) :
    ∃ b : block, (c.handlePacket L o st p).sent = [(p.address, b)] ∧
      b.Header.Code = [Fin.ofNat CodeNotAnnounced] ∧
      b.Header.ID = List.replicate 32 0 ∧
      beUint16 b.Header.Size = 0 ∧
      (c.handlePacket L o st p).state.sessions = st.sessions ∧
      (c.handlePacket L o st p).state.pending = st.pending := by
  rw [Client.handlePacket_unknown_other L c o st p hs hc]
  have h := Client.sendMessage_fields L c o p.address none CodeNotAnnounced []
  exact ⟨(c.sendMessage L o p.address none CodeNotAnnounced []).1.2, rfl, h.read_Code,
    h.read_ID, by rw [h.read_Size]; rfl, rfl, rfl⟩

/-- Claim C10, run on a concrete packet. -/
theorem handlePacket_unknown_session_replies_witness :
    ∃ b : block, (toyClientB.handlePacket toyLib toyOracleB emptyState strayPacket).sent =
        [(strayPacket.address, b)] ∧
      b.Header.Code = [Fin.ofNat CodeNotAnnounced] ∧
      b.Header.ID = List.replicate 32 0 ∧
      beUint16 b.Header.Size = 0 ∧
      (toyClientB.handlePacket toyLib toyOracleB emptyState strayPacket).state.sessions =
        emptyState.sessions ∧
      (toyClientB.handlePacket toyLib toyOracleB emptyState strayPacket).state.pending =
        emptyState.pending :=
  handlePacket_unknown_session_replies toyLib toyClientB toyOracleB emptyState strayPacket
    (by decide) (by decide)

/-! ## Claim C11: an Announce that completes a pending handshake -/

theorem Map.find_delete_self {ν : Type} (m : Map ν) (k : Hash256) :
    Map.find (Map.delete m k) k = none := by
  induction m with
  | nil => rfl
  | cons e es ih =>
    obtain ⟨a, b⟩ := e
    simp only [Map.find, Map.delete] at ih ⊢
    by_cases h : a = k
    · subst h
      simpa [List.filter_cons] using ih
    · have hk : (k == a) = false := by
        simp only [beq_eq_false_iff_ne, ne_eq]
        exact fun hh => h hh.symm
      simpa [List.filter_cons, h, List.lookup, hk] using ih

theorem Map.find_delete_ne {ν : Type} (m : Map ν) (k j : Hash256) (hj : j ≠ k) :
    Map.find (Map.delete m k) j = Map.find m j := by
  induction m with
  | nil => rfl
  | cons e es ih =>
    obtain ⟨a, b⟩ := e
    simp only [Map.find, Map.delete] at ih ⊢
    by_cases h : a = k
    · subst h
      have hk : (j == a) = false := by
        simp only [beq_eq_false_iff_ne, ne_eq]
        exact hj
      simpa [List.filter_cons, List.lookup, hk] using ih
    · cases hje : (j == a) with
      | true => simp [List.filter_cons, h, List.lookup, hje]
      | false => simpa [List.filter_cons, h, List.lookup, hje] using ih

theorem Map.find_set_ne {ν : Type} (m : Map ν) (k j : Hash256) (v : ν) (hj : j ≠ k) :
    Map.find (Map.set m k v) j = Map.find m j := by
  have hk : (j == k) = false := by
    simp only [beq_eq_false_iff_ne, ne_eq]
    exact hj
  have h := Map.find_delete_ne m k j hj
  simp only [Map.find, Map.set, Map.delete, List.lookup, hk] at h ⊢
  exact h

theorem toyReplyPacket_parse :
    ParseAnnounceMessage toyLib (toyReplyPacket.message.Payload.take toyReplyPacket.size) =
      .ok toyReplyAnnounce := rfl

/-- Claim C11: a validly signed Announce (declared size within bounds, header identifier
matching no session) whose message identifier is pending removes that pending entry and no
other, stores under the identifier a session with shared key Precompute(peer ephemeral
public key, pending private key), the address of the sender and the key and Info of the
message, and sends nothing. -/
theorem handlePacket_announce_completes_pending (L : Lib) (c : Client) (o : Oracle)
    (st : state) (p : readPacket) (msg : AnnounceMessage) (ps : PendingSession)
    (hs : st.sessions.find p.sessionID = none)
    (hc : p.code = CodeAnnounce)
    (hsize : p.size ≤ 897)
    (hparse : ParseAnnounceMessage L (p.message.Payload.take p.size) = .ok msg)
    (hv : L.Verify msg.Client.PublicKey p.message.Payload p.sig = true)
    (hps : st.pending.find msg.SessionID = some ps) :
    (c.handlePacket L o st p).state.pending.find msg.SessionID = none ∧
    (∀ k, k ≠ msg.SessionID →
      (c.handlePacket L o st p).state.pending.find k = st.pending.find k) ∧
    (c.handlePacket L o st p).state.sessions.find msg.SessionID =
      some { Hash := msg.SessionID, SharedKey := L.Precompute msg.PublicKey ps.Priv,
             Address := p.address, PublicKey := msg.Client.PublicKey, Client := msg.Client,
             Started := o.started, LastReceive := o.lastReceive } ∧
    (c.handlePacket L o st p).sent = [] ∧
    (c.handlePacket L o st p).ret = .returned none := by
  rw [Client.handlePacket_unknown L c o st p hs (Or.inl hc),
    Client.handlePacketBody_announce_pending L c o st p.address p.message p.sessionID p.sig
      msg ps hc hsize hparse hv hps]
  exact ⟨Map.find_delete_self _ _, fun k hk => Map.find_delete_ne _ _ k hk,
    Map.find_set_self _ _ _, rfl, rfl⟩

/-- Claim C11, run on the reply B writes to A. -/
theorem handlePacket_announce_completes_pending_witness :
    (toyClientA.handlePacket toyLib toyOracleA toyPendingStateA toyReplyPacket).state.pending.find
      toyReplyAnnounce.SessionID = none ∧
    (∀ k, k ≠ toyReplyAnnounce.SessionID →
      (toyClientA.handlePacket toyLib toyOracleA toyPendingStateA toyReplyPacket).state.pending.find
        k = toyPendingStateA.pending.find k) ∧
    (toyClientA.handlePacket toyLib toyOracleA toyPendingStateA toyReplyPacket).state.sessions.find
      toyReplyAnnounce.SessionID =
      some { Hash := toyReplyAnnounce.SessionID,
             SharedKey := toyLib.Precompute toyReplyAnnounce.PublicKey (Bytes.fill 32 3),
             Address := toyReplyPacket.address, PublicKey := toyReplyAnnounce.Client.PublicKey,
             Client := toyReplyAnnounce.Client,
             Started := toyOracleA.started, LastReceive := toyOracleA.lastReceive } ∧
    (toyClientA.handlePacket toyLib toyOracleA toyPendingStateA toyReplyPacket).sent = [] ∧
    (toyClientA.handlePacket toyLib toyOracleA toyPendingStateA toyReplyPacket).ret =
      .returned none :=
  handlePacket_announce_completes_pending toyLib toyClientA toyOracleA toyPendingStateA
    toyReplyPacket toyReplyAnnounce
    { Hash := Bytes.fill 32 5, Priv := Bytes.fill 32 3, Pub := Bytes.fill 32 3, Client := none }
    (by decide) (by decide) (by decide) toyReplyPacket_parse (by decide) (by decide)

/-! ## Claims C12 and C13: the Announce an endpoint writes -/

/-- The datagram `sendMessage` writes without a session for data that fits the payload
region. -/
theorem Client.sendMessage_plain (L : Lib) (c : Client) (o : Oracle) (addr : UDPAddr)
    (code : Nat) (data : List Byte) (h : data.length ≤ 897) :
    (c.sendMessage L o addr none code data).1.2.Header.ID = List.replicate 32 0 ∧
    (c.sendMessage L o addr none code data).1.2.Header.Code = [Fin.ofNat code] ∧
    (c.sendMessage L o addr none code data).1.2.Header.Nonce = List.replicate 24 0 ∧
    (c.sendMessage L o addr none code data).1.2.declared = some data ∧
    (c.sendMessage L o addr none code data).1.2.Payload =
      data ++ List.replicate (897 - data.length) 0 ∧
    (c.sendMessage L o addr none code data).1.2.Header.Signature =
      (L.Sign c.priv (c.sendMessage L o addr none code data).1.2.Payload).val := by
  have hf := Client.sendMessage_fields L c o addr none code data
  have hpl : (c.sendMessage L o addr none code data).1.2.Payload =
      data ++ List.replicate (897 - data.length) 0 := by
    rw [hf.read_Payload]
    simp only [wirePayload, plainPayload, List.take_of_length_le h]
  refine ⟨hf.read_ID, hf.read_Code, hf.read_Nonce, ?_, hpl, ?_⟩
  · simp only [block.declared, sliceTo, hf.read_Size,
      beUint16_bePutUint16 _ (show data.length < 65536 by omega)]
    rw [if_pos (by rw [block.Payload_length]; exact h), hpl]
    exact congrArg some (List.take_left' rfl)
  · rw [hf.read_Signature, hf.read_Payload]

theorem Client.handlePacketBody_notAnnounced (L : Lib) (c : Client) (o : Oracle)
    (st : state) (address : UDPAddr) (message : block) (sessionID : Hash256) (sig : SigData)
    (pub priv : Bytes 32)
    (hc : (message.Header.Code.getD 0 0).val = CodeNotAnnounced)
    (hs : beUint16 message.Header.Size ≤ 897)
    (hg : o.genKey = .ok (pub, priv)) :
    c.handlePacketBody L o st address message sessionID sig =
      { state :=
          { sessions := st.sessions,
            pending := st.pending.set o.sessionID
              { Hash := o.sessionID, Priv := priv, Pub := pub, Client := none } },
        sent := [(c.sendMessage L o address none CodeAnnounce
          (AnnounceMessage.Bytes L
            { PublicKey := pub, SessionID := o.sessionID, Client := c.info })).1],
        delivered := [], ret := .returned o.writeErr } := by
  have hlen := block.Payload_length message
  simp only [Client.handlePacketBody, sliceTo, hc]
  rw [if_pos (by omega)]
  simp only [hg]
  rfl

theorem Client.info_Bytes_fit (L : Lib) (c : Client) (pub sid : Bytes 32)
    (hfit : 97 + (L.addrString c.addr).length + c.name.length ≤ 897) :
    (AnnounceMessage.Bytes L
      { PublicKey := pub, SessionID := sid, Client := c.info }).length ≤ 897 := by
  rw [AnnounceMessage.Bytes_total]
  exact hfit

/-- Claim C12 as stated fails, in two ways. An Announce that bears the header identifier of
an established session is decrypted before it is parsed: although it is validly signed and
its identifier is not pending, no session is stored under its identifier and nothing is
sent. And the reply of an endpoint whose name has 850 bytes declares 950 payload bytes, so
its payload cannot be decoded. -/
theorem announce_unsolicited_counterexample :
    (toyInSessionAnnounce.code = CodeAnnounce ∧
      ParseAnnounceMessage toyLib
        (toyInSessionAnnounce.message.Payload.take toyInSessionAnnounce.size) =
        .ok toySecondAnnounce ∧
      toyLib.Verify toySecondAnnounce.Client.PublicKey toyInSessionAnnounce.message.Payload
        toyInSessionAnnounce.sig = true ∧
      toyStateB.pending.find toySecondAnnounce.SessionID = none ∧
      (toyClientB.handlePacket toyLib toyOracleB toyStateB
        toyInSessionAnnounce).state.sessions.find toySecondAnnounce.SessionID = none ∧
      (toyClientB.handlePacket toyLib toyOracleB toyStateB toyInSessionAnnounce).sent = []) ∧
    (toyConnectPacket.code = CodeAnnounce ∧
      ParseAnnounceMessage toyLib
        (toyConnectPacket.message.Payload.take toyConnectPacket.size) = .ok toyAnnounceA ∧
      toyLib.Verify toyAnnounceA.Client.PublicKey toyConnectPacket.message.Payload
        toyConnectPacket.sig = true ∧
      emptyState.pending.find toyAnnounceA.SessionID = none ∧
      (toyClientLongB.handlePacket toyLib toyOracleB emptyState toyConnectPacket).sent.length
        = 1 ∧
      (toyClientLongB.handlePacket toyLib toyOracleB emptyState
        toyConnectPacket).firstSent.declared = none) := by
  refine ⟨⟨by decide, rfl, by decide, by decide, by decide, by decide⟩,
    ⟨by decide, rfl, by decide, by decide, by decide, by decide⟩⟩

/-- Claim C12, amended: a validly signed Announce (declared size within bounds, header
identifier matching no session) whose message identifier is not pending, received with key
generation succeeding by an endpoint whose own Announce fits the 897-byte payload region and
whose listen address prints to at most 255 bytes and resolves back to itself: the pending map
is unchanged, the session map holds the identifier with shared key Precompute(peer ephemeral
public key, fresh private key), and exactly one packet is sent to the sender, an unencrypted
Announce with zero header session id whose declared payload decodes to the same identifier,
the fresh ephemeral public key and the Info of this endpoint. -/
theorem handlePacket_announce_unsolicited (L : Lib) (c : Client) (o : Oracle) (st : state)
    (p : readPacket) (msg : AnnounceMessage) (pub priv : Bytes 32)
    (hs : st.sessions.find p.sessionID = none)
    (hc : p.code = CodeAnnounce)
    (hsize : p.size ≤ 897)
    (hparse : ParseAnnounceMessage L (p.message.Payload.take p.size) = .ok msg)
    (hv : L.Verify msg.Client.PublicKey p.message.Payload p.sig = true)
    (hps : st.pending.find msg.SessionID = none)
    (hg : o.genKey = .ok (pub, priv))
    (hlen : (L.addrString c.addr).length ≤ 255)
    (hres : L.ResolveUDPAddr (L.addrString c.addr) = .ok c.addr)
    (hfit : 97 + (L.addrString c.addr).length + c.name.length ≤ 897) :
    (c.handlePacket L o st p).state.pending = st.pending ∧
    (c.handlePacket L o st p).state.sessions.find msg.SessionID =
      some { Hash := msg.SessionID, SharedKey := L.Precompute msg.PublicKey priv,
             Address := p.address, PublicKey := msg.Client.PublicKey, Client := msg.Client,
             Started := o.started, LastReceive := o.lastReceive } ∧
    ∃ b : block, (c.handlePacket L o st p).sent = [(p.address, b)] ∧
      b.Header.Code = [Fin.ofNat CodeAnnounce] ∧
      b.Header.ID = List.replicate 32 0 ∧
      b.Header.Nonce = List.replicate 24 0 ∧
      b.declared = some (AnnounceMessage.Bytes L
        { PublicKey := pub, SessionID := msg.SessionID, Client := c.info }) ∧
      b.declared.map (ParseAnnounceMessage L) =
        some (.ok { PublicKey := pub, SessionID := msg.SessionID, Client := c.info }) := by
  rw [Client.handlePacket_unknown L c o st p hs (Or.inl hc),
    Client.handlePacketBody_announce_fresh L c o st p.address p.message p.sessionID p.sig
      msg pub priv hc hsize hparse hv hps hg]
  obtain ⟨h1, h2, h3, h4, _, _⟩ := Client.sendMessage_plain L c o p.address CodeAnnounce _
    (Client.info_Bytes_fit L c pub msg.SessionID hfit)
  refine ⟨rfl, Map.find_set_self _ _ _, _, rfl, h2, h1, h3, h4, ?_⟩
  exact (congrArg (Option.map (ParseAnnounceMessage L)) h4).trans
    (congrArg some (ParseAnnounceMessage_Bytes_aux L
      { PublicKey := pub, SessionID := msg.SessionID, Client := c.info } c.addr hlen hres))

/-- Claim C12 (amended), run on B receiving the Announce A writes on connect. -/
theorem handlePacket_announce_unsolicited_witness :
    (toyClientB.handlePacket toyLib toyOracleB emptyState toyConnectPacket).state.pending =
      emptyState.pending ∧
    (toyClientB.handlePacket toyLib toyOracleB emptyState toyConnectPacket).state.sessions.find
      toyAnnounceA.SessionID =
      some { Hash := toyAnnounceA.SessionID,
             SharedKey := toyLib.Precompute toyAnnounceA.PublicKey (Bytes.fill 32 4),
             Address := toyConnectPacket.address, PublicKey := toyAnnounceA.Client.PublicKey,
             Client := toyAnnounceA.Client,
             Started := toyOracleB.started, LastReceive := toyOracleB.lastReceive } ∧
    ∃ b : block,
      (toyClientB.handlePacket toyLib toyOracleB emptyState toyConnectPacket).sent =
        [(toyConnectPacket.address, b)] ∧
      b.Header.Code = [Fin.ofNat CodeAnnounce] ∧
      b.Header.ID = List.replicate 32 0 ∧
      b.Header.Nonce = List.replicate 24 0 ∧
      b.declared = some (AnnounceMessage.Bytes toyLib
        { PublicKey := Bytes.fill 32 4, SessionID := toyAnnounceA.SessionID,
          Client := toyClientB.info }) ∧
      b.declared.map (ParseAnnounceMessage toyLib) =
        some (.ok { PublicKey := Bytes.fill 32 4, SessionID := toyAnnounceA.SessionID,
                    Client := toyClientB.info }) :=
  handlePacket_announce_unsolicited toyLib toyClientB toyOracleB emptyState toyConnectPacket
    toyAnnounceA (Bytes.fill 32 4) (Bytes.fill 32 4) (by decide) (by decide) (by decide) rfl
    (by decide) (by decide) rfl (by decide) rfl (by decide)

/-- Claim C13 as stated fails: the Announce of an endpoint whose name has 850 bytes has 950
bytes when serialized; the payload written holds 897 bytes and is not that serialization
zero-padded to 897 bytes, while the size field declares 950. -/
theorem connect_counterexample :
    (toyClientLongB.runSend toyLib toyOracleB emptyState
      { toID := [], addr := some toyAddrA, msg := [] }).sent.length = 1 ∧
    ((longNameAnnounce (Bytes.fill 32 6)).Bytes toyLib).length = 950 ∧
    beUint16 (toyClientLongB.runSend toyLib toyOracleB emptyState
      { toID := [], addr := some toyAddrA, msg := [] }).firstSent.Header.Size = 950 ∧
    (toyClientLongB.runSend toyLib toyOracleB emptyState
      { toID := [], addr := some toyAddrA, msg := [] }).firstSent.Payload ≠
      (longNameAnnounce (Bytes.fill 32 6)).Bytes toyLib ++
        List.replicate (897 - ((longNameAnnounce (Bytes.fill 32 6)).Bytes toyLib).length) 0 := by
  have hb : ((longNameAnnounce (Bytes.fill 32 6)).Bytes toyLib).length = 950 := by decide
  refine ⟨by decide, hb, by decide, ?_⟩
  intro h
  have hl := congrArg List.length h
  rw [block.Payload_length, List.length_append, List.length_replicate, hb] at hl
  omega

/-- Claim C13, amended: for every engine state and every connect request to a raw address,
with key generation succeeding and an own Announce of at most 897 bytes when serialized, the
engine stores one pending entry under the generated identifier, holding the generated key
pair, leaves every other pending entry and the session map as they were, and sends exactly
one packet to that address: code Announce, zero header session id, payload equal to the
serialization of (identifier, ephemeral public key, own Info) zero-padded to 897 bytes, and
signature Sign(own private key, payload); the engine step does not depend on the text of the
request. -/
theorem runSend_connect (L : Lib) (c : Client) (o : Oracle) (st : state)
    (toID text : List Byte) (addr : UDPAddr) (pub priv : Bytes 32)
    (hg : o.genKey = .ok (pub, priv))
    (hfit : 97 + (L.addrString c.addr).length + c.name.length ≤ 897) :
    (c.runSend L o st { toID := toID, addr := some addr, msg := text }).state.pending.find
      o.sessionID = some { Hash := o.sessionID, Priv := priv, Pub := pub, Client := none } ∧
    (∀ k, k ≠ o.sessionID →
      (c.runSend L o st { toID := toID, addr := some addr, msg := text }).state.pending.find k =
        st.pending.find k) ∧
    (c.runSend L o st { toID := toID, addr := some addr, msg := text }).state.sessions =
      st.sessions ∧
    (∃ b : block,
      (c.runSend L o st { toID := toID, addr := some addr, msg := text }).sent = [(addr, b)] ∧
      b.Header.Code = [Fin.ofNat CodeAnnounce] ∧
      b.Header.ID = List.replicate 32 0 ∧
      b.Payload =
        AnnounceMessage.Bytes L { PublicKey := pub, SessionID := o.sessionID, Client := c.info }
          ++ List.replicate (897 - (AnnounceMessage.Bytes L
            { PublicKey := pub, SessionID := o.sessionID, Client := c.info }).length) 0 ∧
      b.Header.Signature = (L.Sign c.priv b.Payload).val) ∧
    (∀ toID2 text2 : List Byte,
      c.runSend L o st { toID := toID2, addr := some addr, msg := text2 } =
        c.runSend L o st { toID := toID, addr := some addr, msg := text }) := by
  have hind : ∀ t m : List Byte, c.runSend L o st { toID := t, addr := some addr, msg := m } =
      { state :=
          { sessions := st.sessions,
            pending := st.pending.set o.sessionID
              { Hash := o.sessionID, Priv := priv, Pub := pub, Client := none } },
        sent := [(c.sendMessage L o addr none CodeAnnounce
          (AnnounceMessage.Bytes L
            { PublicKey := pub, SessionID := o.sessionID, Client := c.info })).1],
        delivered := [], ret := .returned o.writeErr } :=
    fun t m => runSend_addr L c o st t m addr pub priv hg
  obtain ⟨h1, h2, _, _, h5, h6⟩ := Client.sendMessage_plain L c o addr CodeAnnounce _
    (Client.info_Bytes_fit L c pub o.sessionID hfit)
  refine ⟨?_, ?_, ?_, ?_, ?_⟩
  · rw [hind]; exact Map.find_set_self _ _ _
  · intro k hk; rw [hind]; exact Map.find_set_ne _ _ k _ hk
  · rw [hind]
  · rw [hind]; exact ⟨_, rfl, h2, h1, h5, h6⟩
  · intro t m; rw [hind, hind]

/-- Claim C13 (amended), run on the connect request of A. -/
theorem runSend_connect_witness :
    (toyClientA.runSend toyLib toyOracleA emptyState
      { toID := [], addr := some toyAddrB, msg := [104, 105] }).state.pending.find
      toyOracleA.sessionID =
      some { Hash := toyOracleA.sessionID, Priv := Bytes.fill 32 3, Pub := Bytes.fill 32 3,
             Client := none } ∧
    (∀ k, k ≠ toyOracleA.sessionID →
      (toyClientA.runSend toyLib toyOracleA emptyState
        { toID := [], addr := some toyAddrB, msg := [104, 105] }).state.pending.find k =
        emptyState.pending.find k) ∧
    (toyClientA.runSend toyLib toyOracleA emptyState
      { toID := [], addr := some toyAddrB, msg := [104, 105] }).state.sessions =
      emptyState.sessions ∧
    (∃ b : block,
      (toyClientA.runSend toyLib toyOracleA emptyState
        { toID := [], addr := some toyAddrB, msg := [104, 105] }).sent = [(toyAddrB, b)] ∧
      b.Header.Code = [Fin.ofNat CodeAnnounce] ∧
      b.Header.ID = List.replicate 32 0 ∧
      b.Payload =
        AnnounceMessage.Bytes toyLib
          { PublicKey := Bytes.fill 32 3, SessionID := toyOracleA.sessionID,
            Client := toyClientA.info }
          ++ List.replicate (897 - (AnnounceMessage.Bytes toyLib
            { PublicKey := Bytes.fill 32 3, SessionID := toyOracleA.sessionID,
              Client := toyClientA.info }).length) 0 ∧
      b.Header.Signature = (toyLib.Sign toyClientA.priv b.Payload).val) ∧
    (∀ toID2 text2 : List Byte,
      toyClientA.runSend toyLib toyOracleA emptyState
        { toID := toID2, addr := some toyAddrB, msg := text2 } =
        toyClientA.runSend toyLib toyOracleA emptyState
          { toID := [], addr := some toyAddrB, msg := [104, 105] }) :=
  runSend_connect toyLib toyClientA toyOracleA emptyState [] [104, 105] toyAddrB
    (Bytes.fill 32 3) (Bytes.fill 32 3) rfl (by decide)

/-! ## Claim C14: sending to an unknown identifier -/

theorem runSend_toID_none (L : Lib) (c : Client) (o : Oracle) (st : state)
    (toID msg : List Byte)
    (hs : st.sessions.find ((Bytes.zero 32).copy (L.Base58Decode toID)) = none) :
    c.runSend L o st { toID := toID, addr := none, msg := msg } =
      { state := st, sent := [], delivered := [],
        ret := .returned (some (.new "not found")) } := by
  simp only [Client.runSend, hs]

/-- Claim C14: a send-to-identifier request whose decoded identifier is not a key of the
session map is answered with the not-found error; no packet is written and both maps stay
as they were. -/
theorem runSend_unknown_identifier (L : Lib) (c : Client) (o : Oracle) (st : state)
    (toID msg : List Byte)
    (hs : st.sessions.find ((Bytes.zero 32).copy (L.Base58Decode toID)) = none) :
    (c.runSend L o st { toID := toID, addr := none, msg := msg }).ret =
      .returned (some (.new "not found")) ∧
    (c.runSend L o st { toID := toID, addr := none, msg := msg }).sent = [] ∧
    (c.runSend L o st { toID := toID, addr := none, msg := msg }).state.sessions =
      st.sessions ∧
    (c.runSend L o st { toID := toID, addr := none, msg := msg }).state.pending =
      st.pending := by
  rw [runSend_toID_none L c o st toID msg hs]
  exact ⟨rfl, rfl, rfl, rfl⟩

/-- Claim C14, run on a store that holds one session under another identifier. -/
theorem runSend_unknown_identifier_witness :
    (toyClientA.runSend toyLib toyOracleA toyStateA
      { toID := [120], addr := none, msg := [104, 105] }).ret =
      .returned (some (.new "not found")) ∧
    (toyClientA.runSend toyLib toyOracleA toyStateA
      { toID := [120], addr := none, msg := [104, 105] }).sent = [] ∧
    (toyClientA.runSend toyLib toyOracleA toyStateA
      { toID := [120], addr := none, msg := [104, 105] }).state.sessions =
      toyStateA.sessions ∧
    (toyClientA.runSend toyLib toyOracleA toyStateA
      { toID := [120], addr := none, msg := [104, 105] }).state.pending =
      toyStateA.pending :=
  runSend_unknown_identifier toyLib toyClientA toyOracleA toyStateA [120] [104, 105]
    (by decide)

/-! ## Claim C15: the accessors of a block -/

theorem sliceTo_of_le (s : List Byte) (hi : Nat) (h : hi ≤ s.length) :
    sliceTo s hi = some (s.take hi) := by
  simp only [sliceTo, h, if_true]

theorem sliceFrom_of_le (s : List Byte) (lo : Nat) (h : lo ≤ s.length) :
    sliceFrom s lo = some (s.drop lo) := by
  simp only [sliceFrom, h, if_true]

theorem sliceFrom_sliceTo (s : List Byte) (lo n : Nat) (h : lo + n ≤ s.length) :
    (sliceFrom s lo).bind (sliceTo · n) = some ((s.drop lo).take n) := by
  rw [sliceFrom_of_le s lo (by omega), Option.some_bind,
    sliceTo_of_le _ n (by rw [List.length_drop]; omega)]

/-- Claim C15: on every 1024-byte block no accessor goes out of range, the accessors return
the byte ranges CRC [0,4), ID [4,36), Code [36,37), Size [37,39), Nonce [39,63), Signature
[63,127), Header [0,127) and Payload [127,1024) of 897 bytes, and the six header fields,
which follow one another without gap or overlap, make up the header exactly. -/
theorem block_accessor_ranges (b : block) :
    (b.Header? = some b.Header ∧ b.Payload? = some b.Payload ∧
      b.Header.CRC? = some b.Header.CRC ∧ b.Header.ID? = some b.Header.ID ∧
      b.Header.Code? = some b.Header.Code ∧ b.Header.Size? = some b.Header.Size ∧
      b.Header.Nonce? = some b.Header.Nonce ∧
      b.Header.Signature? = some b.Header.Signature) ∧
    (b.Header.CRC = byteRange b.val 0 4 ∧ b.Header.ID = byteRange b.val 4 36 ∧
      b.Header.Code = byteRange b.val 36 37 ∧ b.Header.Size = byteRange b.val 37 39 ∧
      b.Header.Nonce = byteRange b.val 39 63 ∧ b.Header.Signature = byteRange b.val 63 127 ∧
      b.Header = byteRange b.val 0 127 ∧ b.Payload = byteRange b.val 127 1024) ∧
    (b.Header.CRC.length = 4 ∧ b.Header.ID.length = 32 ∧ b.Header.Code.length = 1 ∧
      b.Header.Size.length = 2 ∧ b.Header.Nonce.length = 24 ∧
      b.Header.Signature.length = 64 ∧ b.Header.length = 127 ∧ b.Payload.length = 897) ∧
    b.Header = b.Header.CRC ++ (b.Header.ID ++ (b.Header.Code ++ (b.Header.Size ++
      (b.Header.Nonce ++ b.Header.Signature)))) ∧
    b.val = b.Header ++ b.Payload := by
  have hlen := b.property
  have hh : b.Header.length = 127 := by
    simp only [block.Header, List.length_take]; omega
  obtain ⟨hb, h1, h2, h3, h4, h5, h6, h7⟩ := b.hasFields
  refine ⟨⟨?_, ?_, ?_, ?_, ?_, ?_, ?_, ?_⟩, ⟨?_, ?_, ?_, ?_, ?_, ?_, ?_, ?_⟩,
    ⟨h1, h2, h3, h4, h5, h6, hh, h7⟩, ?_, ?_⟩
  · exact sliceTo_of_le _ _ (by omega)
  · exact sliceFrom_of_le _ _ (by omega)
  · exact sliceTo_of_le _ _ (by omega)
  · exact sliceFrom_sliceTo _ _ _ (by omega)
  · exact sliceFrom_sliceTo _ _ _ (by omega)
  · exact sliceFrom_sliceTo _ _ _ (by omega)
  · exact sliceFrom_sliceTo _ _ _ (by omega)
  · exact sliceFrom_sliceTo _ _ _ (by omega)
  · simp only [block.Header, header.CRC, byteRange, List.drop_zero, List.take_take]; rfl
  · exact header_read b.val 4 32 (by omega)
  · exact header_read b.val 36 1 (by omega)
  · exact header_read b.val 37 2 (by omega)
  · exact header_read b.val 39 24 (by omega)
  · exact header_read b.val 63 64 (by omega)
  · simp only [block.Header, byteRange, List.drop_zero]
  · simp only [block.Payload, byteRange]
    exact (List.take_of_length_le (by rw [List.length_drop]; omega)).symm
  · have hsplit : b.val = b.Header ++ b.Payload := (List.take_append_drop 127 b.val).symm
    rw [hb] at hsplit
    have e : b.Header.CRC ++ (b.Header.ID ++ (b.Header.Code ++ (b.Header.Size ++
        (b.Header.Nonce ++ (b.Header.Signature ++ b.Payload))))) =
        (b.Header.CRC ++ (b.Header.ID ++ (b.Header.Code ++ (b.Header.Size ++
          (b.Header.Nonce ++ b.Header.Signature))))) ++ b.Payload := by
      simp only [List.append_assoc]
    rw [e] at hsplit
    exact (List.append_cancel_right hsplit).symm
  · exact (List.take_append_drop 127 b.val).symm

/-! ## Claim C16: the parsers are total and reject short input -/

theorem indexAt_of_lt (s : List Byte) (i : Nat) (h : i < s.length) :
    indexAt s i = some (s.getD i 0) := by
  simp only [indexAt, List.getD_eq_getElem?_getD, List.getElem?_eq_getElem h,
    Option.getD_some]

theorem ParseInfoChecked_eq (L : Lib) (data : List Byte) :
    ParseInfoChecked L data = some (ParseInfo L data) := by
  unfold ParseInfoChecked ParseInfo
  by_cases h1 : data.length < 34
  · simp only [h1, if_true]
  · simp only [h1, if_false]
    rw [sliceTo_of_le data 32 (by omega), Option.some_bind,
      indexAt_of_lt data 32 (by omega), Option.some_bind]
    by_cases h2 : data.length < (data.getD 32 0).val + 33
    · simp only [h2, if_true]
    · simp only [h2, if_false]
      rw [sliceFrom_of_le data 33 (by omega), Option.some_bind,
        sliceTo_of_le _ _ (by rw [List.length_drop]; omega), Option.some_bind]
      cases L.ResolveUDPAddr (List.take (data.getD 32 0).val (List.drop 33 data)) with
      | error err => rfl
      | ok addr =>
        simp only []
        rw [sliceFrom_of_le data _ (by omega), Option.some_bind]

theorem ParseAnnounceMessageChecked_eq (L : Lib) (data : List Byte) :
    ParseAnnounceMessageChecked L data = some (ParseAnnounceMessage L data) := by
  unfold ParseAnnounceMessageChecked ParseAnnounceMessage
  by_cases h1 : data.length < 64
  · simp only [h1, if_true]
  · simp only [h1, if_false]
    rw [sliceTo_of_le data 32 (by omega), Option.some_bind,
      sliceFrom_of_le data 32 (by omega), Option.some_bind,
      sliceTo_of_le _ 32 (by rw [List.length_drop]; omega), Option.some_bind,
      sliceFrom_of_le data 64 (by omega), Option.some_bind,
      ParseInfoChecked_eq, Option.some_bind]
    cases ParseInfo L (List.drop 64 data) <;> rfl

theorem ParseInfo_short (L : Lib) (info : List Byte)
    (h : info.length < 34 ∨ info.length < 33 + (info.getD 32 0).val) :
    ParseInfo L info = .error (.new "invalid info: data too short") := by
  unfold ParseInfo
  by_cases h1 : info.length < 34
  · simp only [h1, if_true]
  · simp only [h1, if_false]
    rw [if_pos (by omega)]

theorem ParseAnnounceMessage_short (L : Lib) (data : List Byte) (h : data.length < 98) :
    ∃ e, ParseAnnounceMessage L data = .error e := by
  unfold ParseAnnounceMessage
  by_cases h1 : data.length < 64
  · simp only [h1, if_true]
    exact ⟨_, rfl⟩
  · simp only [h1, if_false]
    rw [ParseInfo_short L (List.drop 64 data) (Or.inl (by rw [List.length_drop]; omega))]
    exact ⟨_, rfl⟩

theorem handlePacket_short_announce (L : Lib) (c : Client) (o : Oracle) (st : state)
    (p : readPacket) (hc : p.code = CodeAnnounce) (hsize : p.size < 98) :
    (∃ e, (c.handlePacket L o st p).ret = .returned (some e)) ∧
    (c.handlePacket L o st p).state = st := by
  have hpl := block.Payload_length p.message
  cases hs : st.sessions.find p.sessionID with
  | none =>
    obtain ⟨e, he⟩ := ParseAnnounceMessage_short L (p.message.Payload.take p.size)
      (by rw [List.length_take]; omega)
    rw [Client.handlePacket_unknown L c o st p hs (Or.inl hc),
      Client.handlePacketBody_announce_parse_error L c o st p.address p.message p.sessionID
        p.sig e hc (by have := hsize; simp only [readPacket.size] at this; omega) he]
    exact ⟨⟨e, rfl⟩, rfl⟩
  | some sess =>
    cases hv : L.Verify sess.PublicKey p.message.Payload p.sig with
    | false =>
      rw [Client.handlePacket_known_bad L c o st p sess hs hv]
      exact ⟨⟨_, rfl⟩, rfl⟩
    | true =>
      rw [Client.handlePacket_known_good L c o st p sess hs hv]
      have hf := (block.hasFields p.message).step_XOR L sess.SharedKey
      have hcode := hf.read_Code
      have hsz := hf.read_Size
      have hpl2 := block.Payload_length (p.message.write 127
        (L.XORKeyStream p.message.Payload p.message.Header.Nonce sess.SharedKey))
      simp only [readPacket.code] at hc
      simp only [readPacket.size] at hsize
      obtain ⟨e, he⟩ := ParseAnnounceMessage_short L
        ((p.message.write 127 (L.XORKeyStream p.message.Payload p.message.Header.Nonce
          sess.SharedKey)).Payload.take (beUint16 (p.message.write 127 (L.XORKeyStream
            p.message.Payload p.message.Header.Nonce sess.SharedKey)).Header.Size))
        (by rw [List.length_take, hsz]; omega)
      rw [Client.handlePacketBody_announce_parse_error L c o st p.address _ p.sessionID
        p.sig e (by rw [hcode]; exact hc) (by rw [hsz]; omega) he]
      exact ⟨⟨e, rfl⟩, rfl⟩

/-- Claim C16: ParseInfo and ParseAnnounceMessage never slice or index out of range, on any
input; ParseAnnounceMessage rejects every input shorter than 64 bytes and ParseInfo every
input shorter than 34 bytes or than 33 plus the address length declared in byte 32; an
Announce packet that declares fewer than 98 payload bytes (64 for the message, 34 for the
Info), and any Announce packet from an unknown header identifier whose declared payload the
parser rejects, makes handlePacket return an error and leaves both maps as they were. -/
theorem parsers_total_and_reject_short (L : Lib) (c : Client) (o : Oracle) (st : state)
    (data short info : List Byte) (p q : readPacket) (e : GoError)
    (hshort : short.length < 64)
    (hinfo : info.length < 34 ∨ info.length < 33 + (info.getD 32 0).val)
    (hpc : p.code = CodeAnnounce) (hps : p.size < 98)
    (hqs : st.sessions.find q.sessionID = none) (hqc : q.code = CodeAnnounce)
    (hqz : q.size ≤ 897)
    (hqe : ParseAnnounceMessage L (q.message.Payload.take q.size) = .error e) :
    ParseInfoChecked L data = some (ParseInfo L data) ∧
    ParseAnnounceMessageChecked L data = some (ParseAnnounceMessage L data) ∧
    ParseAnnounceMessage L short = .error (.new "message too short") ∧
    ParseInfo L info = .error (.new "invalid info: data too short") ∧
    ((∃ err, (c.handlePacket L o st p).ret = .returned (some err)) ∧
      (c.handlePacket L o st p).state.sessions = st.sessions ∧
      (c.handlePacket L o st p).state.pending = st.pending) ∧
    ((c.handlePacket L o st q).ret = .returned (some e) ∧
      (c.handlePacket L o st q).state.sessions = st.sessions ∧
      (c.handlePacket L o st q).state.pending = st.pending) := by
  obtain ⟨h1, h2⟩ := handlePacket_short_announce L c o st p hpc hps
  refine ⟨ParseInfoChecked_eq L data, ParseAnnounceMessageChecked_eq L data, ?_,
    ParseInfo_short L info hinfo, ⟨h1, by rw [h2], by rw [h2]⟩, ?_⟩
  · simp only [ParseAnnounceMessage, hshort, if_true]
  · rw [Client.handlePacket_unknown L c o st q hqs (Or.inl hqc),
      Client.handlePacketBody_announce_parse_error L c o st q.address q.message q.sessionID
        q.sig e hqc hqz hqe]
    exact ⟨rfl, rfl, rfl⟩

/-- Claim C16, run on concrete inputs. -/
theorem parsers_total_and_reject_short_witness :
    ParseInfoChecked toyLib (toyInfoA.Bytes toyLib) =
      some (ParseInfo toyLib (toyInfoA.Bytes toyLib)) ∧
    ParseAnnounceMessageChecked toyLib (toyInfoA.Bytes toyLib) =
      some (ParseAnnounceMessage toyLib (toyInfoA.Bytes toyLib)) ∧
    ParseAnnounceMessage toyLib [1, 2, 3] = .error (.new "message too short") ∧
    ParseInfo toyLib (List.replicate 40 9) = .error (.new "invalid info: data too short") ∧
    ((∃ err, (toyClientB.handlePacket toyLib toyOracleB toyStateB emptyAnnouncePacket).ret =
        .returned (some err)) ∧
      (toyClientB.handlePacket toyLib toyOracleB toyStateB emptyAnnouncePacket).state.sessions =
        toyStateB.sessions ∧
      (toyClientB.handlePacket toyLib toyOracleB toyStateB emptyAnnouncePacket).state.pending =
        toyStateB.pending) ∧
    ((toyClientB.handlePacket toyLib toyOracleB toyStateB emptyAnnouncePacket).ret =
        .returned (some (.new "message too short")) ∧
      (toyClientB.handlePacket toyLib toyOracleB toyStateB emptyAnnouncePacket).state.sessions =
        toyStateB.sessions ∧
      (toyClientB.handlePacket toyLib toyOracleB toyStateB emptyAnnouncePacket).state.pending =
        toyStateB.pending) :=
  parsers_total_and_reject_short toyLib toyClientB toyOracleB toyStateB (toyInfoA.Bytes toyLib)
    [1, 2, 3] (List.replicate 40 9) emptyAnnouncePacket emptyAnnouncePacket
    (.new "message too short") (by decide) (by decide) (by decide) (by decide) (by decide)
    (by decide) (by decide) rfl

/-! ## Claim C17: the answer to a NotAnnounced packet -/

/-- Claim C17 as stated fails: an endpoint whose name has 850 bytes answers a NotAnnounced
packet with a packet that declares 950 payload bytes; its declared payload is not the
serialized Announce (it cannot be sliced out of the 897-byte payload region). -/
theorem notAnnounced_counterexample :
    notAnnouncedPacket.code = CodeNotAnnounced ∧
    notAnnouncedPacket.size ≤ 897 ∧
    emptyState.sessions.find notAnnouncedPacket.sessionID = none ∧
    (toyClientLongB.handlePacket toyLib toyOracleB emptyState notAnnouncedPacket).sent.length
      = 1 ∧
    (toyClientLongB.handlePacket toyLib toyOracleB emptyState
      notAnnouncedPacket).firstSent.declared = none ∧
    (toyClientLongB.handlePacket toyLib toyOracleB emptyState
      notAnnouncedPacket).firstSent.declared ≠
      some ((longNameAnnounce (Bytes.fill 32 6)).Bytes toyLib) := by
  decide

/-- Claim C17, amended: a NotAnnounced packet whose header identifier matches no session
(declared size within bounds, key generation succeeding), received by an endpoint whose own
Announce has at most 897 bytes when serialized, is handled exactly like a connect request
toward the sender: one pending entry is stored under a newly generated identifier with a
newly generated key pair, every other pending entry and the session map stay as they were,
and exactly one packet goes to the sender, an unencrypted Announce with zero header session
id whose declared payload is the serialization of that identifier, that ephemeral public key
and the Info of this endpoint. -/
theorem handlePacket_notAnnounced (L : Lib) (c : Client) (o : Oracle) (st : state)
    (p : readPacket) (pub priv : Bytes 32)
    (hs : st.sessions.find p.sessionID = none)
    (hc : p.code = CodeNotAnnounced)
    (hsize : p.size ≤ 897)
    (hg : o.genKey = .ok (pub, priv))
    (hfit : 97 + (L.addrString c.addr).length + c.name.length ≤ 897) :
    c.handlePacket L o st p =
      c.runSend L o st { toID := [], addr := some p.address, msg := [] } ∧
    (c.handlePacket L o st p).state.pending.find o.sessionID =
      some { Hash := o.sessionID, Priv := priv, Pub := pub, Client := none } ∧
    (∀ k, k ≠ o.sessionID →
      (c.handlePacket L o st p).state.pending.find k = st.pending.find k) ∧
    (c.handlePacket L o st p).state.sessions = st.sessions ∧
    ∃ b : block, (c.handlePacket L o st p).sent = [(p.address, b)] ∧
      b.Header.Code = [Fin.ofNat CodeAnnounce] ∧
      b.Header.ID = List.replicate 32 0 ∧
      b.Header.Nonce = List.replicate 24 0 ∧
      b.declared = some (AnnounceMessage.Bytes L
        { PublicKey := pub, SessionID := o.sessionID, Client := c.info }) := by
  rw [Client.handlePacket_unknown L c o st p hs (Or.inr hc),
    Client.handlePacketBody_notAnnounced L c o st p.address p.message p.sessionID p.sig
      pub priv hc hsize hg,
    runSend_addr L c o st [] [] p.address pub priv hg]
  obtain ⟨h1, h2, h3, h4, _, _⟩ := Client.sendMessage_plain L c o p.address CodeAnnounce _
    (Client.info_Bytes_fit L c pub o.sessionID hfit)
  exact ⟨rfl, Map.find_set_self _ _ _, fun k hk => Map.find_set_ne _ _ k _ hk, rfl,
    _, rfl, h2, h1, h3, h4⟩

/-- Claim C17 (amended), run on B receiving a NotAnnounced packet. -/
theorem handlePacket_notAnnounced_witness :
    toyClientB.handlePacket toyLib toyOracleB emptyState notAnnouncedPacket =
      toyClientB.runSend toyLib toyOracleB emptyState
        { toID := [], addr := some notAnnouncedPacket.address, msg := [] } ∧
    (toyClientB.handlePacket toyLib toyOracleB emptyState notAnnouncedPacket).state.pending.find
      toyOracleB.sessionID =
      some { Hash := toyOracleB.sessionID, Priv := Bytes.fill 32 4, Pub := Bytes.fill 32 4,
             Client := none } ∧
    (∀ k, k ≠ toyOracleB.sessionID →
      (toyClientB.handlePacket toyLib toyOracleB emptyState notAnnouncedPacket).state.pending.find
        k = emptyState.pending.find k) ∧
    (toyClientB.handlePacket toyLib toyOracleB emptyState notAnnouncedPacket).state.sessions =
      emptyState.sessions ∧
    ∃ b : block,
      (toyClientB.handlePacket toyLib toyOracleB emptyState notAnnouncedPacket).sent =
        [(notAnnouncedPacket.address, b)] ∧
      b.Header.Code = [Fin.ofNat CodeAnnounce] ∧
      b.Header.ID = List.replicate 32 0 ∧
      b.Header.Nonce = List.replicate 24 0 ∧
      b.declared = some (AnnounceMessage.Bytes toyLib
        { PublicKey := Bytes.fill 32 4, SessionID := toyOracleB.sessionID,
          Client := toyClientB.info }) :=
  handlePacket_notAnnounced toyLib toyClientB toyOracleB emptyState notAnnouncedPacket
    (Bytes.fill 32 4) (Bytes.fill 32 4) (by decide) (by decide) (by decide) rfl (by decide)

/-! ## Claim C18: SortHash256 -/

theorem swapAt_perm (a : List Hash256) (i j : Nat) (hi : i < a.length) (hj : j < a.length) :
    ((a.set i a[j]).set j a[i]).Perm a := by
  rw [List.perm_iff_count]
  intro b
  have hj' : j < (a.set i a[j]).length := by rw [List.length_set]; exact hj
  rw [List.count_set _ _ _ _ hj', List.count_set _ _ _ _ hi]
  have hget : (a.set i a[j])[j] = a[j] := by
    by_cases h : i = j
    · subst h; simp
    · simp [List.getElem_set_ne h]
  rw [hget]
  have hle : (if (a[i] == b) = true then 1 else 0) ≤ a.count b := by
    have := List.boole_getElem_le_countP (fun x => x == b) a i hi
    simpa [List.count_eq_countP] using this
  omega

theorem swapAt_spec (a : List Hash256) (i j : Nat) (hi : i < a.length) (hj : j < a.length) :
    ∃ a', swapAt a i j = some a' ∧ a'.Perm a ∧ a'[i]? = a[j]? ∧ a'[j]? = a[i]? ∧
      ∀ k, k ≠ i → k ≠ j → a'[k]? = a[k]? := by
  refine ⟨(a.set i a[j]).set j a[i], ?_, swapAt_perm a i j hi hj, ?_, ?_, ?_⟩
  · simp only [swapAt, List.getElem?_eq_getElem hi, List.getElem?_eq_getElem hj]
  · by_cases h : j = i
    · subst h
      simp [List.getElem?_set, hi]
    · rw [List.getElem?_set_ne h]
      simp [List.getElem?_set, hi, hj]
  · simp [List.getElem?_set, hi, hj]
  · intro k hk1 hk2
    rw [List.getElem?_set_ne (Ne.symm hk2), List.getElem?_set_ne (Ne.symm hk1)]

theorem SortHash256.loopBody_inv (a0 : List Hash256) (r : Nat) (p : Hash256)
    (s : List Hash256 × Nat) (i : Nat) (hr : r + 1 = a0.length) (hi : i < a0.length)
    (h : SortHash256.LoopInv a0 r p s i) :
    ∃ s', SortHash256.loopBody r s i = some s' ∧ SortHash256.LoopInv a0 r p s' (i + 1) := by
  obtain ⟨a, l⟩ := s
  obtain ⟨hperm, hp, hl, h1, h2⟩ := h
  simp only at hperm hp hl h1 h2
  have hlen : a.length = a0.length := hperm.length_eq
  have hia : i < a.length := by omega
  simp only [SortHash256.loopBody, List.getElem?_eq_getElem hia, hp]
  by_cases hlt : (a[i]).ToBigInt < p.ToBigInt
  · rw [if_pos hlt]
    obtain ⟨a', hs, hperm', hgi, hgl, hother⟩ := swapAt_spec a i l hia (by omega)
    refine ⟨(a', l + 1), by rw [hs]; rfl, hperm'.trans hperm, ?_, by simp only; omega, ?_, ?_⟩
    · have hir : i ≠ r := by
        intro e
        subst e
        rw [List.getElem?_eq_getElem hia] at hp
        cases hp
        exact lt_irrefl _ hlt
      show a'[r]? = some p
      rw [hother r (by omega) (by omega)]
      exact hp
    · intro j x hj hx
      simp only at hj hx
      by_cases e : j = l
      · subst e
        rw [hgl, List.getElem?_eq_getElem hia] at hx
        cases hx
        exact hlt
      · rw [hother j (by omega) e] at hx
        exact h1 j x (by omega) hx
    · intro j x hj1 hj2 hx
      simp only at hj1 hj2 hx
      by_cases e : j = i
      · subst e
        rw [hgi] at hx
        exact h2 l x (le_refl _) (by omega) hx
      · rw [hother j e (by omega)] at hx
        exact h2 j x (by omega) (by omega) hx
  · rw [if_neg hlt]
    refine ⟨(a, l), rfl, hperm, hp, by simp only; omega, h1, ?_⟩
    intro j x hj1 hj2 hx
    simp only at hj1 hj2 hx
    by_cases e : j = i
    · subst e
      rw [List.getElem?_eq_getElem hia] at hx
      cases hx
      exact not_lt.mp hlt
    · exact h2 j x hj1 (by omega) hx

theorem SortHash256.loop_inv (a0 : List Hash256) (r : Nat) (p : Hash256)
    (hr : r + 1 = a0.length) (n : Nat) :
    ∀ (i : Nat) (s : List Hash256 × Nat), i + n = a0.length →
      SortHash256.LoopInv a0 r p s i →
      ∃ s', SortHash256.loop r n i s = some s' ∧ SortHash256.LoopInv a0 r p s' a0.length := by
  induction n with
  | zero =>
    intro i s hi h
    have e : i = a0.length := by omega
    subst e
    exact ⟨s, rfl, h⟩
  | succ n ih =>
    intro i s hi h
    obtain ⟨s1, hs1, h1⟩ := SortHash256.loopBody_inv a0 r p s i hr (by omega) h
    obtain ⟨s2, hs2, h2⟩ := ih (i + 1) s1 (by omega) h1
    exact ⟨s2, by simp only [SortHash256.loop, hs1, Option.some_bind, hs2], h2⟩

theorem SortHash256.partition_spec (a : List Hash256) (piv : Nat) (hlen : 2 ≤ a.length)
    (hpiv : piv < a.length) :
    ∃ a1 s a3 p, swapAt a piv (a.length - 1) = some a1 ∧
      SortHash256.loop (a.length - 1) a1.length 0 (a1, 0) = some s ∧
      swapAt s.1 s.2 (a.length - 1) = some a3 ∧
      a3.Perm a ∧ s.2 < a.length ∧ a3[s.2]? = some p ∧
      (∀ j x, j < s.2 → a3[j]? = some x → x.ToBigInt < p.ToBigInt) ∧
      (∀ j x, s.2 < j → a3[j]? = some x → p.ToBigInt ≤ x.ToBigInt) := by
  have hr : a.length - 1 < a.length := by omega
  obtain ⟨a1, hs1, hperm1, _, hgr, _⟩ := swapAt_spec a piv (a.length - 1) hpiv hr
  have hlen1 : a1.length = a.length := hperm1.length_eq
  have hr1 : a.length - 1 < a1.length := by omega
  have hinv0 : SortHash256.LoopInv a1 (a.length - 1) (a1[a.length - 1]) (a1, 0) 0 :=
    ⟨List.Perm.refl _, List.getElem?_eq_getElem hr1, le_refl _,
      fun j x hj _ => absurd hj (Nat.not_lt_zero j),
      fun j x _ hj _ => absurd hj (Nat.not_lt_zero j)⟩
  obtain ⟨s, hs, hperm2, hp, _, h1, h2⟩ :=
    SortHash256.loop_inv a1 (a.length - 1) (a1[a.length - 1]) (by omega) a1.length 0 (a1, 0)
      (by omega) hinv0
  obtain ⟨a2, l⟩ := s
  simp only at hperm2 hp h1 h2
  have hlen2 : a2.length = a1.length := hperm2.length_eq
  have hl : l ≤ a.length - 1 := by
    by_contra hc
    exact lt_irrefl _ (h1 (a.length - 1) _ (by omega) hp)
  obtain ⟨a3, hs3, hperm3, hgl, hgr3, hother⟩ :=
    swapAt_spec a2 l (a.length - 1) (by omega) (by omega)
  refine ⟨a1, (a2, l), a3, a1[a.length - 1], hs1, hs, hs3,
    (hperm3.trans hperm2).trans hperm1, by simp only; omega, ?_, ?_, ?_⟩
  · show a3[l]? = _
    rw [hgl]; exact hp
  · intro j x hj hx
    simp only at hj hx
    rw [hother j (by omega) (by omega)] at hx
    exact h1 j x hj hx
  · intro j x hj hx
    simp only at hj hx
    have hj3 : j < a3.length := by
      by_contra hc
      rw [List.getElem?_eq_none (by omega)] at hx
      cases hx
    have hlen3 : a3.length = a2.length := hperm3.length_eq
    by_cases e : j = a.length - 1
    · subst e
      rw [hgr3] at hx
      exact h2 l x (le_refl _) (by omega) hx
    · rw [hother j (by omega) e] at hx
      exact h2 j x (by omega) (by omega) hx

theorem SortHash256Fuel_spec (fuel : Nat) :
    ∀ (rnd : Nat → Nat) (k : Nat) (a : List Hash256), a.length < fuel →
      ∃ out k', SortHash256Fuel fuel rnd k a = some (out, k') ∧ out.Perm a ∧
        out.Pairwise (fun x y => x.ToBigInt ≤ y.ToBigInt) := by
  induction fuel with
  | zero => intro rnd k a h; exact absurd h (Nat.not_lt_zero _)
  | succ fuel ih =>
    intro rnd k a hfuel
    by_cases hlen : a.length < 2
    · refine ⟨a, k, by simp only [SortHash256Fuel, hlen, if_true], List.Perm.refl _, ?_⟩
      match a, hlen with
      | [], _ => exact List.Pairwise.nil
      | [x], _ => exact List.pairwise_singleton _ _
    · have hpiv : rnd k % a.length < a.length := Nat.mod_lt _ (by omega)
      obtain ⟨a1, s, a3, p, hs1, hs2, hs3, hperm, hl, hp, h1, h2⟩ :=
        SortHash256.partition_spec a (rnd k % a.length) (by omega) hpiv
      have hlen1 : a1.length = a.length := by
        obtain ⟨b, hb, hbp, _⟩ :=
          swapAt_spec a (rnd k % a.length) (a.length - 1) hpiv (by omega)
        rw [hs1] at hb
        cases hb
        exact hbp.length_eq
      have hlen3 : a3.length = a.length := hperm.length_eq
      obtain ⟨left, k1, hleft, hlp, hls⟩ := ih rnd (k + 1) (a3.take s.2)
        (by rw [List.length_take]; omega)
      obtain ⟨right, k2, hright, hrp, hrs⟩ := ih rnd k1 (a3.drop (s.2 + 1))
        (by rw [List.length_drop]; omega)
      have hl3 : s.2 < a3.length := by omega
      have hpe : a3[s.2] = p := by
        rw [List.getElem?_eq_getElem hl3] at hp
        exact Option.some.inj hp
      have hmid : (a3.drop s.2).take 1 = [p] := by
        rw [List.drop_eq_getElem_cons hl3, hpe]
        rfl
      refine ⟨left ++ [p] ++ right, k2, ?_, ?_, ?_⟩
      · simp only [SortHash256Fuel, hlen, if_false, hs1, Option.some_bind, hs2, hs3, hleft,
          hright, hmid]
      · have hsplit : a3 = a3.take s.2 ++ [p] ++ a3.drop (s.2 + 1) := by
          conv => lhs; rw [← List.take_append_drop s.2 a3, List.drop_eq_getElem_cons hl3, hpe]
          simp only [List.append_assoc, List.singleton_append]
        refine List.Perm.trans ?_ hperm
        conv => rhs; rw [hsplit]
        exact (hlp.append_right [p]).append hrp
      · have hleft_lt : ∀ x ∈ left, x.ToBigInt < p.ToBigInt := by
          intro x hx
          have hx' := (hlp.mem_iff).mp hx
          obtain ⟨j, hj⟩ := List.mem_iff_getElem?.mp hx'
          rw [List.getElem?_take] at hj
          by_cases hjl : j < s.2
          · rw [if_pos hjl] at hj
            exact h1 j x hjl hj
          · rw [if_neg hjl] at hj
            cases hj
        have hright_ge : ∀ y ∈ right, p.ToBigInt ≤ y.ToBigInt := by
          intro y hy
          have hy' := (hrp.mem_iff).mp hy
          obtain ⟨j, hj⟩ := List.mem_iff_getElem?.mp hy'
          rw [List.getElem?_drop] at hj
          exact h2 (s.2 + 1 + j) y (by omega) hj
        rw [List.append_assoc, List.pairwise_append]
        refine ⟨hls, ?_, ?_⟩
        · rw [List.singleton_append, List.pairwise_cons]
          exact ⟨hright_ge, hrs⟩
        · intro x hx y hy
          rw [List.singleton_append, List.mem_cons] at hy
          rcases hy with rfl | hy
          · exact le_of_lt (hleft_lt x hx)
          · exact le_trans (le_of_lt (hleft_lt x hx)) (hright_ge y hy)

/-- A run of `SortHash256` on five hashes. -/
theorem SortHash256_run :
    SortHash256 (fun k => 7 * k + 3) [smallHash 3, smallHash 1, hashTop, smallHash 2,
      smallHash 1] =
      some [smallHash 1, smallHash 1, smallHash 2, smallHash 3, hashTop] := by
  decide

/-- Claim C18: for every slice of hashes and every sequence of random values, SortHash256
returns (no index goes out of range and the recursion is no deeper than the slice is long),
and the slice it returns is a permutation of the input in non-decreasing order of the hashes
read as big-endian unsigned integers. -/
theorem SortHash256_sorts (rnd : Nat → Nat) (a : List Hash256) :
    ∃ out, SortHash256 rnd a = some out ∧ out.Perm a ∧
      out.Pairwise (fun x y => x.ToBigInt ≤ y.ToBigInt) := by
  obtain ⟨out, k, h, hp, hs⟩ := SortHash256Fuel_spec (a.length + 1) rnd 0 a (by omega)
  exact ⟨out, by simp only [SortHash256, h, Option.map_some'], hp, hs⟩

/-! ## Claim C19: SetBigInt and ToBigInt -/

/-- Claim C19 (the code fails it): SetBigInt copies the bytes of the integer to the front of
the 32-byte buffer instead of its end, so the integer 1 becomes the hash `01 00 .. 00`, whose
value is 2 ^ 248 and not 1, and the hash `00 .. 00 01`, whose value is 1, does not come back
from its own value. -/
theorem SetBigInt_ToBigInt_not_inverse :
    Hash256.SetBigInt (Bytes.zero 32) 1 = hashTop ∧
    Hash256.ToBigInt (Hash256.SetBigInt (Bytes.zero 32) 1) = 2 ^ 248 ∧
    Hash256.ToBigInt (Hash256.SetBigInt (Bytes.zero 32) 1) ≠ 1 ∧
    Hash256.ToBigInt hashOne = 1 ∧
    Hash256.SetBigInt (Bytes.zero 32) (Hash256.ToBigInt hashOne) ≠ hashOne := by
  have h1 : Hash256.SetBigInt (Bytes.zero 32) 1 = hashTop := by decide
  have h2 : Hash256.ToBigInt hashOne = 1 := by decide
  rw [h1, h2, h1]
  exact ⟨rfl, by decide, by decide, rfl, by decide⟩

/-! ## Claim C21: PrefixLen -/

theorem PrefixLen.test_eq (x : Byte) (n : Nat) :
    ((x.val >>> n) &&& 1 ≠ 0) ↔ x.val.testBit n = true := by
  simp only [Nat.testBit, Nat.and_comm 1, bne_iff_ne, ne_eq]

theorem Hash256.Xor_getD (h other : Hash256) (i : Nat) :
    (h.Xor other).val.getD i 0 = h.val.getD i 0 ^^^ other.val.getD i 0 := by
  have hh := h.property
  have ho := other.property
  by_cases hi : i < 32
  · simp [Hash256.Xor, List.getD_eq_getElem?_getD, List.getElem?_map, List.getElem?_range hi]
  · have e1 : (h.Xor other).val.getD i 0 = 0 :=
      List.getD_eq_default _ _ (by rw [(h.Xor other).property]; omega)
    have e2 : h.val.getD i 0 = 0 := List.getD_eq_default _ _ (by omega)
    have e3 : other.val.getD i 0 = 0 := List.getD_eq_default _ _ (by omega)
    rw [e1, e2, e3]
    rfl

theorem Hash256.Xor_bit (h other : Hash256) (k : Nat) :
    (h.Xor other).bit k = (h.bit k != other.bit k) := by
  simp only [Hash256.bit, Hash256.Xor_getD, Byte.xor_val, Nat.testBit_xor]

theorem firstSetFrom_add (d : Hash256) (a b : Nat) :
    ∀ k, firstSetFrom d (a + b) k =
      match firstSetFrom d a k with
      | some r => some r
      | none => firstSetFrom d b (k + a) := by
  induction a with
  | zero => intro k; simp [firstSetFrom]
  | succ a ih =>
    intro k
    have e : a + 1 + b = (a + b) + 1 := by omega
    rw [e]
    simp only [firstSetFrom]
    by_cases hb : d.bit k = true
    · simp only [hb, if_true]
    · simp only [hb, if_false, Bool.false_eq_true]
      rw [ih (k + 1)]
      have e2 : k + 1 + a = k + (a + 1) := by omega
      rw [e2]

theorem PrefixLen.inner_eq (d : Hash256) (i : Nat) :
    ∀ n j, j + n ≤ 8 →
      PrefixLen.inner (d.val.getD i 0) i n j =
        (firstSetFrom d n (8 * i + j)).map (fun r => ((r : Nat) : Int)) := by
  intro n
  induction n with
  | zero => intro j _; rfl
  | succ n ih =>
    intro j hj
    have hdiv : (8 * i + j) / 8 = i := by omega
    have hmod : (8 * i + j) % 8 = j := by omega
    have hbit : d.bit (8 * i + j) = (d.val.getD i 0).val.testBit (7 - j) := by
      simp only [Hash256.bit, hdiv, hmod]
    simp only [PrefixLen.inner, firstSetFrom, hbit]
    by_cases ht : (d.val.getD i 0).val.testBit (7 - j) = true
    · rw [if_pos ((PrefixLen.test_eq _ _).mpr ht), if_pos ht]
      rfl
    · rw [if_neg (fun hh => ht ((PrefixLen.test_eq _ _).mp hh)), if_neg ht]
      exact ih (j + 1) (by omega)

theorem PrefixLen.outer_eq (d : Hash256) :
    ∀ n i, PrefixLen.outer d n i =
      (firstSetFrom d (8 * n) (8 * i)).map (fun r => ((r : Nat) : Int)) := by
  intro n
  induction n with
  | zero => intro i; rfl
  | succ n ih =>
    intro i
    have e : 8 * (n + 1) = 8 + 8 * n := by omega
    rw [e, firstSetFrom_add]
    have hin := PrefixLen.inner_eq d i 8 0 (by omega)
    rw [Nat.add_zero] at hin
    simp only [PrefixLen.outer, hin]
    cases hf : firstSetFrom d 8 (8 * i) with
    | some r => rfl
    | none =>
      simp only [Option.map_none']
      rw [ih (i + 1)]
      have e2 : 8 * (i + 1) = 8 * i + 8 := by omega
      rw [e2]

theorem PrefixLen_eq_firstSetBit (h other : Hash256) :
    h.PrefixLen other =
      match firstSetBit (h.Xor other) with
      | some r => ((r : Nat) : Int)
      | none => -1 := by
  have := PrefixLen.outer_eq (h.Xor other) 32 0
  simp only [Hash256.PrefixLen, this, firstSetBit]
  cases firstSetFrom (h.Xor other) 256 0 <;> rfl

theorem firstSetFrom_ge (d : Hash256) :
    ∀ n k r, firstSetFrom d n k = some r → k ≤ r := by
  intro n
  induction n with
  | zero => intro k r hf; cases hf
  | succ n ih =>
    intro k r hf
    simp only [firstSetFrom] at hf
    by_cases hb : d.bit k = true
    · rw [if_pos hb] at hf
      cases hf
      exact le_refl _
    · rw [if_neg hb] at hf
      have := ih (k + 1) r hf
      omega

theorem agreeFrom_eq (h other : Hash256) :
    ∀ n k, agreeFrom h other n k =
      match firstSetFrom (h.Xor other) n k with
      | some r => r - k
      | none => n := by
  intro n
  induction n with
  | zero => intro k; rfl
  | succ n ih =>
    intro k
    simp only [agreeFrom, firstSetFrom, Hash256.Xor_bit]
    by_cases hb : h.bit k = other.bit k
    · have hx : (h.bit k != other.bit k) = false := by rw [hb]; exact bne_self_eq_false _
      rw [if_pos hb, hx, ih (k + 1)]
      simp only [Bool.false_eq_true, if_false]
      cases hf : firstSetFrom (h.Xor other) n (k + 1) with
      | none => rfl
      | some r =>
        have hr := firstSetFrom_ge (h.Xor other) n (k + 1) r hf
        show r - (k + 1) + 1 = r - k
        omega
    · have hx : (h.bit k != other.bit k) = true := bne_iff_ne.mpr hb
      rw [if_neg hb, hx]
      simp only [if_true, Nat.sub_self]

theorem firstSetFrom_none (d : Hash256) :
    ∀ n k, firstSetFrom d n k = none → ∀ m, k ≤ m → m < k + n → d.bit m = false := by
  intro n
  induction n with
  | zero => intro k _ m h1 h2; omega
  | succ n ih =>
    intro k hf m h1 h2
    simp only [firstSetFrom] at hf
    by_cases hb : d.bit k = true
    · rw [if_pos hb] at hf; cases hf
    · rw [if_neg hb] at hf
      by_cases e : m = k
      · subst e; exact Bool.eq_false_iff.mpr hb
      · exact ih (k + 1) hf m (by omega) (by omega)

theorem firstSetFrom_lt (d : Hash256) :
    ∀ n k r, firstSetFrom d n k = some r → r < k + n := by
  intro n
  induction n with
  | zero => intro k r hf; cases hf
  | succ n ih =>
    intro k r hf
    simp only [firstSetFrom] at hf
    by_cases hb : d.bit k = true
    · rw [if_pos hb] at hf
      cases hf
      omega
    · rw [if_neg hb] at hf
      have := ih (k + 1) r hf
      omega

theorem Byte.eq_of_testBit (x y : Byte)
    (hxy : ∀ j, j < 8 → x.val.testBit (7 - j) = y.val.testBit (7 - j)) : x = y := by
  apply Fin.ext
  apply Nat.eq_of_testBit_eq
  intro i
  by_cases hi : i < 8
  · have := hxy (7 - i) (by omega)
    have e : 7 - (7 - i) = i := by omega
    rw [e] at this
    exact this
  · have hx : x.val < 2 ^ i := lt_of_lt_of_le x.isLt
      (by have : (256 : Nat) = 2 ^ 8 := rfl
          rw [this]; exact Nat.pow_le_pow_right (by omega) (by omega))
    have hy : y.val < 2 ^ i := lt_of_lt_of_le y.isLt
      (by have : (256 : Nat) = 2 ^ 8 := rfl
          rw [this]; exact Nat.pow_le_pow_right (by omega) (by omega))
    rw [Nat.testBit_lt_two_pow hx, Nat.testBit_lt_two_pow hy]

theorem Hash256.eq_of_bits (h other : Hash256)
    (hb : ∀ m, m < 256 → h.bit m = other.bit m) : h = other := by
  apply Subtype.ext
  apply List.ext_getElem (by rw [h.property, other.property])
  intro i h1 h2
  have hi : i < 32 := by rw [h.property] at h1; exact h1
  have e1 : h.val.getD i 0 = h.val[i] := by
    rw [List.getD_eq_getElem?_getD, List.getElem?_eq_getElem h1, Option.getD_some]
  have e2 : other.val.getD i 0 = other.val[i] := by
    rw [List.getD_eq_getElem?_getD, List.getElem?_eq_getElem h2, Option.getD_some]
  rw [← e1, ← e2]
  apply Byte.eq_of_testBit
  intro j hj
  have := hb (8 * i + j) (by omega)
  have hdiv : (8 * i + j) / 8 = i := by omega
  have hmod : (8 * i + j) % 8 = j := by omega
  simp only [Hash256.bit, hdiv, hmod] at this
  exact this

theorem firstSetBit_Xor_ne (h other : Hash256) (hne : h ≠ other) :
    ∃ r, firstSetBit (h.Xor other) = some r ∧ r < 256 := by
  cases hf : firstSetBit (h.Xor other) with
  | some r =>
    have := firstSetFrom_lt (h.Xor other) 256 0 r hf
    exact ⟨r, rfl, by omega⟩
  | none =>
    exfalso
    apply hne
    apply Hash256.eq_of_bits
    intro m hm
    have := firstSetFrom_none (h.Xor other) 256 0 hf m (by omega) (by omega)
    rw [Hash256.Xor_bit] at this
    exact (bne_eq_false_iff_eq.mp this)

theorem firstSetBit_Xor_self (h : Hash256) : firstSetBit (h.Xor h) = none := by
  have hz : ∀ n k, firstSetFrom (h.Xor h) n k = none := by
    intro n
    induction n with
    | zero => intro k; rfl
    | succ n ih =>
      intro k
      simp only [firstSetFrom, Hash256.Xor_bit, bne_self_eq_false, Bool.false_eq_true,
        if_false]
      exact ih (k + 1)
  exact hz 256 0

theorem firstSetFrom_some (d : Hash256) :
    ∀ n k r, firstSetFrom d n k = some r →
      d.bit r = true ∧ ∀ m, k ≤ m → m < r → d.bit m = false := by
  intro n
  induction n with
  | zero => intro k r hf; cases hf
  | succ n ih =>
    intro k r hf
    simp only [firstSetFrom] at hf
    by_cases hb : d.bit k = true
    · rw [if_pos hb] at hf
      cases hf
      exact ⟨hb, fun m h1 h2 => absurd h2 (by omega)⟩
    · rw [if_neg hb] at hf
      obtain ⟨h1, h2⟩ := ih (k + 1) r hf
      refine ⟨h1, fun m hm1 hm2 => ?_⟩
      by_cases e : m = k
      · subst e; exact Bool.eq_false_iff.mpr hb
      · exact h2 m (by omega) hm2

theorem commonPrefixBits_eq (h other : Hash256) :
    commonPrefixBits h other =
      match firstSetBit (h.Xor other) with
      | some r => r
      | none => 256 := by
  have := agreeFrom_eq h other 256 0
  simp only [commonPrefixBits, firstSetBit, this]
  cases firstSetFrom (h.Xor other) 256 0 <;> rfl

/-- Claim C21 as stated fails: two equal hashes agree on all 256 bits and their XOR has no
set bit, yet PrefixLen returns -1. -/
theorem PrefixLen_counterexample :
    Hash256.PrefixLen (Bytes.zero 32) (Bytes.zero 32) = -1 ∧
    commonPrefixBits (Bytes.zero 32) (Bytes.zero 32) = 256 ∧
    firstSetBit (Hash256.Xor (Bytes.zero 32) (Bytes.zero 32)) = none ∧
    Hash256.PrefixLen (Bytes.zero 32) (Bytes.zero 32) ≠
      ((commonPrefixBits (Bytes.zero 32) (Bytes.zero 32) : Nat) : Int) := by
  have h1 : Hash256.PrefixLen (Bytes.zero 32) (Bytes.zero 32) = -1 := by decide
  have h2 : commonPrefixBits (Bytes.zero 32) (Bytes.zero 32) = 256 := by decide
  refine ⟨h1, h2, by decide, ?_⟩
  rw [h1, h2]
  decide

/-- Claim C21, amended: for every pair of distinct hashes PrefixLen returns the number of
leading bits (most significant bit of byte 0 first) on which they agree, which is the index of
the first set bit of their XOR and is below 256: the hashes agree on every bit before it and
differ on that bit; for two equal hashes PrefixLen returns -1. -/
theorem PrefixLen_common_prefix (h other : Hash256) (hne : h ≠ other) :
    h.PrefixLen other = ((commonPrefixBits h other : Nat) : Int) ∧
    firstSetBit (h.Xor other) = some (commonPrefixBits h other) ∧
    commonPrefixBits h other < 256 ∧
    (∀ m, m < commonPrefixBits h other → h.bit m = other.bit m) ∧
    h.bit (commonPrefixBits h other) ≠ other.bit (commonPrefixBits h other) ∧
    h.PrefixLen h = -1 := by
  obtain ⟨r, hr, hlt⟩ := firstSetBit_Xor_ne h other hne
  have hc : commonPrefixBits h other = r := by rw [commonPrefixBits_eq, hr]
  obtain ⟨hset, hclear⟩ := firstSetFrom_some (h.Xor other) 256 0 r hr
  refine ⟨?_, by rw [hc, hr], by rw [hc]; exact hlt, ?_, ?_, ?_⟩
  · rw [PrefixLen_eq_firstSetBit, hr, hc]
  · intro m hm
    have := hclear m (Nat.zero_le _) (by rw [hc] at hm; exact hm)
    rw [Hash256.Xor_bit] at this
    exact bne_eq_false_iff_eq.mp this
  · rw [hc]
    rw [Hash256.Xor_bit] at hset
    exact bne_iff_ne.mp hset
  · rw [PrefixLen_eq_firstSetBit, firstSetBit_Xor_self]

/-- Claim C21 (amended), run on the hashes `01 00 .. 00` and `00 .. 00 01`. -/
theorem PrefixLen_common_prefix_witness :
    Hash256.PrefixLen hashTop hashOne = ((commonPrefixBits hashTop hashOne : Nat) : Int) ∧
    firstSetBit (Hash256.Xor hashTop hashOne) = some (commonPrefixBits hashTop hashOne) ∧
    commonPrefixBits hashTop hashOne < 256 ∧
    (∀ m, m < commonPrefixBits hashTop hashOne →
      Hash256.bit hashTop m = Hash256.bit hashOne m) ∧
    Hash256.bit hashTop (commonPrefixBits hashTop hashOne) ≠
      Hash256.bit hashOne (commonPrefixBits hashTop hashOne) ∧
    Hash256.PrefixLen hashTop hashTop = -1 :=
  PrefixLen_common_prefix hashTop hashOne (by decide)

/-- A run of `PrefixLen`: the hashes `01 00 .. 00` and `00 .. 00 01` agree on 7 bits. -/
theorem PrefixLen_run :
    Hash256.PrefixLen hashTop hashOne = 7 ∧ commonPrefixBits hashTop hashOne = 7 := by
  decide

/-! ## client.go: shutdown, the invariant and the claim -/

theorem Lifecycle.init_inv : Lifecycle.init.Inv := by
  constructor <;> simp [Lifecycle.init]

set_option maxRecDepth 1000 in
theorem Lifecycle.step_inv {s t : Lifecycle} {a : Action} (h : s.step a = some t)
    (hi : s.Inv) : t.Inv := by
  obtain ⟨h1, h2, h3, h4, h5, h6, h7⟩ := hi
  obtain ⟨closed, raised, panicked, wg, fd, run, reader, callA, callB⟩ := s
  simp only at h1 h2 h3 h4 h5 h6 h7
  unfold Lifecycle.step at h
  cases panicked
  · cases a
    · cases run <;> cases closed <;> simp [Lifecycle.runStep] at h <;> subst h <;>
        constructor <;> simp_all
    · cases reader <;> simp at h
      subst h
      constructor <;> simp_all
    · cases reader <;> simp at h
      obtain ⟨-, rfl⟩ := h
      constructor <;> simp_all
    · cases reader <;> simp at h
      obtain ⟨-, rfl⟩ := h
      constructor <;> simp_all
    · cases reader <;> cases closed <;> simp [Lifecycle.readerStep, Lifecycle.closeChan] at h <;>
        subst h <;> constructor <;> simp_all
    · cases callA
      · cases closed <;> simp [Lifecycle.closeStep] at h <;> subst h <;> constructor <;>
          simp_all
      · cases closed <;> simp [Lifecycle.closeStep, Lifecycle.closeChan] at h <;> subst h <;>
          constructor <;> simp_all
      · simp [Lifecycle.closeStep] at h
        obtain ⟨hw, rfl⟩ := h
        have hd : run = .done ∧ reader = .done := by
          by_cases hr : run = .done <;> by_cases hd : reader = .done <;>
            simp [hr, hd, hw] at h1 ⊢
        obtain ⟨rfl, rfl⟩ := hd
        constructor <;> simp_all
      · simp [Lifecycle.closeStep] at h
      · simp [Lifecycle.closeStep] at h
    · cases callB
      · cases closed <;> simp [Lifecycle.closeStep] at h <;> subst h <;> constructor <;>
          simp_all
      · cases closed <;> simp [Lifecycle.closeStep, Lifecycle.closeChan] at h <;> subst h <;>
          constructor <;> simp_all
      · simp [Lifecycle.closeStep] at h
        obtain ⟨hw, rfl⟩ := h
        have hd : run = .done ∧ reader = .done := by
          by_cases hr : run = .done <;> by_cases hd : reader = .done <;>
            simp [hr, hd, hw] at h1 ⊢
        obtain ⟨rfl, rfl⟩ := hd
        constructor <;> simp_all
      · simp [Lifecycle.closeStep] at h
      · simp [Lifecycle.closeStep] at h
  · simp at h

theorem Lifecycle.exec_inv : ∀ (acts : List Action) (s t : Lifecycle),
    s.exec acts = some t → s.Inv → t.Inv
  | [], s, t, h, hi => by
    simp only [Lifecycle.exec, Option.some.injEq] at h
    exact h ▸ hi
  | a :: acts, s, t, h, hi => by
    simp only [Lifecycle.exec] at h
    cases hs : s.step a with
    | none => simp [hs] at h
    | some u =>
      rw [hs] at h
      exact Lifecycle.exec_inv acts u t h (Lifecycle.step_inv hs hi)

theorem Lifecycle.reachable_inv {acts : List Action} {s : Lifecycle}
    (h : Lifecycle.init.exec acts = some s) : s.Inv :=
  Lifecycle.exec_inv acts _ _ h Lifecycle.init_inv

/-- The select statement of a call of `Close` run without interruption from a state
that has not panicked: the channel ends up closed, closed once, and nothing panics. -/
theorem Lifecycle.signalA_ok {s : Lifecycle} (hi : s.Inv) (hp : s.panicked = false)
    (hA : s.callA = .start) :
    ∃ t, s.signalA = some t ∧ t.panicked = false ∧ t.closed = true ∧ t.raised = 1 ∧
      t.callA = .waiting ∧ (s.closed = true → t = { s with callA := .waiting }) := by
  obtain ⟨closed, raised, panicked, wg, fd, run, reader, callA, callB⟩ := s
  have h2 := hi.raised_eq
  simp only at hp hA h2
  subst hp hA
  cases closed
  · refine ⟨_, rfl, rfl, rfl, ?_, rfl, ?_⟩
    · simp at h2
      simp [h2]
    · simp
  · refine ⟨_, rfl, rfl, rfl, ?_, rfl, ?_⟩
    · simpa using h2
    · simp

/-- A call of `Close` begun when the channel is closed and both goroutines have returned:
two steps, it returns, and the shared state is as before. -/
theorem Lifecycle.second_call {s : Lifecycle} (hp : s.panicked = false)
    (hc : s.closed = true) (hw : s.wg = 0) (hB : s.callB = .start) :
    s.exec [.callB, .callB] = some { s with callB := .returned } := by
  obtain ⟨closed, raised, panicked, wg, fd, run, reader, callA, callB⟩ := s
  simp only at hp hc hw hB
  subst hp hc hw hB
  rfl

theorem Lifecycle.selectSend_closed {s : Lifecycle} (hc : s.closed = true)
    (hr : s.run = .done) (req : sendMessage) :
    s.selectSend req = [SendOutcome.returned (.new "closed")] := by
  simp [Lifecycle.selectSend, hc, hr]

/-- Claim C20 as stated fails. After a call of `Close` has returned, `SendMessageToAddr`
with an address that does not resolve returns the error of `net.ResolveUDPAddr`, not the
closed error: the address is resolved before `c.close` is looked at. And when two calls of
`Close` both take the `default` branch of the `select` before either closes the channel,
the second `close(c.close)` panics. -/
theorem Close_shutdown_counterexample :
    Lifecycle.init.exec closeSchedule = some closedState ∧
    closedState.callA = .returned ∧
    toyLib.ResolveUDPAddr [120] = .error (.lib "missing port in address") ∧
    Client.SendMessageToAddr toyLib closedState [120] [104, 105] =
      [SendOutcome.returned (.lib "missing port in address")] ∧
    SendOutcome.returned (.new "closed") ∉
      Client.SendMessageToAddr toyLib closedState [120] [104, 105] ∧
    Lifecycle.init.exec racingSchedule = some racedState ∧
    racedState.panicked = true ∧ racedState.callB = .panicked := by
  have hsend : Client.SendMessageToAddr toyLib closedState [120] [104, 105] =
      [SendOutcome.returned (.lib "missing port in address")] := rfl
  refine ⟨by decide, rfl, rfl, hsend, ?_, by decide, rfl, rfl⟩
  rw [hsend]
  simp

/-- Claim C20, amended. A call of `Close` whose `select` statement runs with no other
goroutine moving between the check of `c.close` and `close(c.close)` does not panic and
leaves the channel closed, closed exactly once; in no schedule is the channel closed more than
once. A call of `Close` returns only after `run`
and `reader` have both returned, with the channel closed exactly once. A second call begun
after the first has returned returns as well, without a panic and without closing the
channel again. After `Close` has returned, `SendMessageTo` can only return the closed error;
`SendMessageToAddr` can only return the closed error when its address resolves, and returns
the error of `net.ResolveUDPAddr` when it does not. -/
theorem Close_sequential_shutdown (L : Lib) (pre acts : List Action) (t s : Lifecycle)
    (toID addr msg : List Byte)
    (hpre : Lifecycle.init.exec pre = some t) (htp : t.panicked = false)
    (htA : t.callA = .start)
    (hacts : Lifecycle.init.exec acts = some s) (hret : s.callA = .returned) :
    (t.raised ≤ 1 ∧
      ∃ u, t.signalA = some u ∧ u.panicked = false ∧ u.closed = true ∧ u.raised = 1 ∧
        u.callA = .waiting) ∧
    (s.run = .done ∧ s.reader = .done ∧ s.closed = true ∧ s.raised = 1) ∧
    (s.callB = .start →
      s.panicked = false ∧ s.exec [.callB, .callB] = some { s with callB := .returned }) ∧
    Client.SendMessageTo s toID msg = [SendOutcome.returned (.new "closed")] ∧
    (∀ a, L.ResolveUDPAddr addr = .ok a →
      Client.SendMessageToAddr L s addr msg = [SendOutcome.returned (.new "closed")]) ∧
    (∀ err, L.ResolveUDPAddr addr = .error err →
      Client.SendMessageToAddr L s addr msg = [SendOutcome.returned err]) := by
  have hti := Lifecycle.reachable_inv hpre
  have hsi := Lifecycle.reachable_inv hacts
  obtain ⟨hrun, hreader⟩ := hsi.callA_returned hret
  have hclosed : s.closed = true := hsi.callA_closed (Or.inr hret)
  have hraised : s.raised = 1 := by rw [hsi.raised_eq, if_pos hclosed]
  have hwg : s.wg = 0 := by rw [hsi.wg_eq, if_pos hrun, if_pos hreader]
  refine ⟨?_, ⟨hrun, hreader, hclosed, hraised⟩, ?_, ?_, ?_, ?_⟩
  · obtain ⟨u, h1, h2, h3, h4, h5, -⟩ := Lifecycle.signalA_ok hti htp htA
    refine ⟨?_, u, h1, h2, h3, h4, h5⟩
    rw [hti.raised_eq]
    split <;> omega
  · intro hB
    have hp : s.panicked = false := by
      cases hpan : s.panicked with
      | false => rfl
      | true =>
        rcases hsi.panicked_by hpan with h | h | h
        · rw [hret] at h; cases h
        · rw [hB] at h; cases h
        · rw [hreader] at h; cases h
    exact ⟨hp, Lifecycle.second_call hp hclosed hwg hB⟩
  · exact Lifecycle.selectSend_closed hclosed hrun _
  · intro a ha
    unfold Client.SendMessageToAddr
    rw [ha]
    exact Lifecycle.selectSend_closed hclosed hrun _
  · intro err herr
    unfold Client.SendMessageToAddr
    rw [herr]

/-- Claim C20 (amended), run on the schedule of a single call of `Close` followed by a
second call, with one address that resolves. -/
theorem Close_sequential_shutdown_witness :
    Lifecycle.init.exec [] = some Lifecycle.init ∧
    Lifecycle.init.panicked = false ∧ Lifecycle.init.callA = .start ∧
    Lifecycle.init.exec closeSchedule = some closedState ∧
    closedState.callA = .returned ∧
    toyLib.ResolveUDPAddr [1, 58, 2] = .ok { IP := [1], Port := 2, Zone := [] } ∧
    ((Lifecycle.init.raised ≤ 1 ∧
      ∃ u, Lifecycle.init.signalA = some u ∧ u.panicked = false ∧ u.closed = true ∧
        u.raised = 1 ∧ u.callA = .waiting) ∧
    (closedState.run = .done ∧ closedState.reader = .done ∧ closedState.closed = true ∧
      closedState.raised = 1) ∧
    (closedState.callB = .start →
      closedState.panicked = false ∧
      closedState.exec [.callB, .callB] = some { closedState with callB := .returned }) ∧
    Client.SendMessageTo closedState [49] [104, 105] =
      [SendOutcome.returned (.new "closed")] ∧
    (∀ a, toyLib.ResolveUDPAddr [1, 58, 2] = .ok a →
      Client.SendMessageToAddr toyLib closedState [1, 58, 2] [104, 105] =
        [SendOutcome.returned (.new "closed")]) ∧
    (∀ err, toyLib.ResolveUDPAddr [1, 58, 2] = .error err →
      Client.SendMessageToAddr toyLib closedState [1, 58, 2] [104, 105] =
        [SendOutcome.returned err])) :=
  ⟨rfl, rfl, rfl, by decide, rfl, rfl,
    Close_sequential_shutdown toyLib [] closeSchedule Lifecycle.init closedState [49]
      [1, 58, 2] [104, 105] rfl rfl rfl (by decide) rfl⟩

end ProtoExample
